import Mathlib

/-!
# sparsedemo: transfer pipeline and virtual-page manager (`jni/gfx.c`)

A shallow embedding of the stage queue set, the staging-buffer pipeline and the
page-rectangle reconciliation of `jni/gfx.c`, followed by the properties proved
about them.

Conventions of the embedding:
* C `int` values are `Int` (signed overflow is undefined behaviour in C and is
  not modelled); `uint64_t` values are `Nat`, reduced modulo `2^64` where the
  source can wrap.
* C arrays are total functions from the index; the ring-buffer counters are
  `Nat`, and a state is well formed when they are below `XFER_QUEUE_MAX_SIZE`.
* A failed `assert` or a division by zero ends the run: `Halt.fault`.
  A thread suspended in `pthread_cond_wait` is the outcome `Halt.blocked`.
* Calls into OpenGL are recorded in a ghost list `gl_calls`; values that come
  back from the driver or from the clock are parameters of the operation.
-/

namespace SparseDemo

/-! ## Constants -/

abbrev XFER_NUM_BUFFERS : Nat := 8
abbrev XFER_BUFFER_SIZE : Nat := 2 * 1024 * 1024
abbrev XFER_NUM_QUEUES : Nat := 4
abbrev XFER_QUEUE_IDLE : Nat := 0
abbrev XFER_QUEUE_READ : Nat := 1
abbrev XFER_QUEUE_UPLOAD : Nat := 2
abbrev XFER_QUEUE_WAIT : Nat := 3
abbrev XFER_QUEUE_MAX_SIZE : Nat := XFER_NUM_BUFFERS + 1
abbrev XFER_NUM_THREADS : Nat := 4
abbrev XFER_BENCHMARK_SIZE : Nat := 4096
abbrev XFER_BENCHMARK_HISTOGRAM : Nat := 16

/-! ## Stage queue set (`struct xfer_queue`) -/

/-- The shared queue set: `queues[stage][slot]`, `queue_counters[stage][0]` is the
read counter and `queue_counters[stage][1]` the write counter. The mutex and the
condition variables carry no data; every operation below is one critical section. -/
structure xfer_queue where
  stopped : Int
  queues : Nat → Nat → Int
  queue_counters : Nat → Nat → Nat
  queue_waiting : Nat → Int

/-- What a call of `xfer_queue_get` comes to: it returns (with the values written
to `output[0..]` in order and the return value), or it is suspended in
`pthread_cond_wait` with the lock released, or its entry assertion fails. -/
inductive get_result where
  | returned (queue : xfer_queue) (output : List Int) (ret : Int)
  | waiting (queue : xfer_queue)
  | assert_failed

/-- The state a call of `xfer_queue_get` leaves behind, when there is one. -/
def get_result.state? : get_result → Option xfer_queue
  | .returned q _ _ => some q
  | .waiting q => some q
  | .assert_failed => none

/-- Source function `xfer_queue_stop`: set the flag; the broadcasts change no data. -/
def xfer_queue_stop (queue : xfer_queue) : xfer_queue :=
  { queue with stopped := 1 }

/-- The inner loop of `xfer_queue_get`, `while(rd != wr && got < max_out)`, on one
row of `queues`. The first argument counts `max_out - got`. Returns the row, the
read counter and the values written to `output` from index `got` on. -/
def xfer_queue_drain (wr : Nat) : Nat → (Nat → Int) → Nat → (Nat → Int) × Nat × List Int
  | 0, row, rd => (row, rd, [])
  | left + 1, row, rd =>
    if rd ≠ wr then
      let thing := row rd
      let r := xfer_queue_drain wr left (Function.update row rd (-1)) ((rd + 1) % XFER_QUEUE_MAX_SIZE)
      (r.1, r.2.1, thing :: r.2.2)
    else (row, rd, [])

/-- The outer loop of `xfer_queue_get`, from a test of `while(!stopped)` (with the
local `stopped` still 0) to the return or to the suspension in `pthread_cond_wait`. -/
def xfer_queue_get_loop (queue : xfer_queue) (queue_num : Nat) (wait : Bool) (max_out : Int) :
    get_result :=
  let rd := queue.queue_counters queue_num 0
  let wr := queue.queue_counters queue_num 1
  if queue.stopped ≠ 0 then
    .returned queue [] (-1)
  else if rd = wr then
    if wait then
      .waiting { queue with
        queue_waiting := Function.update queue.queue_waiting queue_num
          (queue.queue_waiting queue_num + 1) }
    else
      .returned queue [] 0
  else
    let r := xfer_queue_drain wr max_out.toNat (queue.queues queue_num) rd
    .returned
      { queue with
        queues := Function.update queue.queues queue_num r.1
        queue_counters := Function.update queue.queue_counters queue_num
          (Function.update (queue.queue_counters queue_num) 0 r.2.1) }
      r.2.2 r.2.2.length

/-- Source function `xfer_queue_get`: `assert(output && max_out)`, then the loop. The caller's
`output` buffer is taken to be a valid pointer. -/
def xfer_queue_get (queue : xfer_queue) (queue_num : Nat) (wait : Bool) (max_out : Int) :
    get_result :=
  if max_out = 0 then .assert_failed
  else xfer_queue_get_loop queue queue_num wait max_out

/-- A get that was suspended in `pthread_cond_wait` and is woken (by a put or by
the broadcast of `xfer_queue_stop`): `queue_waiting[queue_num] -= 1`, then the
loop is entered again. -/
def xfer_queue_get_resume (queue : xfer_queue) (queue_num : Nat) (max_out : Int) : get_result :=
  xfer_queue_get_loop
    { queue with
      queue_waiting := Function.update queue.queue_waiting queue_num
        (queue.queue_waiting queue_num - 1) }
    queue_num true max_out

/-- Source function `xfer_queue_put`: returns the new state and the return value
(`1` accepted, `0` full, `-1` stopped). -/
def xfer_queue_put (queue : xfer_queue) (queue_num : Nat) (element : Int) : xfer_queue × Int :=
  let rd := queue.queue_counters queue_num 0
  let wr := queue.queue_counters queue_num 1
  let next := (wr + 1) % XFER_QUEUE_MAX_SIZE
  if queue.stopped = 0 ∧ next ≠ rd then
    ({ queue with
        queues := Function.update queue.queues queue_num
          (Function.update (queue.queues queue_num) wr element)
        queue_counters := Function.update queue.queue_counters queue_num
          (Function.update (queue.queue_counters queue_num) 1 next) },
      if queue.stopped ≠ 0 then -1 else 1)
  else
    (queue, if queue.stopped ≠ 0 then -1 else 0)

/-! ### The queue as a list -/

/-- Number of values held by a stage: the slots from the read counter up to the
write counter, cyclically. -/
def queue_size (queue : xfer_queue) (queue_num : Nat) : Nat :=
  (queue.queue_counters queue_num 1 + XFER_QUEUE_MAX_SIZE - queue.queue_counters queue_num 0)
    % XFER_QUEUE_MAX_SIZE

/-- The `n` values of a row from slot `rd` on, cyclically. -/
def ring_list (row : Nat → Int) (rd n : Nat) : List Int :=
  (List.range n).map (fun i => row ((rd + i) % XFER_QUEUE_MAX_SIZE))

/-- The values held by a stage, oldest first. -/
def queue_contents (queue : xfer_queue) (queue_num : Nat) : List Int :=
  ring_list (queue.queues queue_num) (queue.queue_counters queue_num 0) (queue_size queue queue_num)

/-- The counters of a stage index into its row. -/
def counters_ok (queue : xfer_queue) (queue_num : Nat) : Prop :=
  queue.queue_counters queue_num 0 < XFER_QUEUE_MAX_SIZE ∧
  queue.queue_counters queue_num 1 < XFER_QUEUE_MAX_SIZE

instance (queue : xfer_queue) (queue_num : Nat) : Decidable (counters_ok queue queue_num) := by
  unfold counters_ok; infer_instance


/-! ## Outcomes, integer helpers, OpenGL calls -/

/-- Why a run does not return: `fault` is a failed `assert` or a division by zero,
`blocked` is a thread suspended in `pthread_cond_wait`. -/
inductive Halt where
  | fault
  | blocked
  deriving DecidableEq, Repr

/-- C integer division `a / b` on `int`: truncating, undefined for `b = 0`. -/
def cdiv (a b : Int) : Except Halt Int :=
  if b = 0 then .error .fault else .ok (Int.tdiv a b)

/-- Conversion of an `int` to `uint64_t`. -/
def to_uint64 (a : Int) : Nat := (a % 2 ^ 64).toNat

/-- The C macro `MIN(a, b)`, `((a) < (b) ? (a) : (b))`. -/
def MIN (a b : Int) : Int := if a < b then a else b

/-- The C macro `MAX(a, b)`, `((a) > (b) ? (a) : (b))`. -/
def MAX (a b : Int) : Int := if a > b then a else b

abbrev GL_UNSIGNALED : Nat := 0x9118
abbrev GL_SIGNALED : Nat := 0x9119
abbrev GL_ALREADY_SIGNALED : Nat := 0x911A
abbrev GL_TIMEOUT_EXPIRED : Nat := 0x911B
abbrev GL_CONDITION_SATISFIED : Nat := 0x911C
abbrev GL_WAIT_FAILED : Nat := 0x911D

/-- The OpenGL commands the pipeline issues, as recorded in the ghost list `gl_calls`.
Binding calls and timer queries carry no data of the model and are not recorded. -/
inductive gl_call where
  | glTexPageCommitmentARB (xoffset yoffset width height : Int) (commit : Bool)
  | glCompressedTexSubImage2D (xoffset yoffset width height : Int) (format : Int)
      (imageSize : Nat)
  | glFenceSync (sync : Nat)
  | glClientWaitSync (sync : Nat) (flush : Bool) (timeout : Nat)
  | glWaitSync (sync : Nat)
  | glGetSynciv (sync : Nat)
  | glDeleteSync (sync : Nat)
  deriving DecidableEq, Repr

/-- The call `memcpy(dst + d, src + s, n)` on memories given by byte offset. -/
def memcpy (dst : Int → Nat) (d : Int) (src : Int → Nat) (s : Int) (n : Nat) : Int → Nat :=
  fun a => if d ≤ a ∧ a < d + n then src (s + (a - d)) else dst a

/-! ## Staging buffers (`struct xfer_buffer`) -/

/-- One staging buffer. `pbo_buffer` is the mapped memory by byte offset; `src_ptr` is
the byte offset of the source pointer from the start of the mapped texture file;
`syncpt` is the fence object, `0` when there is none. -/
structure xfer_buffer where
  size : Nat
  pbo_buffer : Int → Nat
  pbo : Nat
  timer_query : Nat
  syncpt : Nat
  src_ptr : Int
  tex_format : Int
  src_x : Int
  src_y : Int
  width : Int
  height : Int
  src_pitch : Int
  dst_tex : Nat
  dst_x : Int
  dst_y : Int
  block_width : Int
  block_height : Int
  block_size : Int
  blit_time : Nat
  upload_time : Nat
  start_frame : Nat

/-- Source function `blockblit2d`: copies `rows` runs of `cols * block_size` bytes. Returns the
destination memory and `rows * cols`. A negative byte count handed to `memcpy`
is a fault. -/
def blockblit2d (src : Int → Nat) (src_pitch src_x src_y : Int) (dst : Int → Nat)
    (dst_pitch block_width block_height block_size width height : Int) :
    Except Halt ((Int → Nat) × Int) := do
  let cols ← cdiv width block_width
  let rows ← cdiv height block_height
  if 0 < rows ∧ cols * block_size < 0 then throw Halt.fault
  let dst' := (List.range rows.toNat).foldl
    (fun (d : Int → Nat) (row : Nat) =>
      memcpy d ((row : Int) * dst_pitch) src
        ((Int.tdiv src_y block_height + (row : Int)) * src_pitch
          + Int.tdiv src_x block_width * block_size)
        (cols * block_size).toNat)
    dst
  pure (dst', rows * cols)

/-- Source function `xfer_buffer_init`: records the size and clears the fence; the buffer object,
its mapping and the timer query come from the driver and are left as they are. -/
def xfer_buffer_init (b : xfer_buffer) (xfer_size : Nat) : xfer_buffer :=
  { b with size := xfer_size, syncpt := 0 }

/-- Source function `xfer_start`: the two assertions, then the descriptor is stored. The size is
computed in `int`, left to right, and converted to `uint64_t`. The `int` steps are
exact here: they are the values the C code computes as long as none of them
overflows, which the theorems that rest on the size assume. -/
def xfer_start (b : xfer_buffer) (dst_tex : Nat) (tex_format : Int) (src_ptr : Int)
    (src_pitch src_x src_y dst_x dst_y block_width block_height block_size width height : Int)
    (start_frame : Nat) : Except Halt xfer_buffer := do
  let q1 ← cdiv width block_width
  let q2 ← cdiv (q1 * height) block_height
  let size_bytes := to_uint64 (Int.tdiv (q2 * block_size) 8)
  if ¬ size_bytes < b.size then throw Halt.fault
  if ¬ b.syncpt = 0 then throw Halt.fault
  pure { b with
    dst_tex := dst_tex, tex_format := tex_format, src_ptr := src_ptr, src_pitch := src_pitch,
    src_x := src_x, src_y := src_y, dst_x := dst_x, dst_y := dst_y,
    block_width := block_width, block_height := block_height, block_size := block_size,
    width := width, height := height, start_frame := start_frame }

/-- Source function `xfer_buffer_blit`: the block copy from the texture file `mem` (by byte offset
from its start) into the mapped buffer. -/
def xfer_buffer_blit (b : xfer_buffer) (mem : Int → Nat) : Except Halt xfer_buffer := do
  let q ← cdiv b.width b.block_width
  let dst_pitch := q * Int.tdiv b.block_size 8
  let r ← blockblit2d (fun a => mem (b.src_ptr + a)) b.src_pitch b.src_x b.src_y
    b.pbo_buffer dst_pitch b.block_width b.block_height (Int.tdiv b.block_size 8)
    b.width b.height
  pure { b with pbo_buffer := r.1 }

/-- Source function `xfer_buffer_upload`: commits the destination region, uploads from the buffer and
creates the fence `sync` (the value returned by `glFenceSync`). -/
def xfer_buffer_upload (b : xfer_buffer) (sync : Nat) :
    Except Halt (xfer_buffer × List gl_call) := do
  let q1 ← cdiv b.width b.block_width
  let q2 ← cdiv (q1 * b.height) b.block_height
  let bytes := to_uint64 (Int.tdiv (q2 * b.block_size) 8)
  pure ({ b with syncpt := sync },
    [gl_call.glTexPageCommitmentARB b.dst_x b.dst_y b.width b.height true,
     gl_call.glCompressedTexSubImage2D b.dst_x b.dst_y b.width b.height b.tex_format bytes,
     gl_call.glFenceSync sync])

/-- Source function `xfer_buffer_finish`. `cond` is what `glClientWaitSync` returns, `sync_status`
what `glGetSynciv` stores, `query_result` what `glGetQueryObjectui64v` stores.
In the `switch` on `cond` the case `GL_TIMEOUT_EXPIRED` has no `break` and runs on
into the default case. Returns the buffer, the status and the commands issued. -/
def xfer_buffer_finish (b : xfer_buffer) (server_wait client_wait flush : Bool)
    (client_timeout_ns : Nat) (cond sync_status query_result : Nat) :
    xfer_buffer × Int × List gl_call :=
  let status0 : Int := 0
  let status1 : Int :=
    if client_wait then
      if cond = GL_ALREADY_SIGNALED ∨ cond = GL_CONDITION_SATISFIED then 1
      else if cond = GL_TIMEOUT_EXPIRED then -1
      else -1
    else status0
  let calls1 := if client_wait then [gl_call.glClientWaitSync b.syncpt flush client_timeout_ns]
    else []
  let calls2 := if server_wait then [gl_call.glWaitSync b.syncpt] else []
  let query := !client_wait && decide (status1 = 0)
  let status2 : Int :=
    if query then
      if sync_status = GL_SIGNALED then 1
      else if sync_status = GL_UNSIGNALED then 0
      else -1
    else status1
  let calls3 := if query then [gl_call.glGetSynciv b.syncpt] else []
  let calls4 := if status2 = 1 then [gl_call.glDeleteSync b.syncpt] else []
  ({ b with syncpt := if status2 = 1 then 0 else b.syncpt, upload_time := query_result },
    status2, calls1 ++ calls2 ++ calls3 ++ calls4)

/-! ## The transfer pipeline (`struct xfer`) -/

/-- The pipeline state. Arrays indexed by a C `int` are functions on `Int`.
`gl_calls` is a ghost field: the OpenGL commands issued so far. -/
structure xfer where
  buffers : Int → xfer_buffer
  queue : xfer_queue
  upload_times : Int → Nat
  upload_idx : Int
  upload_bytes : Nat
  upload_nsec : Nat
  blit_times : Int → Nat
  blit_idx : Int
  blit_bytes : Nat
  blit_nsec : Nat
  latency_histogram : Int → Nat
  gl_calls : List gl_call

/-- One pass of the `while` loop of `xfer_thread_main`: a blocking get of one index
from `XFER_QUEUE_READ`, the blit (timed by the clock: `blit_time`), the put onto
`XFER_QUEUE_UPLOAD`. The flag tells whether the loop goes on. The pass is taken as
one step, although the blit runs outside the lock. -/
def xfer_thread_main_step (x : xfer) (mem : Int → Nat) (blit_time : Nat) :
    Except Halt (xfer × Bool) :=
  match xfer_queue_get x.queue XFER_QUEUE_READ true 1 with
  | .assert_failed => throw Halt.fault
  | .waiting _ => throw Halt.blocked
  | .returned q out ret =>
    if ret = 1 then do
      let buffer_id := out.headD (-1)
      let b ← xfer_buffer_blit (x.buffers buffer_id) mem
      let p := xfer_queue_put q XFER_QUEUE_UPLOAD buffer_id
      pure ({ x with
          buffers := Function.update x.buffers buffer_id { b with blit_time := blit_time }
          queue := p.1 },
        decide (p.2 = 1))
    else
      pure ({ x with queue := q }, false)

/-- Source function `xfer_init`, without the thread creation: every buffer is initialised, every slot
of the four queues is set to `-1`, then `Idle` is filled with `0 .. XFER_NUM_BUFFERS-1`
and its write counter set. The other counters and `stopped` are not written. -/
def xfer_init (x : xfer) (buffer_size : Nat) : xfer :=
  { x with
    buffers := fun i =>
      if 0 ≤ i ∧ i < (XFER_NUM_BUFFERS : Int) then xfer_buffer_init (x.buffers i) buffer_size
      else x.buffers i
    queue :=
      { x.queue with
        queues := fun i j =>
          if i = XFER_QUEUE_IDLE ∧ j < XFER_NUM_BUFFERS then (j : Int)
          else if i < XFER_NUM_QUEUES ∧ j < XFER_QUEUE_MAX_SIZE then -1
          else x.queue.queues i j
        queue_counters := Function.update x.queue.queue_counters XFER_QUEUE_IDLE
          (Function.update (x.queue.queue_counters XFER_QUEUE_IDLE) 1 XFER_NUM_BUFFERS) } }

/-- The body of the `for` loop of `xfer_upload` for one drained index. -/
def xfer_upload_one (syncs : Int → Nat) (x : xfer) (buffer_id : Int) : Except Halt xfer := do
  let r ← xfer_buffer_upload (x.buffers buffer_id) (syncs buffer_id)
  pure { x with
    buffers := Function.update x.buffers buffer_id r.1
    gl_calls := x.gl_calls ++ r.2
    queue := (xfer_queue_put x.queue XFER_QUEUE_WAIT buffer_id).1 }

/-- Source function `xfer_upload`: drains `XFER_QUEUE_UPLOAD` and, for each index, uploads and puts
it onto `XFER_QUEUE_WAIT`. `syncs` gives the fence created for each buffer. The loop
runs over the `num` values written by the get (none when it returns `-1`). -/
def xfer_upload (x : xfer) (wait : Bool) (syncs : Int → Nat) : Except Halt (xfer × Int) :=
  match xfer_queue_get x.queue XFER_QUEUE_UPLOAD wait XFER_QUEUE_MAX_SIZE with
  | .assert_failed => throw Halt.fault
  | .waiting _ => throw Halt.blocked
  | .returned q out num => do
    let x' ← (out.take num.toNat).foldlM (xfer_upload_one syncs) { x with queue := q }
    pure (x', num)

/-- The body of the `for` loop of `xfer_finish` for one drained index; the second
component counts `num_finished`. `sync_status` and `query_result` give, per buffer,
what the driver reports. `upload_time / num_pages` divides a `uint64_t` by an `int`
converted to `uint64_t`. -/
def xfer_finish_one (frame_number : Nat) (sync_status query_result : Int → Nat)
    (s : xfer × Int) (buffer_id : Int) : Except Halt (xfer × Int) := do
  let x := s.1
  let b := x.buffers buffer_id
  let num_pages : Int := Int.tdiv b.width 512 * Int.tdiv b.height 512
  let q1 ← cdiv b.width b.block_width
  let q2 ← cdiv b.height b.block_height
  let num_bytes := to_uint64 (Int.tdiv b.block_size 8 * q1 * q2)
  let latency_frames := (frame_number + 2 ^ 64 - b.start_frame) % 2 ^ 64
  let latency_idx : Int :=
    if latency_frames ≥ XFER_BENCHMARK_HISTOGRAM then (XFER_BENCHMARK_HISTOGRAM : Int) - 1
    else (latency_frames : Int)
  if to_uint64 num_pages = 0 then throw Halt.fault
  let r := xfer_buffer_finish b true false false 0 0
    (sync_status buffer_id) (query_result buffer_id)
  let x1 : xfer := { x with
    latency_histogram := Function.update x.latency_histogram latency_idx
      ((x.latency_histogram latency_idx + 1) % 2 ^ 64)
    upload_times := Function.update x.upload_times x.upload_idx
      (b.upload_time / to_uint64 num_pages)
    upload_idx := Int.tmod (x.upload_idx + 1) XFER_BENCHMARK_SIZE
    upload_bytes := (x.upload_bytes + num_bytes) % 2 ^ 64
    upload_nsec := (x.upload_nsec + b.upload_time) % 2 ^ 64
    blit_times := Function.update x.blit_times x.blit_idx (b.blit_time / to_uint64 num_pages)
    blit_idx := Int.tmod (x.blit_idx + 1) XFER_BENCHMARK_SIZE
    blit_bytes := (x.blit_bytes + num_bytes) % 2 ^ 64
    blit_nsec := (x.blit_nsec + b.blit_time) % 2 ^ 64
    buffers := Function.update x.buffers buffer_id r.1
    gl_calls := x.gl_calls ++ r.2.2 }
  if r.2.1 ≠ 0 then
    pure ({ x1 with queue := (xfer_queue_put x1.queue XFER_QUEUE_IDLE buffer_id).1 }, s.2 + 1)
  else
    pure ({ x1 with queue := (xfer_queue_put x1.queue XFER_QUEUE_WAIT buffer_id).1 }, s.2)

/-- Source function `xfer_finish`: a non-blocking drain of `XFER_QUEUE_WAIT`; each buffer is recorded
in the telemetry and then put onto `Idle` or back onto `XFER_QUEUE_WAIT`.
Returns `num_finished`. -/
def xfer_finish (x : xfer) (frame_number : Nat) (sync_status query_result : Int → Nat) :
    Except Halt (xfer × Int) :=
  match xfer_queue_get x.queue XFER_QUEUE_WAIT false XFER_QUEUE_MAX_SIZE with
  | .assert_failed => throw Halt.fault
  | .waiting _ => throw Halt.blocked
  | .returned q out num =>
    (out.take num.toNat).foldlM (xfer_finish_one frame_number sync_status query_result)
      ({ x with queue := q }, 0)

/-! ## The virtual-page manager (`struct gfx`) -/

/-- The graphics state. `texmmap` is the mapped texture file by byte offset from
`texmmap_ptr`. -/
structure gfx where
  program : Nat
  vbo : Nat
  vao : Nat
  texture : Nat
  texmmap : Int → Nat
  tex_format : Int
  tex_width : Int
  tex_height : Int
  page_width : Int
  page_height : Int
  page_depth : Int
  block_width : Int
  block_height : Int
  block_size : Int
  xfer : xfer
  rect_page_x0 : Int
  rect_page_y0 : Int
  rect_page_x1 : Int
  rect_page_y1 : Int

/-- Source function `gfx_request_pages`: clamps the upper corner, returns `1` on an empty range,
then either starts a transfer (commit) or toggles the commitment off (uncommit).
`page_bytes` is computed and compared but the comparison guards an empty block. -/
def gfx_request_pages (g : gfx) (commit : Bool) (page_x0 page_y0 page_x1 page_y1 : Int)
    (wait : Bool) (frame_number : Nat) : Except Halt (gfx × Int) := do
  let grid_w ← cdiv g.tex_width g.page_width
  let page_x1 := MIN page_x1 grid_w
  let grid_h ← cdiv g.tex_height g.page_height
  let page_y1 := MIN page_y1 grid_h
  if page_x1 ≤ page_x0 ∨ page_y1 ≤ page_y0 then
    pure (g, 1)
  else do
    let _ ← cdiv g.page_width g.block_width
    let _ ← cdiv g.page_height g.block_height
    if commit then
      match xfer_queue_get g.xfer.queue XFER_QUEUE_IDLE wait 1 with
      | .assert_failed => throw Halt.fault
      | .waiting _ => throw Halt.blocked
      | .returned q out ret =>
        if ret ≠ 1 then
          pure ({ g with xfer := { g.xfer with queue := q } }, ret)
        else do
          let buffer_id := out.headD (-1)
          let q1 ← cdiv g.tex_width g.block_width
          let src_pitch := q1 * Int.tdiv g.block_size 8
          let b ← xfer_start (g.xfer.buffers buffer_id) g.texture g.tex_format 0 src_pitch
            (page_x0 * g.page_width) (page_y0 * g.page_height)
            (page_x0 * g.page_width) (page_y0 * g.page_height)
            g.block_width g.block_height g.block_size
            ((page_x1 - page_x0) * g.page_width) ((page_y1 - page_y0) * g.page_height)
            frame_number
          let p := xfer_queue_put q XFER_QUEUE_READ buffer_id
          let g' := { g with xfer := { g.xfer with
            buffers := Function.update g.xfer.buffers buffer_id b
            queue := p.1 } }
          if p.2 ≠ 1 then pure (g', -1) else pure (g', 1)
    else
      pure ({ g with xfer := { g.xfer with
          gl_calls := g.xfer.gl_calls ++
            [gl_call.glTexPageCommitmentARB (page_x0 * g.page_width) (page_y0 * g.page_height)
              ((page_x1 - page_x0) * g.page_width) ((page_y1 - page_y0) * g.page_height)
              false] } }, 1)

/-- One call of `gfx_request_pages` made by `gfx_request_rect`. -/
structure page_request where
  commit : Bool
  x0 : Int
  y0 : Int
  x1 : Int
  y1 : Int
  deriving DecidableEq, Repr

/-- A call of `gfx_request_pages` whose return value is dropped, as in
`gfx_request_rect`. -/
def gfx_request_pages_ (g : gfx) (r : page_request) (wait : Bool) (frame_number : Nat) :
    Except Halt gfx := do
  let p ← gfx_request_pages g r.commit r.x0 r.y0 r.x1 r.y1 wait frame_number
  pure p.1

/-- The absolute value as written in the source: `v < 0 ? -v : v`. -/
def cabs (v : Int) : Int := if v < 0 then -v else v

/-- Source function `gfx_request_rect`, statement by statement. -/
def gfx_request_rect (g : gfx) (page_x0 page_y0 page_x1 page_y1 : Int) (wait : Bool)
    (frame_number : Nat) : Except Halt (gfx × Int) :=
  if g.rect_page_x0 = page_x0 ∧ g.rect_page_y0 = page_y0 ∧
      g.rect_page_x1 = page_x1 ∧ g.rect_page_y1 = page_y1 then
    pure (g, 1)
  else do
    let g4 ←
      if g.rect_page_x1 ≤ g.rect_page_x0 ∨ g.rect_page_y1 ≤ g.rect_page_y0 ∨
          page_x1 < g.rect_page_x0 ∨ page_x0 > g.rect_page_x1 ∨
          page_y1 < g.rect_page_y0 ∨ page_y0 > g.rect_page_y1 then do
        let g1 ← gfx_request_pages_ g
          ⟨false, g.rect_page_x0, g.rect_page_y0, g.rect_page_x1, g.rect_page_y1⟩
          wait frame_number
        gfx_request_pages_ g1 ⟨true, page_x0, page_y0, page_x1, page_y1⟩ wait frame_number
      else do
        let bottom_y := MIN g.rect_page_y0 page_y0
        let bottom_height := g.rect_page_y0 - page_y0
        let top_y := MIN g.rect_page_y1 page_y1
        let top_height := page_y1 - g.rect_page_y1
        let left_x := MIN g.rect_page_x0 page_x0
        let left_width := g.rect_page_x0 - page_x0
        let right_x := MIN g.rect_page_x1 page_x1
        let right_width := page_x1 - g.rect_page_x1
        let g1 ←
          if bottom_height ≠ 0 then
            gfx_request_pages_ g
              ⟨decide (bottom_height > 0),
                if bottom_height < 0 then g.rect_page_x0 else page_x0,
                bottom_y,
                if bottom_height < 0 then g.rect_page_x1 else page_x1,
                bottom_y + cabs bottom_height⟩ wait frame_number
          else pure g
        let g2 ←
          if top_height ≠ 0 then
            gfx_request_pages_ g1
              ⟨decide (top_height > 0),
                if top_height < 0 then g1.rect_page_x0 else page_x0,
                top_y,
                if top_height < 0 then g1.rect_page_x1 else page_x1,
                top_y + cabs top_height⟩ wait frame_number
          else pure g1
        let g3 ←
          if left_width ≠ 0 then
            gfx_request_pages_ g2
              ⟨decide (left_width > 0),
                left_x, bottom_y + cabs bottom_height,
                left_x + cabs left_width, top_y⟩ wait frame_number
          else pure g2
        if right_width ≠ 0 then
          gfx_request_pages_ g3
            ⟨decide (right_width > 0),
              right_x, bottom_y + cabs bottom_height,
              right_x + cabs right_width, top_y⟩ wait frame_number
        else pure g3
    pure ({ g4 with
        rect_page_x0 := page_x0, rect_page_y0 := page_y0,
        rect_page_x1 := page_x1, rect_page_y1 := page_y1 }, 1)

/-- The call for the bottom strip (`if(bottom_height != 0)`), for the tracked
rectangle `(rx0, ry0)-(rx1, ry1)` and the new rectangle `(px0, py0)-(px1, py1)`. -/
def bottom_strip (rx0 ry0 rx1 _ry1 px0 py0 px1 _py1 : Int) : List page_request :=
  let bottom_y := MIN ry0 py0
  let bottom_height := ry0 - py0
  if bottom_height ≠ 0 then
    [⟨decide (bottom_height > 0), if bottom_height < 0 then rx0 else px0, bottom_y,
      if bottom_height < 0 then rx1 else px1, bottom_y + cabs bottom_height⟩]
  else []

/-- The call for the top strip (`if(top_height != 0)`). -/
def top_strip (rx0 _ry0 rx1 ry1 px0 _py0 px1 py1 : Int) : List page_request :=
  let top_y := MIN ry1 py1
  let top_height := py1 - ry1
  if top_height ≠ 0 then
    [⟨decide (top_height > 0), if top_height < 0 then rx0 else px0, top_y,
      if top_height < 0 then rx1 else px1, top_y + cabs top_height⟩]
  else []

/-- The call for the left strip (`if(left_width != 0)`). -/
def left_strip (rx0 ry0 _rx1 ry1 px0 py0 _px1 py1 : Int) : List page_request :=
  let bottom_y := MIN ry0 py0
  let bottom_height := ry0 - py0
  let top_y := MIN ry1 py1
  let left_x := MIN rx0 px0
  let left_width := rx0 - px0
  if left_width ≠ 0 then
    [⟨decide (left_width > 0), left_x, bottom_y + cabs bottom_height,
      left_x + cabs left_width, top_y⟩]
  else []

/-- The call for the right strip (`if(right_width != 0)`). -/
def right_strip (_rx0 ry0 rx1 ry1 _px0 py0 px1 py1 : Int) : List page_request :=
  let bottom_y := MIN ry0 py0
  let bottom_height := ry0 - py0
  let top_y := MIN ry1 py1
  let right_x := MIN rx1 px1
  let right_width := px1 - rx1
  if right_width ≠ 0 then
    [⟨decide (right_width > 0), right_x, bottom_y + cabs bottom_height,
      right_x + cabs right_width, top_y⟩]
  else []

/-- The calls of `gfx_request_pages` that `gfx_request_rect` makes, in order, for the
tracked rectangle `(rx0, ry0)-(rx1, ry1)` and the new rectangle `(px0, py0)-(px1, py1)`,
as long as each call returns (`gfx_request_rect_eq_run` below). -/
def gfx_request_rect_calls (rx0 ry0 rx1 ry1 px0 py0 px1 py1 : Int) : List page_request :=
  if rx0 = px0 ∧ ry0 = py0 ∧ rx1 = px1 ∧ ry1 = py1 then []
  else if rx1 ≤ rx0 ∨ ry1 ≤ ry0 ∨ px1 < rx0 ∨ px0 > rx1 ∨ py1 < ry0 ∨ py0 > ry1 then
    [⟨false, rx0, ry0, rx1, ry1⟩, ⟨true, px0, py0, px1, py1⟩]
  else
    bottom_strip rx0 ry0 rx1 ry1 px0 py0 px1 py1 ++ top_strip rx0 ry0 rx1 ry1 px0 py0 px1 py1 ++
    left_strip rx0 ry0 rx1 ry1 px0 py0 px1 py1 ++ right_strip rx0 ry0 rx1 ry1 px0 py0 px1 py1

/-- The pages of the half-open rectangle `(x0, y0)-(x1, y1)`. -/
def in_rect (x0 y0 x1 y1 x y : Int) : Prop := x0 ≤ x ∧ x < x1 ∧ y0 ≤ y ∧ y < y1

/-- The pages a page-range request covers. -/
def page_request.covers (r : page_request) (x y : Int) : Prop :=
  in_rect r.x0 r.y0 r.x1 r.y1 x y

/-- Two requests share no page. -/
def page_request.disjoint (a b : page_request) : Prop :=
  ∀ x y, ¬ (a.covers x y ∧ b.covers x y)

/-- Runs a list of page-range requests in order, dropping the return values. -/
def gfx_run_requests (g : gfx) (reqs : List page_request) (wait : Bool) (frame_number : Nat) :
    Except Halt gfx :=
  reqs.foldlM (fun g r => gfx_request_pages_ g r wait frame_number) g

/-! ## The zeroed state (`memset(gfx, 0, sizeof(struct gfx))` in `gfx_init`) -/

/-- A staging buffer of the zeroed state. -/
def xfer_buffer_zero : xfer_buffer :=
  { size := 0, pbo_buffer := fun _ => 0, pbo := 0, timer_query := 0, syncpt := 0,
    src_ptr := 0, tex_format := 0, src_x := 0, src_y := 0, width := 0, height := 0,
    src_pitch := 0, dst_tex := 0, dst_x := 0, dst_y := 0,
    block_width := 0, block_height := 0, block_size := 0,
    blit_time := 0, upload_time := 0, start_frame := 0 }

/-- The queue set of the zeroed state. -/
def xfer_queue_zero : xfer_queue :=
  { stopped := 0, queues := fun _ _ => 0, queue_counters := fun _ _ => 0,
    queue_waiting := fun _ => 0 }

/-- The pipeline of the zeroed state; no OpenGL command has been issued. -/
def xfer_zero : xfer :=
  { buffers := fun _ => xfer_buffer_zero, queue := xfer_queue_zero,
    upload_times := fun _ => 0, upload_idx := 0, upload_bytes := 0, upload_nsec := 0,
    blit_times := fun _ => 0, blit_idx := 0, blit_bytes := 0, blit_nsec := 0,
    latency_histogram := fun _ => 0, gl_calls := [] }

/-- The graphics state after the `memset` of `gfx_init`. -/
def gfx_zero : gfx :=
  { program := 0, vbo := 0, vao := 0, texture := 0, texmmap := fun _ => 0, tex_format := 0,
    tex_width := 0, tex_height := 0, page_width := 0, page_height := 0, page_depth := 0,
    block_width := 0, block_height := 0, block_size := 0, xfer := xfer_zero,
    rect_page_x0 := 0, rect_page_y0 := 0, rect_page_x1 := 0, rect_page_y1 := 0 }

/-- The end-to-end scenario of the specification: a 4096 x 4096 texture with
256 x 256 pages (a 16 x 16 page grid) and 8 x 8 blocks of 128 bits, the pipeline as
`xfer_init` leaves it, no page committed. -/
def gfx_scenario : gfx :=
  { gfx_zero with
    tex_width := 4096, tex_height := 4096, page_width := 256, page_height := 256,
    page_depth := 1, block_width := 8, block_height := 8, block_size := 128,
    xfer := xfer_init xfer_zero XFER_BUFFER_SIZE }

/-- A state with the tracked rectangle replaced. -/
def gfx.with_rect (g : gfx) (x0 y0 x1 y1 : Int) : gfx :=
  { g with rect_page_x0 := x0, rect_page_y0 := y0, rect_page_x1 := x1, rect_page_y1 := y1 }

/-- The texture descriptor divides without fault: page and block dimensions are
non-zero. -/
def dims_ok (g : gfx) : Prop :=
  g.page_width ≠ 0 ∧ g.page_height ≠ 0 ∧ g.block_width ≠ 0 ∧ g.block_height ≠ 0

instance (g : gfx) : Decidable (dims_ok g) := by
  unfold dims_ok; infer_instance

/-- The descriptor `xfer_start` stores into buffer `b`. -/
def xfer_descriptor (b : xfer_buffer) (g : gfx) (x0 y0 x1 y1 : Int) (f : Nat) : xfer_buffer :=
  { b with
    dst_tex := g.texture, tex_format := g.tex_format, src_ptr := 0,
    src_pitch := Int.tdiv g.tex_width g.block_width * Int.tdiv g.block_size 8,
    src_x := x0 * g.page_width, src_y := y0 * g.page_height,
    dst_x := x0 * g.page_width, dst_y := y0 * g.page_height,
    block_width := g.block_width, block_height := g.block_height, block_size := g.block_size,
    width := (x1 - x0) * g.page_width, height := (y1 - y0) * g.page_height, start_frame := f }

/-- The scenario after a get has taken all eight staging buffers from `Idle`. -/
def gfx_starved : gfx :=
  { gfx_scenario with xfer := { gfx_scenario.xfer with
    queue :=
      match xfer_queue_get gfx_scenario.xfer.queue XFER_QUEUE_IDLE false 8 with
      | .returned q _ _ => q
      | _ => gfx_scenario.xfer.queue } }


/-! ## The buffer pool as a whole -/

/-- The indices held by the four stage queues, stage by stage. -/
def all_queued (q : xfer_queue) : List Int :=
  queue_contents q XFER_QUEUE_IDLE ++ queue_contents q XFER_QUEUE_READ ++
    queue_contents q XFER_QUEUE_UPLOAD ++ queue_contents q XFER_QUEUE_WAIT

/-- The pool invariant: the queue set is running, the counters of the four stages
are in range, and the indices in the queues together with the indices `held` (taken
by a get and not yet put back) are the eight buffer indices, each once. -/
def pool_inv (q : xfer_queue) (held : List Int) : Prop :=
  q.stopped = 0 ∧ (∀ s, s < XFER_NUM_QUEUES → counters_ok q s) ∧
  List.Perm (all_queued q ++ held) [0, 1, 2, 3, 4, 5, 6, 7]


/-- The status `xfer_buffer_finish` returns when called as in `xfer_finish` (server
wait only) and the driver reports `sync_status`. -/
def fence_status (sync_status : Nat) : Int :=
  if sync_status = GL_SIGNALED then 1 else if sync_status = GL_UNSIGNALED then 0 else -1

/-- The stage onto which `xfer_finish` puts a buffer whose fence reports `sync_status`. -/
def finish_stage (sync_status : Nat) : Nat :=
  if fence_status sync_status ≠ 0 then XFER_QUEUE_IDLE else XFER_QUEUE_WAIT

/-- The states reachable from the pool set up by `xfer_init` (on the zeroed state)
through the operations of the pipeline: a page-range request, a reconcile, a pass of
a worker, the upload phase, the finish phase, each with any arguments and any answers
of the driver and the clock, as long as the operation returns. -/
inductive Reachable : gfx → Prop where
  | init (g : gfx) :
      g.xfer.queue = (xfer_init xfer_zero XFER_BUFFER_SIZE).queue → Reachable g
  | request (g g' : gfx) (commit : Bool) (x0 y0 x1 y1 : Int) (wait : Bool) (f : Nat)
      (ret : Int) :
      Reachable g → gfx_request_pages g commit x0 y0 x1 y1 wait f = .ok (g', ret) →
      Reachable g'
  | reconcile (g g' : gfx) (x0 y0 x1 y1 : Int) (wait : Bool) (f : Nat) (ret : Int) :
      Reachable g → gfx_request_rect g x0 y0 x1 y1 wait f = .ok (g', ret) → Reachable g'
  | worker (g : gfx) (x' : xfer) (mem : Int → Nat) (blit_time : Nat) (cont : Bool) :
      Reachable g → xfer_thread_main_step g.xfer mem blit_time = .ok (x', cont) →
      Reachable { g with xfer := x' }
  | upload (g : gfx) (x' : xfer) (wait : Bool) (syncs : Int → Nat) (n : Int) :
      Reachable g → xfer_upload g.xfer wait syncs = .ok (x', n) →
      Reachable { g with xfer := x' }
  | finish (g : gfx) (x' : xfer) (frame : Nat) (sync_status query_result : Int → Nat)
      (n : Int) :
      Reachable g → xfer_finish g.xfer frame sync_status query_result = .ok (x', n) →
      Reachable { g with xfer := x' }


/-- Successive non-blocking acquisitions of one index from `Idle`
(`xfer_queue_get(queue, XFER_QUEUE_IDLE, 0, &buffer_id, 1)`), as many as the first
argument says: the final queue set and, per call, what was written and returned. -/
def acquire_idle : Nat → xfer_queue → xfer_queue × List (List Int × Int)
  | 0, q => (q, [])
  | n + 1, q =>
    match xfer_queue_get q XFER_QUEUE_IDLE false 1 with
    | .returned q' out ret => ((acquire_idle n q').1, (out, ret) :: (acquire_idle n q').2)
    | _ => (q, [])

/-- The pipeline of the scenario after: a commit request for the pages `(0,0)-(2,2)`
(buffer `0`), a worker pass, the upload phase (fence `77`), and seven further
acquisitions that empty `Idle`. Buffer `0` is awaiting its fence. -/
def xfer_awaiting : xfer :=
  match gfx_request_pages gfx_scenario true 0 0 2 2 false 0 with
  | .error _ => gfx_scenario.xfer
  | .ok r1 =>
    match xfer_thread_main_step r1.1.xfer r1.1.texmmap 1000 with
    | .error _ => r1.1.xfer
    | .ok r2 =>
      match xfer_upload r2.1 false (fun _ => 77) with
      | .error _ => r2.1
      | .ok r3 => { r3.1 with queue := (acquire_idle 7 r3.1.queue).1 }

instance (q : xfer_queue) (held : List Int) : Decidable (pool_inv q held) := by
  unfold pool_inv; infer_instance


/-! ## Sample states for the copy and the finish phase -/

/-- The pipeline after: a commit request for the pages `(x0,y0)-(x1,y1)` at frame `f`
on the state `g`, a worker pass (the copy timed at `1000` ns) and the upload phase
(fence `77`). The buffer taken by the request is then awaiting its fence. -/
def xfer_in_flight (g : gfx) (x0 y0 x1 y1 : Int) (f : Nat) : xfer :=
  match gfx_request_pages g true x0 y0 x1 y1 false f with
  | .error _ => g.xfer
  | .ok r1 =>
    match xfer_thread_main_step r1.1.xfer r1.1.texmmap 1000 with
    | .error _ => r1.1.xfer
    | .ok r2 =>
      match xfer_upload r2.1 false (fun _ => 77) with
      | .error _ => r2.1
      | .ok r3 => r3.1

/-- A texture file: sixteen header bytes of value `255`, then pixel data whose byte
`i` (offset `16 + i` of the file) is `i % 251`. -/
def astc_blob : Int → Nat :=
  fun a => if a < 16 then 255 else ((a - 16) % 251).toNat

/-- The scenario with `astc_blob` as the mapped texture file. -/
def gfx_textured : gfx :=
  { gfx_scenario with texmmap := astc_blob }

/-- A staging buffer as `xfer_init` leaves it, holding the descriptor of the pages
`(1,1)-(3,2)` of the scenario. -/
def blit_sample : xfer_buffer :=
  xfer_descriptor (xfer_buffer_init xfer_buffer_zero XFER_BUFFER_SIZE) gfx_scenario 1 1 3 2 0

/-- The value of the local `latency_idx` of `xfer_finish`: the frame difference in
`uint64_t`, clamped to the last bucket. -/
def latency_index (frame_number start_frame : Nat) : Int :=
  if (frame_number + 2 ^ 64 - start_frame) % 2 ^ 64 ≥ XFER_BENCHMARK_HISTOGRAM then
    (XFER_BENCHMARK_HISTOGRAM : Int) - 1
  else (((frame_number + 2 ^ 64 - start_frame) % 2 ^ 64 : Nat) : Int)


/-- The way a computation stopped, if it did not return. -/
def halt_of {α : Type} : Except Halt α → Option Halt
  | .error e => some e
  | .ok _ => none

/-! ## The fences of the pool -/

/-- Every staging buffer has the capacity `xfer_init` gave it and every buffer on
`Idle` holds no fence. -/
def fence_inv (q : xfer_queue) (buffers : Int → xfer_buffer) : Prop :=
  (∀ b : Int, 0 ≤ b → b < XFER_NUM_BUFFERS → (buffers b).size = XFER_BUFFER_SIZE) ∧
  ∀ b ∈ queue_contents q XFER_QUEUE_IDLE, (buffers b).syncpt = 0

/-- The states reachable from the pool set up by `xfer_init` (queues as on the zeroed
state, every buffer as `xfer_buffer_init` leaves it) through the operations of the
pipeline, as long as the operation returns and the driver reports every fence the
finish phase queries as signaled or as unsignaled. -/
inductive ReachableNoError : gfx → Prop where
  | init (g : gfx) :
      g.xfer.queue = (xfer_init xfer_zero XFER_BUFFER_SIZE).queue →
      (∀ b : Int, 0 ≤ b → b < XFER_NUM_BUFFERS →
        (g.xfer.buffers b).size = XFER_BUFFER_SIZE ∧ (g.xfer.buffers b).syncpt = 0) →
      ReachableNoError g
  | request (g g' : gfx) (commit : Bool) (x0 y0 x1 y1 : Int) (wait : Bool) (f : Nat)
      (ret : Int) :
      ReachableNoError g → gfx_request_pages g commit x0 y0 x1 y1 wait f = .ok (g', ret) →
      ReachableNoError g'
  | reconcile (g g' : gfx) (x0 y0 x1 y1 : Int) (wait : Bool) (f : Nat) (ret : Int) :
      ReachableNoError g → gfx_request_rect g x0 y0 x1 y1 wait f = .ok (g', ret) →
      ReachableNoError g'
  | worker (g : gfx) (x' : xfer) (mem : Int → Nat) (blit_time : Nat) (cont : Bool) :
      ReachableNoError g → xfer_thread_main_step g.xfer mem blit_time = .ok (x', cont) →
      ReachableNoError { g with xfer := x' }
  | upload (g : gfx) (x' : xfer) (wait : Bool) (syncs : Int → Nat) (n : Int) :
      ReachableNoError g → xfer_upload g.xfer wait syncs = .ok (x', n) →
      ReachableNoError { g with xfer := x' }
  | finish (g : gfx) (x' : xfer) (frame : Nat) (sync_status query_result : Int → Nat)
      (n : Int) :
      ReachableNoError g →
      (∀ b, sync_status b = GL_SIGNALED ∨ sync_status b = GL_UNSIGNALED) →
      xfer_finish g.xfer frame sync_status query_result = .ok (x', n) →
      ReachableNoError { g with xfer := x' }

/-- The byte size `xfer_start` computes when `gfx_request_pages` starts the transfer
of the pages `(x0,y0)-(x1,y1)`, the upper corner clamped to the grid, as long as no
`int` step of the computation overflows (`commit_in_int` below). -/
def request_size_bytes (g : gfx) (x0 y0 x1 y1 : Int) : Nat :=
  to_uint64 (Int.tdiv
    (Int.tdiv
      (Int.tdiv ((MIN x1 (Int.tdiv g.tex_width g.page_width) - x0) * g.page_width)
          g.block_width *
        ((MIN y1 (Int.tdiv g.tex_height g.page_height) - y0) * g.page_height))
      g.block_height * g.block_size) 8)

/-- The values of the C type `int`: 32 bits, two's complement. -/
def int_range (a : Int) : Prop :=
  -(2 ^ 31) ≤ a ∧ a < 2 ^ 31

instance (a : Int) : Decidable (int_range a) := by
  unfold int_range; infer_instance

/-- The values of the `int` expressions that `gfx_request_pages` and `xfer_start`
evaluate on the commit path for the pages `(x0,y0)-(x1,y1)`, in the order of the
source: the arguments and the fields read, the grid size and the clamped corner, the
operands of the `page_bytes` comparison, the source pitch, the pixel origin and
extent, and the steps of the size computed by `xfer_start`. -/
def commit_int_values (g : gfx) (x0 y0 x1 y1 : Int) : List Int :=
  let cx := MIN x1 (Int.tdiv g.tex_width g.page_width)
  let cy := MIN y1 (Int.tdiv g.tex_height g.page_height)
  let blocks := Int.tdiv g.page_width g.block_width * Int.tdiv g.page_height g.block_height
  let page_bytes := Int.tdiv (blocks * g.block_size) 8
  let width := (cx - x0) * g.page_width
  let height := (cy - y0) * g.page_height
  [x0, y0, x1, y1, g.tex_width, g.tex_height, g.page_width, g.page_height,
    g.block_width, g.block_height, g.block_size,
    Int.tdiv g.tex_width g.page_width, Int.tdiv g.tex_height g.page_height,
    Int.tdiv g.page_width g.block_width, Int.tdiv g.page_height g.block_height,
    blocks, blocks * g.block_size, page_bytes,
    cx - x0, cy - y0, (cx - x0) * (cy - y0), (cx - x0) * (cy - y0) * page_bytes,
    Int.tdiv g.tex_width g.block_width, Int.tdiv g.block_size 8,
    Int.tdiv g.tex_width g.block_width * Int.tdiv g.block_size 8,
    x0 * g.page_width, y0 * g.page_height, width, height,
    Int.tdiv width g.block_width, Int.tdiv width g.block_width * height,
    Int.tdiv (Int.tdiv width g.block_width * height) g.block_height,
    Int.tdiv (Int.tdiv width g.block_width * height) g.block_height * g.block_size,
    Int.tdiv (Int.tdiv (Int.tdiv width g.block_width * height) g.block_height
      * g.block_size) 8]

/-- No `int` expression of the commit path overflows: the exact values are values of
`int`, so that the C arithmetic computes them. -/
def commit_in_int (g : gfx) (x0 y0 x1 y1 : Int) : Prop :=
  ∀ a ∈ commit_int_values g x0 y0 x1 y1, int_range a

instance (g : gfx) (x0 y0 x1 y1 : Int) : Decidable (commit_in_int g x0 y0 x1 y1) := by
  unfold commit_in_int; infer_instance

/-! ### Lemmas on the ring buffer -/

theorem drain_spec (wr : Nat) (hwr : wr < 9) :
    ∀ (left : Nat) (row : Nat → Int) (rd : Nat), rd < 9 →
      (xfer_queue_drain wr left row rd).2.1 = (rd + min ((wr + 9 - rd) % 9) left) % 9 ∧
      (xfer_queue_drain wr left row rd).2.2 =
        (List.range (min ((wr + 9 - rd) % 9) left)).map (fun i => row ((rd + i) % 9)) ∧
      ∀ j, j < 9 → (xfer_queue_drain wr left row rd).1 j =
        if (j + 9 - rd) % 9 < min ((wr + 9 - rd) % 9) left then -1 else row j := by
  intro left
  induction left with
  | zero =>
    intro row rd hrd
    simp [xfer_queue_drain]
    omega
  | succ n ih =>
    intro row rd hrd
    by_cases h : rd = wr
    · subst h
      have h0 : (rd + 9 - rd) % 9 = 0 := by omega
      simp [xfer_queue_drain, h0]
      omega
    · have hrd' : (rd + 1) % 9 < 9 := by omega
      obtain ⟨ih1, ih2, ih3⟩ := ih (Function.update row rd (-1)) ((rd + 1) % 9) hrd'
      have hd : (wr + 9 - rd) % 9 = (wr + 9 - (rd + 1) % 9) % 9 + 1 := by omega
      have hmin : min ((wr + 9 - rd) % 9) (n + 1) = min ((wr + 9 - (rd + 1) % 9) % 9) n + 1 := by
        rw [hd]; omega
      simp only [xfer_queue_drain, h, ne_eq, not_false_eq_true, if_true]
      refine ⟨?_, ?_, ?_⟩
      · rw [ih1, hmin]; omega
      · rw [ih2, hmin, List.range_succ_eq_map]
        simp only [List.map_cons, List.map_map, Nat.add_zero]
        congr 1
        · congr 1; omega
        · apply List.map_congr_left
          intro i hi
          have hi' := List.mem_range.mp hi
          simp only [Function.comp, Nat.succ_eq_add_one]
          have hne : ((rd + 1) % 9 + i) % 9 ≠ rd := by omega
          rw [Function.update_noteq hne]
          congr 1; omega
      · intro j hj
        rw [ih3 j hj, hmin]
        by_cases hjr : j = rd
        · subst hjr
          have : (j + 9 - j) % 9 < min ((wr + 9 - (j + 1) % 9) % 9) n + 1 := by omega
          simp [this]
        · rw [Function.update_noteq hjr]
          have : ((j + 9 - (rd + 1) % 9) % 9 < min ((wr + 9 - (rd + 1) % 9) % 9) n) ↔
              ((j + 9 - rd) % 9 < min ((wr + 9 - (rd + 1) % 9) % 9) n + 1) := by omega
          simp only [this]

theorem ring_list_length (row : Nat → Int) (rd n : Nat) : (ring_list row rd n).length = n := by
  simp [ring_list]

theorem ring_list_getElem (row : Nat → Int) (rd n i : Nat) (h : i < (ring_list row rd n).length) :
    (ring_list row rd n)[i] = row ((rd + i) % 9) := by
  simp [ring_list]

theorem ring_list_congr (row row' : Nat → Int) (rd n : Nat)
    (h : ∀ i, i < n → row' ((rd + i) % 9) = row ((rd + i) % 9)) :
    ring_list row' rd n = ring_list row rd n := by
  apply List.ext_getElem
  · simp [ring_list_length]
  · intro i h1 h2
    rw [ring_list_getElem, ring_list_getElem]
    exact h i (by simpa [ring_list_length] using h1)

theorem ring_list_take (row : Nat → Int) (rd n k : Nat) :
    (ring_list row rd n).take k = ring_list row rd (min n k) := by
  apply List.ext_getElem
  · simp [ring_list_length, Nat.min_comm]
  · intro i h1 h2
    rw [List.getElem_take, ring_list_getElem, ring_list_getElem]

theorem ring_list_drop (row : Nat → Int) (rd n k : Nat) :
    (ring_list row rd n).drop k = ring_list row ((rd + k) % 9) (n - k) := by
  apply List.ext_getElem
  · simp [ring_list_length]
  · intro i h1 h2
    rw [List.getElem_drop, ring_list_getElem, ring_list_getElem]
    congr 1
    omega

theorem ring_list_succ (row : Nat → Int) (rd n : Nat) :
    ring_list row rd (n + 1) = ring_list row rd n ++ [row ((rd + n) % 9)] := by
  simp [ring_list, List.range_succ]

theorem queue_size_eq (q : xfer_queue) (s : Nat) :
    queue_size q s = (q.queue_counters s 1 + 9 - q.queue_counters s 0) % 9 := rfl

theorem queue_contents_length (q : xfer_queue) (s : Nat) :
    (queue_contents q s).length = queue_size q s := by
  simp [queue_contents, ring_list_length]

theorem queue_size_le (q : xfer_queue) (s : Nat) : queue_size q s ≤ 8 := by
  rw [queue_size_eq]; omega

theorem queue_contents_congr (q q' : xfer_queue) (s : Nat)
    (h1 : q'.queues s = q.queues s) (h2 : q'.queue_counters s = q.queue_counters s) :
    queue_contents q' s = queue_contents q s := by
  simp [queue_contents, queue_size, h1, h2]

theorem counters_ok_iff (q : xfer_queue) (s : Nat) :
    counters_ok q s ↔ q.queue_counters s 0 < 9 ∧ q.queue_counters s 1 < 9 := Iff.rfl

/-- The state left by the draining branch of `xfer_queue_get`. -/
theorem drained_contents (q : xfer_queue) (s : Nat) (n : Nat) (hok : counters_ok q s)
    (r : (Nat → Int) × Nat × List Int)
    (hr : r = xfer_queue_drain (q.queue_counters s 1) n (q.queues s) (q.queue_counters s 0)) :
    r.2.2 = (queue_contents q s).take n ∧
    queue_contents
      { q with
        queues := Function.update q.queues s r.1
        queue_counters := Function.update q.queue_counters s
          (Function.update (q.queue_counters s) 0 r.2.1) } s = (queue_contents q s).drop n ∧
    r.2.1 < 9 := by
  obtain ⟨hrd, hwr⟩ := (counters_ok_iff q s).mp hok
  obtain ⟨d1, d2, d3⟩ := drain_spec (q.queue_counters s 1) hwr n (q.queues s)
    (q.queue_counters s 0) hrd
  rw [← hr] at d1 d2 d3
  have h01 : (1 : Nat) ≠ 0 := by decide
  refine ⟨?_, ?_, ?_⟩
  · rw [d2]
    show ring_list (q.queues s) (q.queue_counters s 0) _ = _
    rw [queue_contents, ring_list_take, queue_size_eq]
  · simp only [queue_contents, queue_size_eq, Function.update_same, Function.update_noteq h01]
    rw [ring_list_drop, d1]
    have hlen : (q.queue_counters s 1 + 9 - (q.queue_counters s 0 +
        min ((q.queue_counters s 1 + 9 - q.queue_counters s 0) % 9) n) % 9) % 9
        = (q.queue_counters s 1 + 9 - q.queue_counters s 0) % 9 - n := by omega
    rw [hlen]
    have hrd2 : (q.queue_counters s 0 +
        min ((q.queue_counters s 1 + 9 - q.queue_counters s 0) % 9) n) % 9 =
        (q.queue_counters s 0 + n) % 9 ∨
        (q.queue_counters s 1 + 9 - q.queue_counters s 0) % 9 - n = 0 := by omega
    rcases hrd2 with h | h
    · rw [h]
      apply ring_list_congr
      intro i hi
      rw [d3 _ (Nat.mod_lt _ (by decide))]
      have hcond : ¬ (((q.queue_counters s 0 + n) % 9 + i) % 9 + 9 - q.queue_counters s 0) % 9
          < min ((q.queue_counters s 1 + 9 - q.queue_counters s 0) % 9) n := by omega
      rw [if_neg hcond]
    · rw [h]; simp [ring_list]
  · rw [d1]; omega

/-- A get on a running, non-empty stage: what it returns and what it leaves. -/
theorem get_loop_spec (q : xfer_queue) (s : Nat) (wait : Bool) (m : Int)
    (hok : counters_ok q s) (hrun : q.stopped = 0) (hne : queue_contents q s ≠ []) :
    ∃ q', xfer_queue_get_loop q s wait m =
        .returned q' ((queue_contents q s).take m.toNat)
          ((min (queue_contents q s).length m.toNat : Nat) : Int) ∧
      queue_contents q' s = (queue_contents q s).drop m.toNat ∧
      (∀ s', s' ≠ s → q'.queues s' = q.queues s' ∧ q'.queue_counters s' = q.queue_counters s') ∧
      q'.stopped = q.stopped ∧ q'.queue_waiting = q.queue_waiting ∧ counters_ok q' s := by
  obtain ⟨hrd, hwr⟩ := (counters_ok_iff q s).mp hok
  have hsz : queue_size q s ≠ 0 := by
    intro h0
    apply hne
    apply List.eq_nil_of_length_eq_zero
    rw [queue_contents_length, h0]
  rw [queue_size_eq] at hsz
  have hrw : q.queue_counters s 0 ≠ q.queue_counters s 1 := by omega
  obtain ⟨c1, c2, c3⟩ := drained_contents q s m.toNat hok _ rfl
  have h01 : (1 : Nat) ≠ 0 := by decide
  refine ⟨_, ?_, c2, ?_, rfl, rfl, ?_⟩
  · simp only [xfer_queue_get_loop, hrun, ne_eq, not_true_eq_false, if_false, hrw]
    rw [c1]
    simp [List.length_take, Nat.min_comm]
  · intro s' hs'
    exact ⟨Function.update_noteq hs' _ _, Function.update_noteq hs' _ _⟩
  · rw [counters_ok_iff]
    simp only [Function.update_same, Function.update_noteq h01]
    exact ⟨c3, hwr⟩

/-- A put on a running stage that holds fewer than `XFER_NUM_BUFFERS` values is accepted
and appends at the tail. -/
theorem put_spec (q : xfer_queue) (s : Nat) (v : Int)
    (hok : counters_ok q s) (hrun : q.stopped = 0) (hroom : queue_size q s < 8) :
    (xfer_queue_put q s v).2 = 1 ∧
    queue_contents (xfer_queue_put q s v).1 s = queue_contents q s ++ [v] ∧
    (∀ s', s' ≠ s → (xfer_queue_put q s v).1.queues s' = q.queues s' ∧
      (xfer_queue_put q s v).1.queue_counters s' = q.queue_counters s') ∧
    (xfer_queue_put q s v).1.stopped = q.stopped ∧
    (xfer_queue_put q s v).1.queue_waiting = q.queue_waiting ∧
    counters_ok (xfer_queue_put q s v).1 s := by
  obtain ⟨hrd, hwr⟩ := (counters_ok_iff q s).mp hok
  rw [queue_size_eq] at hroom
  have hnext : (q.queue_counters s 1 + 1) % 9 ≠ q.queue_counters s 0 := by omega
  have hput : xfer_queue_put q s v =
      ({ q with
          queues := Function.update q.queues s
            (Function.update (q.queues s) (q.queue_counters s 1) v)
          queue_counters := Function.update q.queue_counters s
            (Function.update (q.queue_counters s) 1 ((q.queue_counters s 1 + 1) % 9)) }, 1) := by
    simp [xfer_queue_put, hrun, hnext]
  rw [hput]
  have h01 : (0 : Nat) ≠ 1 := by decide
  refine ⟨rfl, ?_, ?_, rfl, rfl, ?_⟩
  · simp only [queue_contents, queue_size_eq, Function.update_same, Function.update_noteq h01]
    have hlen : ((q.queue_counters s 1 + 1) % 9 + 9 - q.queue_counters s 0) % 9 =
        (q.queue_counters s 1 + 9 - q.queue_counters s 0) % 9 + 1 := by omega
    rw [hlen, ring_list_succ]
    have hwr' : (q.queue_counters s 0 + (q.queue_counters s 1 + 9 - q.queue_counters s 0) % 9) % 9
        = q.queue_counters s 1 := by omega
    rw [hwr', Function.update_same]
    congr 1
    apply ring_list_congr
    intro i hi
    have hne : (q.queue_counters s 0 + i) % 9 ≠ q.queue_counters s 1 := by omega
    rw [Function.update_noteq hne]
  · intro s' hs'
    exact ⟨Function.update_noteq hs' _ _, Function.update_noteq hs' _ _⟩
  · rw [counters_ok_iff]
    simp only [Function.update_same, Function.update_noteq h01]
    exact ⟨hrd, by omega⟩

theorem put_rejected (q : xfer_queue) (s : Nat) (v : Int) (h : (xfer_queue_put q s v).2 ≠ 1) :
    (xfer_queue_put q s v).1 = q := by
  unfold xfer_queue_put at h ⊢
  by_cases hc : q.stopped = 0 ∧ (q.queue_counters s 1 + 1) % XFER_QUEUE_MAX_SIZE ≠
      q.queue_counters s 0
  · exfalso
    apply h
    simp [hc.1, hc.2]
  · simp only [hc, if_false]

theorem put_accepted_iff (q : xfer_queue) (s : Nat) (v : Int)
    (hok : counters_ok q s) (hrun : q.stopped = 0) :
    (xfer_queue_put q s v).2 = 1 ↔ queue_size q s < 8 := by
  obtain ⟨hrd, hwr⟩ := (counters_ok_iff q s).mp hok
  constructor
  · intro h
    by_contra hfull
    have hsz := queue_size_le q s
    rw [queue_size_eq] at hfull hsz
    have hnext : (q.queue_counters s 1 + 1) % 9 = q.queue_counters s 0 := by omega
    simp [xfer_queue_put, hrun, hnext] at h
  · intro h
    exact (put_spec q s v hok hrun h).1

theorem contents_of_other (q q' : xfer_queue) (s : Nat)
    (h : ∀ s', s' ≠ s → q'.queues s' = q.queues s' ∧ q'.queue_counters s' = q.queue_counters s') :
    ∀ s', s' ≠ s → queue_contents q' s' = queue_contents q s' := by
  intro s' hs'
  exact queue_contents_congr q q' s' (h s' hs').1 (h s' hs').2

theorem put_stopped_eq (q : xfer_queue) (s : Nat) (v : Int) :
    (xfer_queue_put q s v).1.stopped = q.stopped := by
  unfold xfer_queue_put
  by_cases hc : q.stopped = 0 ∧ (q.queue_counters s 1 + 1) % XFER_QUEUE_MAX_SIZE ≠
      q.queue_counters s 0
  · simp only [hc, and_self, ne_eq, not_false_eq_true, if_true]
  · simp only [hc, if_false]

theorem get_loop_stopped_eq (q : xfer_queue) (s : Nat) (wait : Bool) (m : Int)
    (q' : xfer_queue) (h : (xfer_queue_get_loop q s wait m).state? = some q') :
    q'.stopped = q.stopped := by
  unfold xfer_queue_get_loop at h
  simp only at h
  split at h
  · simp only [get_result.state?, Option.some.injEq] at h
    rw [← h]
  · split at h
    · split at h <;>
        · simp only [get_result.state?, Option.some.injEq] at h
          rw [← h]
    · simp only [get_result.state?, Option.some.injEq] at h
      rw [← h]

theorem get_stopped_eq (q : xfer_queue) (s : Nat) (wait : Bool) (m : Int)
    (q' : xfer_queue) (h : (xfer_queue_get q s wait m).state? = some q') :
    q'.stopped = q.stopped := by
  unfold xfer_queue_get at h
  split at h
  · simp [get_result.state?] at h
  · exact get_loop_stopped_eq q s wait m q' h

/-! ### Lemmas on the strips -/

theorem bottom_strip_region (rx0 ry0 rx1 ry1 px0 py0 px1 py1 x y : Int) :
    ((∃ r ∈ bottom_strip rx0 ry0 rx1 ry1 px0 py0 px1 py1, r.commit = true ∧ r.covers x y) ↔
      (px0 ≤ x ∧ x < px1 ∧ py0 ≤ y ∧ y < ry0)) ∧
    ((∃ r ∈ bottom_strip rx0 ry0 rx1 ry1 px0 py0 px1 py1, r.commit = false ∧ r.covers x y) ↔
      (rx0 ≤ x ∧ x < rx1 ∧ ry0 ≤ y ∧ y < py0)) := by
  unfold bottom_strip
  simp only [MIN, cabs, page_request.covers, in_rect]
  constructor <;> split_ifs <;> simp <;> omega

theorem top_strip_region (rx0 ry0 rx1 ry1 px0 py0 px1 py1 x y : Int) :
    ((∃ r ∈ top_strip rx0 ry0 rx1 ry1 px0 py0 px1 py1, r.commit = true ∧ r.covers x y) ↔
      (px0 ≤ x ∧ x < px1 ∧ ry1 ≤ y ∧ y < py1)) ∧
    ((∃ r ∈ top_strip rx0 ry0 rx1 ry1 px0 py0 px1 py1, r.commit = false ∧ r.covers x y) ↔
      (rx0 ≤ x ∧ x < rx1 ∧ py1 ≤ y ∧ y < ry1)) := by
  unfold top_strip
  simp only [MIN, cabs, page_request.covers, in_rect]
  constructor <;> split_ifs <;> simp <;> omega

theorem left_strip_region (rx0 ry0 rx1 ry1 px0 py0 px1 py1 x y : Int) :
    ((∃ r ∈ left_strip rx0 ry0 rx1 ry1 px0 py0 px1 py1, r.commit = true ∧ r.covers x y) ↔
      (px0 ≤ x ∧ x < rx0 ∧ ry0 ≤ y ∧ py0 ≤ y ∧ y < ry1 ∧ y < py1)) ∧
    ((∃ r ∈ left_strip rx0 ry0 rx1 ry1 px0 py0 px1 py1, r.commit = false ∧ r.covers x y) ↔
      (rx0 ≤ x ∧ x < px0 ∧ ry0 ≤ y ∧ py0 ≤ y ∧ y < ry1 ∧ y < py1)) := by
  unfold left_strip
  simp only [MIN, cabs, page_request.covers, in_rect]
  constructor <;> split_ifs <;> simp <;> omega

theorem right_strip_region (rx0 ry0 rx1 ry1 px0 py0 px1 py1 x y : Int) :
    ((∃ r ∈ right_strip rx0 ry0 rx1 ry1 px0 py0 px1 py1, r.commit = true ∧ r.covers x y) ↔
      (rx1 ≤ x ∧ x < px1 ∧ ry0 ≤ y ∧ py0 ≤ y ∧ y < ry1 ∧ y < py1)) ∧
    ((∃ r ∈ right_strip rx0 ry0 rx1 ry1 px0 py0 px1 py1, r.commit = false ∧ r.covers x y) ↔
      (px1 ≤ x ∧ x < rx1 ∧ ry0 ≤ y ∧ py0 ≤ y ∧ y < ry1 ∧ y < py1)) := by
  unfold right_strip
  simp only [MIN, cabs, page_request.covers, in_rect]
  constructor <;> split_ifs <;> simp <;> omega

theorem strip_lengths (rx0 ry0 rx1 ry1 px0 py0 px1 py1 : Int) :
    (bottom_strip rx0 ry0 rx1 ry1 px0 py0 px1 py1).length ≤ 1 ∧
    (top_strip rx0 ry0 rx1 ry1 px0 py0 px1 py1).length ≤ 1 ∧
    (left_strip rx0 ry0 rx1 ry1 px0 py0 px1 py1).length ≤ 1 ∧
    (right_strip rx0 ry0 rx1 ry1 px0 py0 px1 py1).length ≤ 1 := by
  unfold bottom_strip top_strip left_strip right_strip
  refine ⟨?_, ?_, ?_, ?_⟩ <;> simp only [] <;> split_ifs <;> simp

/-- With both rectangles non-empty and sharing the page `(sx, sy)`, every strip call
has positive width and height. -/
theorem strips_positive (rx0 ry0 rx1 ry1 px0 py0 px1 py1 sx sy : Int)
    (hs1 : in_rect rx0 ry0 rx1 ry1 sx sy) (hs2 : in_rect px0 py0 px1 py1 sx sy) :
    (∀ r ∈ bottom_strip rx0 ry0 rx1 ry1 px0 py0 px1 py1, r.x0 < r.x1 ∧ r.y0 < r.y1) ∧
    (∀ r ∈ top_strip rx0 ry0 rx1 ry1 px0 py0 px1 py1, r.x0 < r.x1 ∧ r.y0 < r.y1) ∧
    (∀ r ∈ left_strip rx0 ry0 rx1 ry1 px0 py0 px1 py1, r.x0 < r.x1 ∧ r.y0 < r.y1) ∧
    (∀ r ∈ right_strip rx0 ry0 rx1 ry1 px0 py0 px1 py1, r.x0 < r.x1 ∧ r.y0 < r.y1) := by
  unfold in_rect at hs1 hs2
  unfold bottom_strip top_strip left_strip right_strip
  simp only [MIN, cabs]
  refine ⟨?_, ?_, ?_, ?_⟩ <;> split_ifs <;> simp <;> omega

/-- Every page a strip call covers lies in its commit region or its uncommit region. -/
theorem covers_cases (S : List page_request) (r : page_request) (hr : r ∈ S) (x y : Int)
    (h : r.covers x y) :
    (∃ r ∈ S, r.commit = true ∧ r.covers x y) ∨ (∃ r ∈ S, r.commit = false ∧ r.covers x y) := by
  cases hc : r.commit
  · exact Or.inr ⟨r, hr, hc, h⟩
  · exact Or.inl ⟨r, hr, hc, h⟩

theorem pairwise_of_length_le_one {α : Type} (R : α → α → Prop) (l : List α)
    (h : l.length ≤ 1) : l.Pairwise R := by
  match l, h with
  | [], _ => exact List.Pairwise.nil
  | [a], _ => exact List.pairwise_singleton R a

theorem exists_mem_append' (l1 l2 : List page_request) (Q : page_request → Prop) :
    (∃ r ∈ l1 ++ l2, Q r) ↔ (∃ r ∈ l1, Q r) ∨ (∃ r ∈ l2, Q r) := by
  constructor
  · rintro ⟨r, hr, hq⟩
    rcases List.mem_append.mp hr with h | h
    · exact Or.inl ⟨r, h, hq⟩
    · exact Or.inr ⟨r, h, hq⟩
  · rintro (⟨r, hr, hq⟩ | ⟨r, hr, hq⟩)
    · exact ⟨r, List.mem_append.mpr (Or.inl hr), hq⟩
    · exact ⟨r, List.mem_append.mpr (Or.inr hr), hq⟩

/-- The four strips, for two rectangles sharing the page `(sx, sy)`. -/
theorem strips_geometry (rx0 ry0 rx1 ry1 px0 py0 px1 py1 sx sy : Int)
    (hs1 : in_rect rx0 ry0 rx1 ry1 sx sy) (hs2 : in_rect px0 py0 px1 py1 sx sy)
    (S : List page_request)
    (hS : S = bottom_strip rx0 ry0 rx1 ry1 px0 py0 px1 py1 ++
      top_strip rx0 ry0 rx1 ry1 px0 py0 px1 py1 ++
      left_strip rx0 ry0 rx1 ry1 px0 py0 px1 py1 ++ right_strip rx0 ry0 rx1 ry1 px0 py0 px1 py1) :
    S.length ≤ 4 ∧
    (∀ r ∈ S, r.x0 < r.x1 ∧ r.y0 < r.y1) ∧
    S.Pairwise page_request.disjoint ∧
    (∀ x y, (∃ r ∈ S, r.commit = true ∧ r.covers x y) ↔
      (in_rect px0 py0 px1 py1 x y ∧ ¬ in_rect rx0 ry0 rx1 ry1 x y)) ∧
    (∀ x y, (∃ r ∈ S, r.commit = false ∧ r.covers x y) ↔
      (in_rect rx0 ry0 rx1 ry1 x y ∧ ¬ in_rect px0 py0 px1 py1 x y)) := by
  obtain ⟨l1, l2, l3, l4⟩ := strip_lengths rx0 ry0 rx1 ry1 px0 py0 px1 py1
  obtain ⟨p1, p2, p3, p4⟩ := strips_positive rx0 ry0 rx1 ry1 px0 py0 px1 py1 sx sy hs1 hs2
  have hb := bottom_strip_region rx0 ry0 rx1 ry1 px0 py0 px1 py1
  have ht := top_strip_region rx0 ry0 rx1 ry1 px0 py0 px1 py1
  have hl := left_strip_region rx0 ry0 rx1 ry1 px0 py0 px1 py1
  have hr := right_strip_region rx0 ry0 rx1 ry1 px0 py0 px1 py1
  subst hS
  unfold in_rect at hs1 hs2
  refine ⟨?_, ?_, ?_, ?_, ?_⟩
  · simp only [List.length_append]; omega
  · intro r hr
    simp only [List.mem_append] at hr
    rcases hr with ((h | h) | h) | h
    · exact p1 r h
    · exact p2 r h
    · exact p3 r h
    · exact p4 r h
  · have key : ∀ (A B : List page_request) (a b : page_request) (x y : Int),
        a ∈ A → b ∈ B → a.covers x y → b.covers x y →
        ((∃ r ∈ A, r.commit = true ∧ r.covers x y) ∨ (∃ r ∈ A, r.commit = false ∧ r.covers x y)) ∧
        ((∃ r ∈ B, r.commit = true ∧ r.covers x y) ∨ (∃ r ∈ B, r.commit = false ∧ r.covers x y)) :=
      fun A B a b x y ha hb' hca hcb => ⟨covers_cases A a ha x y hca, covers_cases B b hb' x y hcb⟩
    rw [List.pairwise_append, List.pairwise_append, List.pairwise_append]
    refine ⟨⟨⟨pairwise_of_length_le_one _ _ l1, pairwise_of_length_le_one _ _ l2, ?_⟩,
      pairwise_of_length_le_one _ _ l3, ?_⟩, pairwise_of_length_le_one _ _ l4, ?_⟩
    · intro a ha b hb' x y ⟨hca, hcb⟩
      have k := key _ _ a b x y ha hb' hca hcb
      rw [(hb x y).1, (hb x y).2, (ht x y).1, (ht x y).2] at k
      omega
    · intro a ha b hb' x y ⟨hca, hcb⟩
      rcases List.mem_append.mp ha with ha | ha
      · have k := key _ _ a b x y ha hb' hca hcb
        rw [(hb x y).1, (hb x y).2, (hl x y).1, (hl x y).2] at k
        omega
      · have k := key _ _ a b x y ha hb' hca hcb
        rw [(ht x y).1, (ht x y).2, (hl x y).1, (hl x y).2] at k
        omega
    · intro a ha b hb' x y ⟨hca, hcb⟩
      rcases List.mem_append.mp ha with ha | ha
      · rcases List.mem_append.mp ha with ha | ha
        · have k := key _ _ a b x y ha hb' hca hcb
          rw [(hb x y).1, (hb x y).2, (hr x y).1, (hr x y).2] at k
          omega
        · have k := key _ _ a b x y ha hb' hca hcb
          rw [(ht x y).1, (ht x y).2, (hr x y).1, (hr x y).2] at k
          omega
      · have k := key _ _ a b x y ha hb' hca hcb
        rw [(hl x y).1, (hl x y).2, (hr x y).1, (hr x y).2] at k
        omega
  · intro x y
    rw [exists_mem_append', exists_mem_append', exists_mem_append',
      (hb x y).1, (ht x y).1, (hl x y).1, (hr x y).1]
    unfold in_rect
    omega
  · intro x y
    rw [exists_mem_append', exists_mem_append', exists_mem_append',
      (hb x y).2, (ht x y).2, (hl x y).2, (hr x y).2]
    unfold in_rect
    omega

/-! ### Lemmas on `gfx_request_pages` and `gfx_request_rect` -/

theorem gfx_request_pages_rect (g : gfx) (commit : Bool) (x0 y0 x1 y1 : Int) (wait : Bool)
    (f : Nat) (r : gfx × Int) (h : gfx_request_pages g commit x0 y0 x1 y1 wait f = .ok r) :
    r.1.rect_page_x0 = g.rect_page_x0 ∧ r.1.rect_page_y0 = g.rect_page_y0 ∧
    r.1.rect_page_x1 = g.rect_page_x1 ∧ r.1.rect_page_y1 = g.rect_page_y1 ∧
    r.1.tex_width = g.tex_width ∧ r.1.tex_height = g.tex_height ∧
    r.1.page_width = g.page_width ∧ r.1.page_height = g.page_height ∧
    r.1.block_width = g.block_width ∧ r.1.block_height = g.block_height ∧
    r.1.block_size = g.block_size := by
  unfold gfx_request_pages at h
  simp only [bind, Except.bind, pure, Except.pure, cdiv] at h
  split at h
  · simp at h
  · split at h
    · simp at h
    · split at h
      · simp only [Except.ok.injEq] at h; subst h; simp
      · split at h
        · simp at h
        · split at h
          · simp at h
          · split at h
            · split at h
              · simp at h
              · simp at h
              · split at h
                · simp only [Except.ok.injEq] at h; subst h; simp
                · split at h
                  · simp at h
                  · split at h
                    · simp at h
                    · split at h
                      · simp only [Except.ok.injEq] at h; subst h; simp
                      · simp only [Except.ok.injEq] at h; subst h; simp
            · simp only [Except.ok.injEq] at h; subst h; simp

theorem gfx_request_pages__rect (g g' : gfx) (r : page_request) (wait : Bool) (f : Nat)
    (h : gfx_request_pages_ g r wait f = .ok g') :
    g'.rect_page_x0 = g.rect_page_x0 ∧ g'.rect_page_y0 = g.rect_page_y0 ∧
    g'.rect_page_x1 = g.rect_page_x1 ∧ g'.rect_page_y1 = g.rect_page_y1 := by
  unfold gfx_request_pages_ at h
  cases hp : gfx_request_pages g r.commit r.x0 r.y0 r.x1 r.y1 wait f with
  | error e => simp [hp, bind, Except.bind] at h
  | ok p =>
    simp only [hp, bind, Except.bind, pure, Except.pure, Except.ok.injEq] at h
    subst h
    obtain ⟨h1, h2, h3, h4, _⟩ := gfx_request_pages_rect g _ _ _ _ _ _ _ p hp
    exact ⟨h1, h2, h3, h4⟩

theorem run_nil (g : gfx) (wait : Bool) (f : Nat) : gfx_run_requests g [] wait f = .ok g := rfl

theorem run_cons (g : gfx) (r : page_request) (rs : List page_request) (wait : Bool) (f : Nat) :
    gfx_run_requests g (r :: rs) wait f =
      (gfx_request_pages_ g r wait f).bind (fun g1 => gfx_run_requests g1 rs wait f) := rfl

theorem run_append (g : gfx) (l1 l2 : List page_request) (wait : Bool) (f : Nat) :
    gfx_run_requests g (l1 ++ l2) wait f =
      (gfx_run_requests g l1 wait f).bind (fun g1 => gfx_run_requests g1 l2 wait f) := by
  induction l1 generalizing g with
  | nil => rfl
  | cons r rs ih =>
    rw [List.cons_append, run_cons, run_cons]
    cases gfx_request_pages_ g r wait f with
    | error e => rfl
    | ok g1 => exact ih g1

theorem run_single (g : gfx) (r : page_request) (wait : Bool) (f : Nat) :
    gfx_run_requests g [r] wait f = gfx_request_pages_ g r wait f := by
  rw [run_cons]
  cases gfx_request_pages_ g r wait f <;> rfl

theorem bind_eq {α β : Type} (x : Except Halt α) (f : α → Except Halt β) :
    (x >>= f) = x.bind f := rfl

theorem ok_bind {α β : Type} (a : α) (f : α → Except Halt β) :
    (Except.ok a : Except Halt α).bind f = f a := rfl

theorem bind_assoc_except {α β γ : Type} (x : Except Halt α) (f : α → Except Halt β)
    (g : β → Except Halt γ) : (x.bind f).bind g = x.bind (fun a => (f a).bind g) := by
  cases x <;> rfl

theorem bind_congr_ok {α β : Type} (x : Except Halt α) (f g : α → Except Halt β)
    (h : ∀ a, x = .ok a → f a = g a) : x.bind f = x.bind g := by
  cases x with
  | error e => rfl
  | ok a => exact h a rfl

theorem run_ite (g : gfx) (c : Prop) [Decidable c] (r : page_request) (wait : Bool) (f : Nat) :
    gfx_run_requests g (if c then [r] else []) wait f =
      if c then gfx_request_pages_ g r wait f else .ok g := by
  by_cases h : c
  · simp only [h, if_true, run_single]
  · simp only [h, if_false, run_nil]

theorem run_ite_rect (g g' : gfx) (c : Prop) [Decidable c] (r : page_request) (wait : Bool)
    (f : Nat) (h : (if c then gfx_request_pages_ g r wait f else .ok g) = .ok g') :
    g'.rect_page_x0 = g.rect_page_x0 ∧ g'.rect_page_y0 = g.rect_page_y0 ∧
    g'.rect_page_x1 = g.rect_page_x1 ∧ g'.rect_page_y1 = g.rect_page_y1 := by
  by_cases hc : c
  · simp only [hc, if_true] at h
    exact gfx_request_pages__rect g g' r wait f h
  · simp only [hc, if_false, Except.ok.injEq] at h
    subst h
    exact ⟨rfl, rfl, rfl, rfl⟩

/-- `gfx_request_rect` runs the calls of `gfx_request_rect_calls` in order and then
stores the new rectangle. -/
theorem gfx_request_rect_eq_run (g : gfx) (px0 py0 px1 py1 : Int) (wait : Bool) (f : Nat) :
    gfx_request_rect g px0 py0 px1 py1 wait f =
      if g.rect_page_x0 = px0 ∧ g.rect_page_y0 = py0 ∧
          g.rect_page_x1 = px1 ∧ g.rect_page_y1 = py1 then .ok (g, 1)
      else
        (gfx_run_requests g
          (gfx_request_rect_calls g.rect_page_x0 g.rect_page_y0 g.rect_page_x1 g.rect_page_y1
            px0 py0 px1 py1) wait f).bind
          (fun g4 => .ok ({ g4 with
            rect_page_x0 := px0, rect_page_y0 := py0,
            rect_page_x1 := px1, rect_page_y1 := py1 }, 1)) := by
  unfold gfx_request_rect gfx_request_rect_calls
  by_cases heq : g.rect_page_x0 = px0 ∧ g.rect_page_y0 = py0 ∧
      g.rect_page_x1 = px1 ∧ g.rect_page_y1 = py1
  · simp only [heq, and_self, if_true]; rfl
  · simp only [heq, if_false]
    by_cases hd : g.rect_page_x1 ≤ g.rect_page_x0 ∨ g.rect_page_y1 ≤ g.rect_page_y0 ∨
          px1 < g.rect_page_x0 ∨ px0 > g.rect_page_x1 ∨
          py1 < g.rect_page_y0 ∨ py0 > g.rect_page_y1
    · simp only [hd, if_true, run_cons, run_single]
      cases gfx_request_pages_ g ⟨false, g.rect_page_x0, g.rect_page_y0, g.rect_page_x1,
          g.rect_page_y1⟩ wait f with
      | error e => rfl
      | ok g1 =>
        simp only [bind, Except.bind, run_nil]
        cases gfx_request_pages_ g1 ⟨true, px0, py0, px1, py1⟩ wait f <;> rfl
    · simp only [hd, if_false]
      rw [run_append, run_append, run_append]
      unfold bottom_strip top_strip left_strip right_strip
      simp only [run_ite, pure, Except.pure]
      by_cases c1 : g.rect_page_y0 - py0 = 0 <;> by_cases c2 : py1 - g.rect_page_y1 = 0 <;>
        by_cases c3 : g.rect_page_x0 - px0 = 0 <;> by_cases c4 : px1 - g.rect_page_x1 = 0 <;>
        simp only [c1, c2, c3, c4, ne_eq, not_true_eq_false, not_false_eq_true, if_true,
          if_false, bind_eq, ok_bind, bind_assoc_except] <;>
        first
        | rfl
        | (apply bind_congr_ok
           intro g1 h1
           obtain ⟨e0, _, e2, _⟩ := gfx_request_pages__rect _ _ _ _ _ h1
           simp only [e0, e2])

theorem cdiv_ok (a b : Int) (h : b ≠ 0) : cdiv a b = .ok (Int.tdiv a b) := by
  simp [cdiv, h]

theorem gfx_request_pages_empty (g : gfx) (commit : Bool) (x0 y0 x1 y1 : Int) (wait : Bool)
    (f : Nat) (hpw : g.page_width ≠ 0) (hph : g.page_height ≠ 0)
    (he : MIN x1 (Int.tdiv g.tex_width g.page_width) ≤ x0 ∨
      MIN y1 (Int.tdiv g.tex_height g.page_height) ≤ y0) :
    gfx_request_pages g commit x0 y0 x1 y1 wait f = .ok (g, 1) := by
  unfold gfx_request_pages
  simp only [cdiv_ok _ _ hpw, cdiv_ok _ _ hph, bind, Except.bind, he, if_true]
  rfl

theorem gfx_request_pages_uncommit (g : gfx) (x0 y0 x1 y1 : Int) (wait : Bool)
    (f : Nat) (hd : dims_ok g)
    (he : ¬ (MIN x1 (Int.tdiv g.tex_width g.page_width) ≤ x0 ∨
      MIN y1 (Int.tdiv g.tex_height g.page_height) ≤ y0)) :
    gfx_request_pages g false x0 y0 x1 y1 wait f =
      .ok ({ g with xfer := { g.xfer with
        gl_calls := g.xfer.gl_calls ++
          [gl_call.glTexPageCommitmentARB (x0 * g.page_width) (y0 * g.page_height)
            ((MIN x1 (Int.tdiv g.tex_width g.page_width) - x0) * g.page_width)
            ((MIN y1 (Int.tdiv g.tex_height g.page_height) - y0) * g.page_height) false] } },
        1) := by
  obtain ⟨hpw, hph, hbw, hbh⟩ := hd
  unfold gfx_request_pages
  simp only [cdiv_ok _ _ hpw, cdiv_ok _ _ hph, cdiv_ok _ _ hbw, cdiv_ok _ _ hbh, bind,
    Except.bind, he, if_false]
  rfl

theorem gfx_request_pages_commit (g : gfx) (x0 y0 x1 y1 : Int) (wait : Bool)
    (f : Nat) (hd : dims_ok g)
    (he : ¬ (MIN x1 (Int.tdiv g.tex_width g.page_width) ≤ x0 ∨
      MIN y1 (Int.tdiv g.tex_height g.page_height) ≤ y0)) :
    gfx_request_pages g true x0 y0 x1 y1 wait f =
      match xfer_queue_get g.xfer.queue XFER_QUEUE_IDLE wait 1 with
      | .assert_failed => .error Halt.fault
      | .waiting _ => .error Halt.blocked
      | .returned q out ret =>
        if ret ≠ 1 then .ok ({ g with xfer := { g.xfer with queue := q } }, ret)
        else
          (xfer_start (g.xfer.buffers (out.headD (-1))) g.texture g.tex_format 0
            (Int.tdiv g.tex_width g.block_width * Int.tdiv g.block_size 8)
            (x0 * g.page_width) (y0 * g.page_height) (x0 * g.page_width) (y0 * g.page_height)
            g.block_width g.block_height g.block_size
            ((MIN x1 (Int.tdiv g.tex_width g.page_width) - x0) * g.page_width)
            ((MIN y1 (Int.tdiv g.tex_height g.page_height) - y0) * g.page_height) f).bind
          (fun b => .ok ({ g with xfer := { g.xfer with
              buffers := Function.update g.xfer.buffers (out.headD (-1)) b
              queue := (xfer_queue_put q XFER_QUEUE_READ (out.headD (-1))).1 } },
            if (xfer_queue_put q XFER_QUEUE_READ (out.headD (-1))).2 ≠ 1 then -1 else 1)) := by
  obtain ⟨hpw, hph, hbw, hbh⟩ := hd
  unfold gfx_request_pages
  simp only [cdiv_ok _ _ hpw, cdiv_ok _ _ hph, cdiv_ok _ _ hbw, cdiv_ok _ _ hbh, bind,
    Except.bind, he, if_false, if_true]
  cases xfer_queue_get g.xfer.queue XFER_QUEUE_IDLE wait 1 with
  | assert_failed => rfl
  | waiting q => rfl
  | returned q out ret =>
    simp only []
    by_cases hr : ret = 1
    · simp only [hr, ne_eq, not_true_eq_false, if_false]
      cases xfer_start (g.xfer.buffers (out.headD (-1))) g.texture g.tex_format 0
            (Int.tdiv g.tex_width g.block_width * Int.tdiv g.block_size 8)
            (x0 * g.page_width) (y0 * g.page_height) (x0 * g.page_width) (y0 * g.page_height)
            g.block_width g.block_height g.block_size
            ((MIN x1 (Int.tdiv g.tex_width g.page_width) - x0) * g.page_width)
            ((MIN y1 (Int.tdiv g.tex_height g.page_height) - y0) * g.page_height) f with
      | error e => rfl
      | ok b =>
        simp only [pure, Except.pure]
        split <;> rfl
    · simp only [hr, ne_eq, not_false_eq_true, if_true]
      rfl

theorem xfer_start_ok (b b' : xfer_buffer) (dst_tex : Nat) (tex_format src_ptr : Int)
    (src_pitch src_x src_y dst_x dst_y block_width block_height block_size width height : Int)
    (f : Nat)
    (h : xfer_start b dst_tex tex_format src_ptr src_pitch src_x src_y dst_x dst_y
      block_width block_height block_size width height f = .ok b') :
    b' = { b with
      dst_tex := dst_tex, tex_format := tex_format, src_ptr := src_ptr, src_pitch := src_pitch,
      src_x := src_x, src_y := src_y, dst_x := dst_x, dst_y := dst_y,
      block_width := block_width, block_height := block_height, block_size := block_size,
      width := width, height := height, start_frame := f } ∧ b.syncpt = 0 := by
  unfold xfer_start at h
  simp only [bind, Except.bind, cdiv, pure, Except.pure] at h
  split at h
  · simp at h
  · split at h
    · simp at h
    · split at h
      · simp at h
      · split at h
        · simp at h
        · rename_i hs
          simp only [Except.ok.injEq] at h
          exact ⟨h.symm, by simpa using hs⟩

theorem contents_nil_iff (q : xfer_queue) (s : Nat) (hok : counters_ok q s) :
    queue_contents q s = [] ↔ q.queue_counters s 0 = q.queue_counters s 1 := by
  obtain ⟨hrd, hwr⟩ := (counters_ok_iff q s).mp hok
  rw [← List.length_eq_zero, queue_contents_length, queue_size_eq]
  omega

theorem get_empty (q : xfer_queue) (s : Nat) (m : Int) (hm : m ≠ 0) (hrun : q.stopped = 0)
    (he : q.queue_counters s 0 = q.queue_counters s 1) :
    xfer_queue_get q s false m = .returned q [] 0 := by
  simp [xfer_queue_get, xfer_queue_get_loop, hm, hrun, he]

/-- With `Idle` empty and the queue set running, a non-blocking request returns and
changes nothing but the list of issued commands. -/
theorem starved_request (g : gfx) (r : page_request) (f : Nat) (hd : dims_ok g)
    (hrun : g.xfer.queue.stopped = 0)
    (he : g.xfer.queue.queue_counters XFER_QUEUE_IDLE 0 =
      g.xfer.queue.queue_counters XFER_QUEUE_IDLE 1) :
    ∃ calls, gfx_request_pages_ g r false f =
      .ok { g with xfer := { g.xfer with gl_calls := g.xfer.gl_calls ++ calls } } := by
  unfold gfx_request_pages_
  by_cases hempty : MIN r.x1 (Int.tdiv g.tex_width g.page_width) ≤ r.x0 ∨
      MIN r.y1 (Int.tdiv g.tex_height g.page_height) ≤ r.y0
  · refine ⟨[], ?_⟩
    rw [gfx_request_pages_empty g _ _ _ _ _ _ _ hd.1 hd.2.1 hempty]
    simp only [List.append_nil]
    rfl
  · cases hc : r.commit
    · refine ⟨[gl_call.glTexPageCommitmentARB (r.x0 * g.page_width) (r.y0 * g.page_height)
          ((MIN r.x1 (Int.tdiv g.tex_width g.page_width) - r.x0) * g.page_width)
          ((MIN r.y1 (Int.tdiv g.tex_height g.page_height) - r.y0) * g.page_height) false], ?_⟩
      rw [gfx_request_pages_uncommit g _ _ _ _ _ _ hd hempty]
      rfl
    · refine ⟨[], ?_⟩
      rw [gfx_request_pages_commit g _ _ _ _ _ _ hd hempty,
        get_empty _ _ 1 (by decide) hrun he]
      simp only [List.append_nil]
      rfl

theorem starved_run (reqs : List page_request) (f : Nat) :
    ∀ (g : gfx), dims_ok g → g.xfer.queue.stopped = 0 →
      g.xfer.queue.queue_counters XFER_QUEUE_IDLE 0 =
        g.xfer.queue.queue_counters XFER_QUEUE_IDLE 1 →
      ∃ calls, gfx_run_requests g reqs false f =
        .ok { g with xfer := { g.xfer with gl_calls := g.xfer.gl_calls ++ calls } } := by
  induction reqs with
  | nil =>
    intro g _ _ _
    exact ⟨[], by simp only [List.append_nil]; rfl⟩
  | cons r rs ih =>
    intro g hd hrun he
    obtain ⟨c1, h1⟩ := starved_request g r f hd hrun he
    obtain ⟨c2, h2⟩ := ih { g with xfer := { g.xfer with gl_calls := g.xfer.gl_calls ++ c1 } }
      hd hrun he
    refine ⟨c1 ++ c2, ?_⟩
    rw [run_cons, h1, ok_bind, h2, List.append_assoc]


theorem gfx_request_rect_returns (g g' : gfx) (x0 y0 x1 y1 : Int) (wait : Bool) (f : Nat)
    (ret : Int) (h : gfx_request_rect g x0 y0 x1 y1 wait f = .ok (g', ret)) :
    g'.rect_page_x0 = x0 ∧ g'.rect_page_y0 = y0 ∧ g'.rect_page_x1 = x1 ∧
    g'.rect_page_y1 = y1 ∧ ret = 1 := by
  rw [gfx_request_rect_eq_run] at h
  split at h
  · rename_i heq
    simp only [Except.ok.injEq, Prod.mk.injEq] at h
    rw [← h.1, ← h.2]
    exact ⟨heq.1, heq.2.1, heq.2.2.1, heq.2.2.2, rfl⟩
  · cases hrun : gfx_run_requests g (gfx_request_rect_calls g.rect_page_x0 g.rect_page_y0
        g.rect_page_x1 g.rect_page_y1 x0 y0 x1 y1) wait f with
    | error e => rw [hrun] at h; simp [Except.bind] at h
    | ok g4 =>
      rw [hrun, ok_bind] at h
      simp only [Except.ok.injEq, Prod.mk.injEq] at h
      rw [← h.1, ← h.2]
      exact ⟨rfl, rfl, rfl, rfl, rfl⟩


/-! ### Lemmas on the buffer pool -/

theorem all_queued_of_update (q q' : xfer_queue) (s : Nat) (hs : s < 4) (l : List Int)
    (hc : queue_contents q' s = l)
    (ho : ∀ s', s' ≠ s → queue_contents q' s' = queue_contents q s') :
    (s = 0 ∧ all_queued q' = l ++ queue_contents q 1 ++ queue_contents q 2 ++ queue_contents q 3) ∨
    (s = 1 ∧ all_queued q' = queue_contents q 0 ++ l ++ queue_contents q 2 ++ queue_contents q 3) ∨
    (s = 2 ∧ all_queued q' = queue_contents q 0 ++ queue_contents q 1 ++ l ++ queue_contents q 3) ∨
    (s = 3 ∧ all_queued q' = queue_contents q 0 ++ queue_contents q 1 ++ queue_contents q 2 ++ l) := by
  unfold all_queued
  interval_cases s
  · left; refine ⟨rfl, ?_⟩
    rw [hc, ho 1 (by decide), ho 2 (by decide), ho 3 (by decide)]
  · right; left; refine ⟨rfl, ?_⟩
    rw [hc, ho 0 (by decide), ho 2 (by decide), ho 3 (by decide)]
  · right; right; left; refine ⟨rfl, ?_⟩
    rw [hc, ho 0 (by decide), ho 1 (by decide), ho 3 (by decide)]
  · right; right; right; refine ⟨rfl, ?_⟩
    rw [hc, ho 0 (by decide), ho 1 (by decide), ho 2 (by decide)]

theorem contents_length_le_all (q : xfer_queue) (s : Nat) (hs : s < 4) :
    (queue_contents q s).length ≤ (all_queued q).length := by
  unfold all_queued
  simp only [List.length_append, XFER_QUEUE_IDLE, XFER_QUEUE_READ, XFER_QUEUE_UPLOAD,
    XFER_QUEUE_WAIT]
  interval_cases s <;> omega

/-- A put of a held index is accepted and keeps the invariant. -/
theorem put_inv (q : xfer_queue) (s : Nat) (v : Int) (held : List Int) (hs : s < 4)
    (h : pool_inv q (v :: held)) :
    (xfer_queue_put q s v).2 = 1 ∧ pool_inv (xfer_queue_put q s v).1 held := by
  obtain ⟨hrun, hok, hperm⟩ := h
  have hlen := hperm.length_eq
  simp only [List.length_append, List.length_cons, List.length_nil] at hlen
  have hroom : queue_size q s < 8 := by
    have := contents_length_le_all q s hs
    rw [queue_contents_length] at this
    omega
  obtain ⟨p1, p2, p3, p4, _, p6⟩ := put_spec q s v (hok s hs) hrun hroom
  refine ⟨p1, by rw [p4]; exact hrun, ?_, ?_⟩
  · intro s' hs'
    by_cases e : s' = s
    · rw [e]; exact p6
    · rw [counters_ok_iff, (p3 s' e).2]
      exact (counters_ok_iff q s').mp (hok s' hs')
  · refine List.Perm.trans ?_ hperm
    have ho := contents_of_other q _ s p3
    rcases all_queued_of_update q _ s hs _ p2 ho with ⟨e, h⟩ | ⟨e, h⟩ | ⟨e, h⟩ | ⟨e, h⟩ <;>
      · subst e
        rw [h]
        unfold all_queued
        rw [List.perm_iff_count]
        intro a
        simp only [List.count_append, List.count_cons, List.count_nil, XFER_QUEUE_IDLE,
          XFER_QUEUE_READ, XFER_QUEUE_UPLOAD, XFER_QUEUE_WAIT]
        omega

/-- A get that returns moves what it returns from its stage to the held indices. -/
theorem get_inv (q q' : xfer_queue) (s : Nat) (wait : Bool) (m : Int) (held out : List Int)
    (ret : Int) (hs : s < 4) (h : pool_inv q held)
    (hg : xfer_queue_get q s wait m = .returned q' out ret) :
    pool_inv q' (held ++ out) ∧ ret = out.length ∧
    out = (queue_contents q s).take m.toNat ∧
    queue_contents q' s = (queue_contents q s).drop m.toNat ∧
    (∀ s', s' ≠ s → queue_contents q' s' = queue_contents q s') := by
  obtain ⟨hrun, hok, hperm⟩ := h
  unfold xfer_queue_get at hg
  split at hg
  · simp at hg
  · by_cases hne : queue_contents q s = []
    · have he := (contents_nil_iff q s (hok s hs)).mp hne
      simp only [xfer_queue_get_loop, hrun, ne_eq, not_true_eq_false, if_false, he, if_true] at hg
      split at hg
      · simp at hg
      · simp only [get_result.returned.injEq] at hg
        obtain ⟨e1, e2, e3⟩ := hg
        subst e1 e2 e3
        refine ⟨?_, rfl, ?_, ?_, fun _ _ => rfl⟩
        · rw [List.append_nil]; exact ⟨hrun, hok, hperm⟩
        · rw [hne, List.take_nil]
        · rw [hne, List.drop_nil]
    · obtain ⟨q'', g1, g2, g3, g4, _, g6⟩ := get_loop_spec q s wait m (hok s hs) hrun hne
      rw [g1] at hg
      simp only [get_result.returned.injEq] at hg
      obtain ⟨e1, e2, e3⟩ := hg
      subst e1 e2
      have ho := contents_of_other q q'' s g3
      refine ⟨⟨by rw [g4]; exact hrun, ?_, ?_⟩, ?_, rfl, g2, ho⟩
      · intro s' hs'
        by_cases e : s' = s
        · rw [e]; exact g6
        · rw [counters_ok_iff, (g3 s' e).2]
          exact (counters_ok_iff q s').mp (hok s' hs')
      · refine List.Perm.trans ?_ hperm
        have hsplit := List.take_append_drop m.toNat (queue_contents q s)
        rcases all_queued_of_update q q'' s hs _ g2 ho with ⟨e, h⟩ | ⟨e, h⟩ | ⟨e, h⟩ | ⟨e, h⟩ <;>
          · subst e
            rw [h]
            unfold all_queued
            rw [List.perm_iff_count]
            intro a
            have hc := congrArg (List.count a) hsplit
            simp only [List.count_append, XFER_QUEUE_IDLE, XFER_QUEUE_READ,
              XFER_QUEUE_UPLOAD, XFER_QUEUE_WAIT] at hc ⊢
            omega
      · rw [← e3]
        simp [List.length_take, Nat.min_comm]

theorem gfx_request_pages_queue (g g' : gfx) (commit : Bool) (x0 y0 x1 y1 : Int) (wait : Bool)
    (f : Nat) (ret : Int)
    (h : gfx_request_pages g commit x0 y0 x1 y1 wait f = .ok (g', ret)) :
    (g'.xfer.queue = g.xfer.queue ∧ ret = 1) ∨
    (∃ q out r, xfer_queue_get g.xfer.queue XFER_QUEUE_IDLE wait 1 = .returned q out r ∧
      ((r ≠ 1 ∧ g'.xfer.queue = q ∧ ret = r) ∨
       (r = 1 ∧ g'.xfer.queue = (xfer_queue_put q XFER_QUEUE_READ (out.headD (-1))).1 ∧
        ret = if (xfer_queue_put q XFER_QUEUE_READ (out.headD (-1))).2 ≠ 1 then -1 else 1))) := by
  unfold gfx_request_pages at h
  simp only [bind, Except.bind, pure, Except.pure, cdiv] at h
  split at h
  · simp at h
  · split at h
    · simp at h
    · split at h
      · simp only [Except.ok.injEq, Prod.mk.injEq] at h
        left; rw [← h.1, ← h.2]; exact ⟨rfl, rfl⟩
      · split at h
        · simp at h
        · split at h
          · simp at h
          · split at h
            · split at h
              · simp at h
              · simp at h
              · rename_i q out r hget
                right
                refine ⟨q, out, r, hget, ?_⟩
                split at h
                · rename_i hr
                  simp only [Except.ok.injEq, Prod.mk.injEq] at h
                  left; rw [← h.1, ← h.2]; exact ⟨hr, rfl, rfl⟩
                · rename_i hr
                  have hr1 : r = 1 := by simpa using hr
                  split at h
                  · simp at h
                  · split at h
                    · simp at h
                    · split at h
                      · rename_i hp
                        simp only [Except.ok.injEq, Prod.mk.injEq] at h
                        right; rw [← h.1, ← h.2]
                        exact ⟨hr1, rfl, by rw [if_pos hp]⟩
                      · rename_i hp
                        simp only [Except.ok.injEq, Prod.mk.injEq] at h
                        right; rw [← h.1, ← h.2]
                        exact ⟨hr1, rfl, by rw [if_neg hp]⟩
            · simp only [Except.ok.injEq, Prod.mk.injEq] at h
              left; rw [← h.1, ← h.2]; exact ⟨rfl, rfl⟩

/-- A get of at most one index that returns `1` hands out exactly one index. -/
theorem get_one (q q' : xfer_queue) (s : Nat) (wait : Bool) (held out : List Int)
    (hs : s < 4) (h : pool_inv q held)
    (hg : xfer_queue_get q s wait 1 = .returned q' out 1) :
    pool_inv q' (out.headD (-1) :: held) := by
  obtain ⟨h1, h2, h3, _, _⟩ := get_inv q q' s wait 1 held out 1 hs h hg
  have hlen : out.length = 1 := by exact_mod_cast h2.symm
  match out, hlen with
  | [b], _ =>
    obtain ⟨a1, a2, a3⟩ := h1
    refine ⟨a1, a2, List.Perm.trans ?_ a3⟩
    rw [List.perm_iff_count]
    intro a
    simp only [List.headD_cons, List.count_append, List.count_cons, List.count_nil]
    omega

theorem request_inv (g g' : gfx) (commit : Bool) (x0 y0 x1 y1 : Int) (wait : Bool)
    (f : Nat) (ret : Int) (hinv : pool_inv g.xfer.queue [])
    (h : gfx_request_pages g commit x0 y0 x1 y1 wait f = .ok (g', ret)) :
    pool_inv g'.xfer.queue [] ∧ ret ≠ -1 := by
  rcases gfx_request_pages_queue g g' commit x0 y0 x1 y1 wait f ret h with
    ⟨hq, hr⟩ | ⟨q, out, r, hget, hcase⟩
  · rw [hq, hr]; exact ⟨hinv, by decide⟩
  · obtain ⟨i1, i2, i3, _, _⟩ := get_inv _ q XFER_QUEUE_IDLE wait 1 [] out r (by decide) hinv hget
    rcases hcase with ⟨hr, hq, hret⟩ | ⟨hr, hq, hret⟩
    · have hlen : out.length ≤ 1 := by
        rw [i3]; simp [List.length_take]
      have hout : out = [] := by
        match out, hlen with
        | [], _ => rfl
        | [b], _ => simp at i2; exact absurd i2 hr
      rw [hout] at i1 i2
      rw [hq, hret, i2]
      exact ⟨i1, by decide⟩
    · subst hr
      have hp := get_one _ q XFER_QUEUE_IDLE wait [] out (by decide) hinv hget
      obtain ⟨p1, p2⟩ := put_inv q XFER_QUEUE_READ (out.headD (-1)) [] (by decide) hp
      rw [hq, hret, p1]
      exact ⟨p2, by decide⟩

theorem worker_inv (x x' : xfer) (mem : Int → Nat) (t : Nat) (cont : Bool)
    (hinv : pool_inv x.queue [])
    (h : xfer_thread_main_step x mem t = .ok (x', cont)) :
    pool_inv x'.queue [] ∧ cont = true := by
  unfold xfer_thread_main_step at h
  split at h
  · simp at h
  · simp at h
  · rename_i q out ret hget
    obtain ⟨i1, i2, i3, _, _⟩ := get_inv _ q XFER_QUEUE_READ true 1 [] out ret (by decide)
      hinv hget
    split at h
    · rename_i hr
      subst hr
      have hp := get_one _ q XFER_QUEUE_READ true [] out (by decide) hinv hget
      obtain ⟨p1, p2⟩ := put_inv q XFER_QUEUE_UPLOAD (out.headD (-1)) [] (by decide) hp
      dsimp only at h
      cases hb : xfer_buffer_blit (x.buffers (out.headD (-1))) mem with
      | error e => rw [hb] at h; simp [bind, Except.bind] at h
      | ok b =>
        rw [hb] at h
        simp only [bind, Except.bind, pure, Except.pure, Except.ok.injEq, Prod.mk.injEq] at h
        rw [← h.1, ← h.2]
        exact ⟨p2, decide_eq_true p1⟩
    · rename_i hr
      exfalso
      have hne : queue_contents x.queue XFER_QUEUE_READ ≠ [] := by
        intro hnil
        have he := (contents_nil_iff _ _ (hinv.2.1 _ (by decide))).mp hnil
        simp [xfer_queue_get, xfer_queue_get_loop, hinv.1, he] at hget
      apply hr
      rw [i2, i3]
      cases hc : queue_contents x.queue XFER_QUEUE_READ with
      | nil => exact absurd hc hne
      | cons a l => simp

/-- A loop whose every pass puts the index it is given onto some stage keeps the
invariant, the indices still to be processed being held. -/
theorem fold_inv {σ : Type} (step : σ → Int → Except Halt σ) (qof : σ → xfer_queue)
    (hstep : ∀ s b s', step s b = .ok s' →
      ∃ st, st < 4 ∧ qof s' = (xfer_queue_put (qof s) st b).1) :
    ∀ (l : List Int) (s s' : σ) (held : List Int), pool_inv (qof s) (l ++ held) →
      l.foldlM step s = .ok s' → pool_inv (qof s') held := by
  intro l
  induction l with
  | nil =>
    intro s s' held hinv h
    simp only [List.foldlM, pure, Except.pure, Except.ok.injEq] at h
    rw [← h]; exact hinv
  | cons b rest ih =>
    intro s s' held hinv h
    simp only [List.foldlM, bind, Except.bind] at h
    cases hs : step s b with
    | error e => rw [hs] at h; simp at h
    | ok s1 =>
      rw [hs] at h
      obtain ⟨st, hst, hq⟩ := hstep s b s1 hs
      obtain ⟨_, p2⟩ := put_inv (qof s) st b (rest ++ held) hst hinv
      rw [← hq] at p2
      exact ih s1 s' held p2 h

theorem upload_one_queue (syncs : Int → Nat) (x x' : xfer) (b : Int)
    (h : xfer_upload_one syncs x b = .ok x') :
    ∃ st, st < 4 ∧ x'.queue = (xfer_queue_put x.queue st b).1 := by
  unfold xfer_upload_one at h
  cases hu : xfer_buffer_upload (x.buffers b) (syncs b) with
  | error e => rw [hu] at h; simp [bind, Except.bind] at h
  | ok r =>
    rw [hu] at h
    simp only [bind, Except.bind, pure, Except.pure, Except.ok.injEq] at h
    exact ⟨XFER_QUEUE_WAIT, by decide, by rw [← h]⟩

theorem finish_one_queue (frame : Nat) (ss qr : Int → Nat) (s s' : xfer × Int) (b : Int)
    (h : xfer_finish_one frame ss qr s b = .ok s') :
    ∃ st, st < 4 ∧ s'.1.queue = (xfer_queue_put s.1.queue st b).1 := by
  unfold xfer_finish_one at h
  simp only [bind, Except.bind, pure, Except.pure, cdiv] at h
  split at h
  · simp at h
  · split at h
    · simp at h
    · split at h
      · simp at h
      · split at h
        · simp only [Except.ok.injEq] at h
          exact ⟨XFER_QUEUE_IDLE, by decide, by rw [← h]⟩
        · simp only [Except.ok.injEq] at h
          exact ⟨XFER_QUEUE_WAIT, by decide, by rw [← h]⟩

theorem held_comm (q : xfer_queue) (l1 l2 : List Int) (h : pool_inv q (l1 ++ l2)) :
    pool_inv q (l2 ++ l1) := by
  obtain ⟨h1, h2, h3⟩ := h
  refine ⟨h1, h2, List.Perm.trans ?_ h3⟩
  exact List.Perm.append_left _ List.perm_append_comm

theorem take_length_eq (out : List Int) (num : Int) (h : num = out.length) :
    out.take num.toNat = out := by
  rw [h]; simp

theorem upload_inv (x x' : xfer) (wait : Bool) (syncs : Int → Nat) (n : Int)
    (held : List Int) (hinv : pool_inv x.queue held)
    (h : xfer_upload x wait syncs = .ok (x', n)) :
    pool_inv x'.queue held := by
  unfold xfer_upload at h
  split at h
  · simp at h
  · simp at h
  · rename_i q out num hget
    obtain ⟨i1, i2, _⟩ := get_inv _ q XFER_QUEUE_UPLOAD wait _ held out num (by decide) hinv hget
    rw [take_length_eq out num i2] at h
    cases hf : List.foldlM (xfer_upload_one syncs) { x with queue := q } out with
    | error e => rw [hf] at h; simp [bind, Except.bind] at h
    | ok x1 =>
      rw [hf] at h
      simp only [bind, Except.bind, pure, Except.pure, Except.ok.injEq, Prod.mk.injEq] at h
      rw [← h.1]
      refine fold_inv (xfer_upload_one syncs) (fun x => x.queue)
        (fun s b s' hs => upload_one_queue syncs s s' b hs) out _ x1 held ?_ hf
      exact held_comm _ _ _ i1

theorem finish_inv (x x' : xfer) (frame : Nat) (ss qr : Int → Nat) (n : Int)
    (held : List Int) (hinv : pool_inv x.queue held)
    (h : xfer_finish x frame ss qr = .ok (x', n)) :
    pool_inv x'.queue held := by
  unfold xfer_finish at h
  split at h
  · simp at h
  · simp at h
  · rename_i q out num hget
    obtain ⟨i1, i2, _⟩ := get_inv _ q XFER_QUEUE_WAIT false _ held out num (by decide) hinv hget
    rw [take_length_eq out num i2] at h
    refine fold_inv (xfer_finish_one frame ss qr) (fun s => s.1.queue)
      (fun s b s' hs => finish_one_queue frame ss qr s s' b hs) out _ (x', n) held ?_ h
    exact held_comm _ _ _ i1

theorem put_inv_contents (q : xfer_queue) (s : Nat) (v : Int) (held : List Int) (hs : s < 4)
    (h : pool_inv q (v :: held)) :
    queue_contents (xfer_queue_put q s v).1 s = queue_contents q s ++ [v] ∧
    ∀ s', s' ≠ s → queue_contents (xfer_queue_put q s v).1 s' = queue_contents q s' := by
  obtain ⟨hrun, hok, hperm⟩ := h
  have hlen := hperm.length_eq
  simp only [List.length_append, List.length_cons, List.length_nil] at hlen
  have hroom : queue_size q s < 8 := by
    have := contents_length_le_all q s hs
    rw [queue_contents_length] at this
    omega
  obtain ⟨_, p2, p3, _⟩ := put_spec q s v (hok s hs) hrun hroom
  exact ⟨p2, contents_of_other q _ s p3⟩

/-- A loop that puts each index `b` it is given onto the stage `dest b`: every put is
accepted, so each stage ends with the indices sent to it appended in order. -/
theorem fold_contents {σ : Type} (step : σ → Int → Except Halt σ) (qof : σ → xfer_queue)
    (dest : Int → Nat) (hdest : ∀ b, dest b < 4)
    (hstep : ∀ s b s', step s b = .ok s' → qof s' = (xfer_queue_put (qof s) (dest b) b).1) :
    ∀ (l : List Int) (s s' : σ) (held : List Int), pool_inv (qof s) (l ++ held) →
      l.foldlM step s = .ok s' →
      ∀ st, queue_contents (qof s') st =
        queue_contents (qof s) st ++ l.filter (fun b => decide (dest b = st)) := by
  intro l
  induction l with
  | nil =>
    intro s s' held _ h st
    simp only [List.foldlM, pure, Except.pure, Except.ok.injEq] at h
    rw [← h]; simp
  | cons b rest ih =>
    intro s s' held hinv h st
    simp only [List.foldlM, bind, Except.bind] at h
    cases hs : step s b with
    | error e => rw [hs] at h; simp at h
    | ok s1 =>
      rw [hs] at h
      have hq := hstep s b s1 hs
      obtain ⟨_, p2⟩ := put_inv (qof s) (dest b) b (rest ++ held) (hdest b) hinv
      obtain ⟨c1, c2⟩ := put_inv_contents (qof s) (dest b) b (rest ++ held) (hdest b) hinv
      rw [← hq] at p2 c1 c2
      rw [ih s1 s' held p2 h st]
      by_cases e : dest b = st
      · subst e
        rw [c1]
        simp [List.filter_cons]
      · rw [c2 st (Ne.symm e)]
        simp [List.filter_cons, e]

theorem get_all (q q' : xfer_queue) (s : Nat) (wait : Bool) (held out : List Int) (ret : Int)
    (hs : s < 4) (h : pool_inv q held)
    (hg : xfer_queue_get q s wait XFER_QUEUE_MAX_SIZE = .returned q' out ret) :
    out = queue_contents q s ∧ queue_contents q' s = [] ∧
    (∀ s', s' ≠ s → queue_contents q' s' = queue_contents q s') := by
  obtain ⟨_, _, g3, g4, g5⟩ := get_inv q q' s wait _ held out ret hs h hg
  have hlen : (queue_contents q s).length ≤ 8 := by
    rw [queue_contents_length]; exact queue_size_le q s
  have h9 : (XFER_QUEUE_MAX_SIZE : Int).toNat = 9 := rfl
  rw [h9] at g3 g4
  refine ⟨?_, ?_, g5⟩
  · rw [g3]; exact List.take_of_length_le (by omega)
  · rw [g4]; exact List.drop_eq_nil_of_le (by omega)

theorem upload_one_queue' (syncs : Int → Nat) (x x' : xfer) (b : Int)
    (h : xfer_upload_one syncs x b = .ok x') :
    x'.queue = (xfer_queue_put x.queue XFER_QUEUE_WAIT b).1 := by
  unfold xfer_upload_one at h
  cases hu : xfer_buffer_upload (x.buffers b) (syncs b) with
  | error e => rw [hu] at h; simp [bind, Except.bind] at h
  | ok r =>
    rw [hu] at h
    simp only [bind, Except.bind, pure, Except.pure, Except.ok.injEq] at h
    rw [← h]

theorem finish_status (b : xfer_buffer) (ss qr : Nat) :
    (xfer_buffer_finish b true false false 0 0 ss qr).2.1 = fence_status ss := by
  simp [xfer_buffer_finish, fence_status]

theorem finish_one_queue' (frame : Nat) (ss qr : Int → Nat) (s s' : xfer × Int) (b : Int)
    (h : xfer_finish_one frame ss qr s b = .ok s') :
    s'.1.queue = (xfer_queue_put s.1.queue (finish_stage (ss b)) b).1 ∧
    s'.2 = s.2 + (if fence_status (ss b) ≠ 0 then 1 else 0) := by
  unfold xfer_finish_one at h
  simp only [bind, Except.bind, pure, Except.pure, cdiv, finish_status] at h
  unfold finish_stage
  split at h
  · simp at h
  · split at h
    · simp at h
    · split at h
      · simp at h
      · split at h
        · rename_i hf
          simp only [Except.ok.injEq] at h
          rw [← h, if_pos hf, if_pos hf]
          exact ⟨rfl, rfl⟩
        · rename_i hf
          simp only [Except.ok.injEq] at h
          rw [← h, if_neg hf, if_neg hf]
          exact ⟨rfl, by simp⟩

/-- The upload phase, from a state satisfying the invariant: all drained indices are
appended to `XFER_QUEUE_WAIT`. -/
theorem upload_effect (x x' : xfer) (wait : Bool) (syncs : Int → Nat) (n : Int)
    (held : List Int) (hinv : pool_inv x.queue held) (h : xfer_upload x wait syncs = .ok (x', n)) :
    queue_contents x'.queue XFER_QUEUE_UPLOAD = [] ∧
    queue_contents x'.queue XFER_QUEUE_WAIT =
      queue_contents x.queue XFER_QUEUE_WAIT ++ queue_contents x.queue XFER_QUEUE_UPLOAD ∧
    queue_contents x'.queue XFER_QUEUE_IDLE = queue_contents x.queue XFER_QUEUE_IDLE ∧
    queue_contents x'.queue XFER_QUEUE_READ = queue_contents x.queue XFER_QUEUE_READ := by
  unfold xfer_upload at h
  split at h
  · simp at h
  · simp at h
  · rename_i q out num hget
    obtain ⟨i1, i2, _⟩ := get_inv _ q XFER_QUEUE_UPLOAD wait _ held out num (by decide) hinv hget
    obtain ⟨a1, a2, a3⟩ := get_all _ q XFER_QUEUE_UPLOAD wait held out num (by decide) hinv hget
    rw [take_length_eq out num i2] at h
    cases hf : List.foldlM (xfer_upload_one syncs) { x with queue := q } out with
    | error e => rw [hf] at h; simp [bind, Except.bind] at h
    | ok x1 =>
      rw [hf] at h
      simp only [bind, Except.bind, pure, Except.pure, Except.ok.injEq, Prod.mk.injEq] at h
      rw [← h.1]
      have hc := fold_contents (xfer_upload_one syncs) (fun x => x.queue)
        (fun _ => XFER_QUEUE_WAIT) (fun _ => (by decide : XFER_QUEUE_WAIT < 4))
        (fun s b s' hs => upload_one_queue' syncs s s' b hs) out _ x1 held
        (held_comm _ _ _ i1) hf
      simp only at hc
      refine ⟨?_, ?_, ?_, ?_⟩
      · rw [hc]; simp [a2]
      · rw [hc, a3 _ (by decide), a1]; simp
      · rw [hc, a3 _ (by decide)]; simp
      · rw [hc, a3 _ (by decide)]; simp

/-- The finish phase, from a state satisfying the invariant: each drained index goes
to `Idle` or back to `XFER_QUEUE_WAIT`, in order, none is dropped. -/
theorem finish_effect (x x' : xfer) (frame : Nat) (ss qr : Int → Nat) (n : Int)
    (held : List Int) (hinv : pool_inv x.queue held) (h : xfer_finish x frame ss qr = .ok (x', n)) :
    queue_contents x'.queue XFER_QUEUE_IDLE =
      queue_contents x.queue XFER_QUEUE_IDLE ++
        (queue_contents x.queue XFER_QUEUE_WAIT).filter
          (fun b => decide (finish_stage (ss b) = XFER_QUEUE_IDLE)) ∧
    queue_contents x'.queue XFER_QUEUE_WAIT =
      (queue_contents x.queue XFER_QUEUE_WAIT).filter
        (fun b => decide (finish_stage (ss b) = XFER_QUEUE_WAIT)) ∧
    queue_contents x'.queue XFER_QUEUE_READ = queue_contents x.queue XFER_QUEUE_READ ∧
    queue_contents x'.queue XFER_QUEUE_UPLOAD = queue_contents x.queue XFER_QUEUE_UPLOAD := by
  unfold xfer_finish at h
  split at h
  · simp at h
  · simp at h
  · rename_i q out num hget
    obtain ⟨i1, i2, _⟩ := get_inv _ q XFER_QUEUE_WAIT false _ held out num (by decide) hinv hget
    obtain ⟨a1, a2, a3⟩ := get_all _ q XFER_QUEUE_WAIT false held out num (by decide) hinv hget
    rw [take_length_eq out num i2] at h
    have hdest : ∀ b : Int, finish_stage (ss b) < 4 := by
      intro b; unfold finish_stage; split <;> decide
    have hc := fold_contents (xfer_finish_one frame ss qr) (fun s => s.1.queue)
      (fun b => finish_stage (ss b)) hdest
      (fun s b s' hs => (finish_one_queue' frame ss qr s s' b hs).1) out _ (x', n) held
      (held_comm _ _ _ i1) h
    simp only at hc
    refine ⟨?_, ?_, ?_, ?_⟩
    · rw [hc, a3 _ (by decide), a1]
    · rw [hc, a2, a1]; simp
    · rw [hc, a3 _ (by decide)]
      have : ∀ b : Int, finish_stage (ss b) ≠ XFER_QUEUE_READ := by
        intro b; unfold finish_stage; split <;> decide
      simp [this]
    · rw [hc, a3 _ (by decide)]
      have : ∀ b : Int, finish_stage (ss b) ≠ XFER_QUEUE_UPLOAD := by
        intro b; unfold finish_stage; split <;> decide
      simp [this]

theorem run_inv (reqs : List page_request) (wait : Bool) (f : Nat) :
    ∀ (g g' : gfx), pool_inv g.xfer.queue [] → gfx_run_requests g reqs wait f = .ok g' →
      pool_inv g'.xfer.queue [] := by
  induction reqs with
  | nil =>
    intro g g' hinv h
    rw [run_nil] at h
    simp only [Except.ok.injEq] at h
    rw [← h]; exact hinv
  | cons r rs ih =>
    intro g g' hinv h
    rw [run_cons] at h
    cases h1 : gfx_request_pages_ g r wait f with
    | error e => rw [h1] at h; simp [Except.bind] at h
    | ok g1 =>
      rw [h1, ok_bind] at h
      unfold gfx_request_pages_ at h1
      cases hp : gfx_request_pages g r.commit r.x0 r.y0 r.x1 r.y1 wait f with
      | error e => rw [hp] at h1; simp [bind, Except.bind] at h1
      | ok p =>
        rw [hp] at h1
        simp only [bind, Except.bind, pure, Except.pure, Except.ok.injEq] at h1
        have := (request_inv g p.1 _ _ _ _ _ wait f p.2 hinv hp).1
        rw [h1] at this
        exact ih g1 g' this h

theorem rect_inv (g g' : gfx) (x0 y0 x1 y1 : Int) (wait : Bool) (f : Nat) (ret : Int)
    (hinv : pool_inv g.xfer.queue [])
    (h : gfx_request_rect g x0 y0 x1 y1 wait f = .ok (g', ret)) :
    pool_inv g'.xfer.queue [] := by
  rw [gfx_request_rect_eq_run] at h
  split at h
  · simp only [Except.ok.injEq, Prod.mk.injEq] at h
    rw [← h.1]; exact hinv
  · cases hrun : gfx_run_requests g (gfx_request_rect_calls g.rect_page_x0 g.rect_page_y0
        g.rect_page_x1 g.rect_page_y1 x0 y0 x1 y1) wait f with
    | error e => rw [hrun] at h; simp [Except.bind] at h
    | ok g4 =>
      rw [hrun, ok_bind] at h
      simp only [Except.ok.injEq, Prod.mk.injEq] at h
      rw [← h.1]
      exact run_inv _ wait f g g4 hinv hrun

theorem init_inv : pool_inv (xfer_init xfer_zero XFER_BUFFER_SIZE).queue [] := by
  refine ⟨rfl, ?_, ?_⟩
  · intro s hs
    interval_cases s <;> decide
  · have : all_queued (xfer_init xfer_zero XFER_BUFFER_SIZE).queue ++ [] =
        [0, 1, 2, 3, 4, 5, 6, 7] := by decide
    rw [this]

theorem reachable_inv (g : gfx) (h : Reachable g) : pool_inv g.xfer.queue [] := by
  induction h with
  | init g hq => rw [hq]; exact init_inv
  | request g g' commit x0 y0 x1 y1 wait f ret _ hstep ih =>
    exact (request_inv g g' commit x0 y0 x1 y1 wait f ret ih hstep).1
  | reconcile g g' x0 y0 x1 y1 wait f ret _ hstep ih =>
    exact rect_inv g g' x0 y0 x1 y1 wait f ret ih hstep
  | worker g x' mem t cont _ hstep ih => exact (worker_inv g.xfer x' mem t cont ih hstep).1
  | upload g x' wait syncs n _ hstep ih => exact upload_inv g.xfer x' wait syncs n [] ih hstep
  | finish g x' frame ss qr n _ hstep ih => exact finish_inv g.xfer x' frame ss qr n [] ih hstep


theorem filter_single (l1 l2 : List Int) (b : Int) (p : Int → Bool) (hb : p b = true)
    (h : ∀ c ∈ l1 ++ l2, p c = false) : (l1 ++ b :: l2).filter p = [b] := by
  have h1 : l1.filter p = [] := by
    rw [List.filter_eq_nil_iff]
    intro c hc
    simp [h c (List.mem_append.mpr (Or.inl hc))]
  have h2 : l2.filter p = [] := by
    rw [List.filter_eq_nil_iff]
    intro c hc
    simp [h c (List.mem_append.mpr (Or.inr hc))]
  rw [List.filter_append, List.filter_cons, h1, h2, hb]
  rfl


/-! ### Lemmas on the block copy -/

/-- The row loop of `blockblit2d` after `n` rows. -/
theorem blit_rows (src dst : Int → Nat) (P : Int) (L : Nat) (soff : Nat → Int)
    (hP : (L : Int) ≤ P) :
    ∀ n : Nat,
      (∀ (r : Nat) (j : Int), r < n → 0 ≤ j → j < L →
        (List.range n).foldl (fun (d : Int → Nat) (row : Nat) =>
          memcpy d ((row : Int) * P) src (soff row) L) dst ((r : Int) * P + j) =
          src (soff r + j)) ∧
      (∀ a : Int, (∀ r : Nat, r < n → ¬ ((r : Int) * P ≤ a ∧ a < (r : Int) * P + L)) →
        (List.range n).foldl (fun (d : Int → Nat) (row : Nat) =>
          memcpy d ((row : Int) * P) src (soff row) L) dst a = dst a) := by
  intro n
  induction n with
  | zero =>
    constructor
    · intro r j hr; omega
    · intro a _; rfl
  | succ n ih =>
    obtain ⟨ih1, ih2⟩ := ih
    have hL : (0 : Int) ≤ L := Int.ofNat_nonneg L
    constructor
    · intro r j hr hj0 hjL
      rw [List.range_succ, List.foldl_append]
      simp only [List.foldl_cons, List.foldl_nil, memcpy]
      by_cases hrn : r = n
      · subst hrn
        rw [if_pos (by omega)]
        congr 1
        omega
      · have hlt : r < n := by omega
        have hmul : ((r : Int) + 1) * P ≤ (n : Int) * P :=
          Int.mul_le_mul_of_nonneg_right (by omega) (by omega)
        have hexp : ((r : Int) + 1) * P = (r : Int) * P + P := by ring
        rw [if_neg (by omega)]
        exact ih1 r j hlt hj0 hjL
    · intro a ha
      rw [List.range_succ, List.foldl_append]
      simp only [List.foldl_cons, List.foldl_nil, memcpy]
      rw [if_neg (ha n (by omega))]
      exact ih2 a (fun r hr => ha r (by omega))

/-- What `blockblit2d` returns and writes when its divisions are defined, the byte
count of a row is not negative and the rows do not overlap in the destination. -/
theorem blockblit2d_spec (src dst : Int → Nat)
    (src_pitch src_x src_y dst_pitch bw bh B w h : Int)
    (hbw : bw ≠ 0) (hbh : bh ≠ 0) (hlen : 0 ≤ Int.tdiv w bw * B)
    (hpitch : Int.tdiv w bw * B ≤ dst_pitch) :
    ∃ dst', blockblit2d src src_pitch src_x src_y dst dst_pitch bw bh B w h =
        .ok (dst', Int.tdiv h bh * Int.tdiv w bw) ∧
      (∀ r j : Int, 0 ≤ r → r < Int.tdiv h bh → 0 ≤ j → j < Int.tdiv w bw * B →
        dst' (r * dst_pitch + j) =
          src ((Int.tdiv src_y bh + r) * src_pitch + Int.tdiv src_x bw * B + j)) ∧
      (∀ a : Int, (∀ r : Int, 0 ≤ r → r < Int.tdiv h bh →
          ¬ (r * dst_pitch ≤ a ∧ a < r * dst_pitch + Int.tdiv w bw * B)) →
        dst' a = dst a) := by
  have hL : (((Int.tdiv w bw * B).toNat : Nat) : Int) = Int.tdiv w bw * B :=
    Int.toNat_of_nonneg hlen
  obtain ⟨k1, k2⟩ := blit_rows src dst dst_pitch (Int.tdiv w bw * B).toNat
    (fun row => (Int.tdiv src_y bh + (row : Int)) * src_pitch + Int.tdiv src_x bw * B)
    (by rw [hL]; exact hpitch) (Int.tdiv h bh).toNat
  refine ⟨(List.range (Int.tdiv h bh).toNat).foldl
    (fun (d : Int → Nat) (row : Nat) =>
      memcpy d ((row : Int) * dst_pitch) src
        ((Int.tdiv src_y bh + (row : Int)) * src_pitch + Int.tdiv src_x bw * B)
        (Int.tdiv w bw * B).toNat) dst, ?_, ?_, ?_⟩
  · unfold blockblit2d
    simp only [cdiv_ok _ _ hbw, cdiv_ok _ _ hbh, bind, Except.bind, pure, Except.pure]
    rw [if_neg (by omega)]
  · intro r j hr0 hr1 hj0 hj1
    have hr : ((r.toNat : Nat) : Int) = r := Int.toNat_of_nonneg hr0
    have := k1 r.toNat j (by omega) hj0 (by omega)
    simp only [hr] at this
    exact this
  · intro a ha
    apply k2 a
    intro r hr
    have := ha (r : Int) (by omega) (by omega)
    omega

/-- What `xfer_buffer_blit` writes: the rows one after the other from offset `0`. -/
theorem xfer_buffer_blit_spec (b : xfer_buffer) (mem : Int → Nat)
    (hbw : b.block_width ≠ 0) (hbh : b.block_height ≠ 0)
    (hlen : 0 ≤ Int.tdiv b.width b.block_width * Int.tdiv b.block_size 8) :
    ∃ dst', xfer_buffer_blit b mem = .ok { b with pbo_buffer := dst' } ∧
      (∀ r j : Int, 0 ≤ r → r < Int.tdiv b.height b.block_height → 0 ≤ j →
        j < Int.tdiv b.width b.block_width * Int.tdiv b.block_size 8 →
        dst' (r * (Int.tdiv b.width b.block_width * Int.tdiv b.block_size 8) + j) =
          mem (b.src_ptr + ((Int.tdiv b.src_y b.block_height + r) * b.src_pitch +
            Int.tdiv b.src_x b.block_width * Int.tdiv b.block_size 8 + j))) ∧
      (∀ a : Int, ¬ (0 ≤ a ∧ a < Int.tdiv b.height b.block_height *
          (Int.tdiv b.width b.block_width * Int.tdiv b.block_size 8)) →
        dst' a = b.pbo_buffer a) := by
  obtain ⟨dst', h1, h2, h3⟩ := blockblit2d_spec (fun a => mem (b.src_ptr + a)) b.pbo_buffer
    b.src_pitch b.src_x b.src_y (Int.tdiv b.width b.block_width * Int.tdiv b.block_size 8)
    b.block_width b.block_height (Int.tdiv b.block_size 8) b.width b.height hbw hbh hlen
    (le_refl _)
  refine ⟨dst', ?_, h2, ?_⟩
  · unfold xfer_buffer_blit
    simp only [cdiv_ok _ _ hbw, bind, Except.bind, h1, pure, Except.pure]
  · intro a ha
    apply h3 a
    intro r hr0 hr1 hseg
    apply ha
    have hmul : (r + 1) * (Int.tdiv b.width b.block_width * Int.tdiv b.block_size 8) ≤
        Int.tdiv b.height b.block_height *
          (Int.tdiv b.width b.block_width * Int.tdiv b.block_size 8) :=
      Int.mul_le_mul_of_nonneg_right (by omega) hlen
    have hexp : (r + 1) * (Int.tdiv b.width b.block_width * Int.tdiv b.block_size 8) =
        r * (Int.tdiv b.width b.block_width * Int.tdiv b.block_size 8) +
          Int.tdiv b.width b.block_width * Int.tdiv b.block_size 8 := by ring
    have hr : 0 ≤ r * (Int.tdiv b.width b.block_width * Int.tdiv b.block_size 8) :=
      Int.mul_nonneg hr0 hlen
    omega

/-- A returning `xfer_start` has passed the size assertion. -/
theorem xfer_start_size (b b' : xfer_buffer) (dst_tex : Nat) (tex_format src_ptr : Int)
    (src_pitch src_x src_y dst_x dst_y block_width block_height block_size width height : Int)
    (f : Nat)
    (h : xfer_start b dst_tex tex_format src_ptr src_pitch src_x src_y dst_x dst_y
      block_width block_height block_size width height f = .ok b') :
    to_uint64 (Int.tdiv (Int.tdiv (Int.tdiv width block_width * height) block_height
      * block_size) 8) < b.size := by
  unfold xfer_start at h
  by_cases hbw : block_width = 0
  · simp [cdiv, hbw, bind, Except.bind] at h
  · by_cases hbh : block_height = 0
    · simp [cdiv, hbw, hbh, bind, Except.bind] at h
    · simp only [cdiv_ok _ _ hbw, cdiv_ok _ _ hbh, bind, Except.bind, pure, Except.pure] at h
      split at h
      · simp at h
      · rename_i hs
        simpa using hs

/-- The bytes the copy writes are no more than the size `xfer_start` computes. -/
theorem blit_size_le (bw bh bs w h : Int) (hbw : 0 < bw) (hbh : 0 < bh) (hbs : 0 ≤ bs)
    (hw : 0 ≤ w) (hh : 0 ≤ h) :
    Int.tdiv h bh * (Int.tdiv w bw * Int.tdiv bs 8) ≤
      Int.tdiv (Int.tdiv (Int.tdiv w bw * h) bh * bs) 8 := by
  have hc : 0 ≤ w / bw := Int.ediv_nonneg hw (le_of_lt hbw)
  have hch : 0 ≤ w / bw * h := Int.mul_nonneg hc hh
  have hq : 0 ≤ (w / bw * h) / bh := Int.ediv_nonneg hch (le_of_lt hbh)
  rw [Int.tdiv_eq_ediv hh (le_of_lt hbh), Int.tdiv_eq_ediv hw (le_of_lt hbw),
    Int.tdiv_eq_ediv hbs (by decide), Int.tdiv_eq_ediv hch (le_of_lt hbh),
    Int.tdiv_eq_ediv (Int.mul_nonneg hq hbs) (by decide)]
  have h1 : h / bh * (w / bw) ≤ (w / bw * h) / bh := by
    apply Int.le_ediv_of_mul_le hbh
    have := Int.ediv_mul_le h (ne_of_gt hbh)
    calc h / bh * (w / bw) * bh = (w / bw) * (h / bh * bh) := by ring
      _ ≤ w / bw * h := Int.mul_le_mul_of_nonneg_left this hc
  apply Int.le_ediv_of_mul_le (by decide)
  have h8 : bs / 8 * 8 ≤ bs := Int.ediv_mul_le bs (by decide)
  have hb8 : 0 ≤ bs / 8 := Int.ediv_nonneg hbs (by decide)
  calc h / bh * (w / bw * (bs / 8)) * 8 = (h / bh * (w / bw)) * (bs / 8 * 8) := by ring
    _ ≤ (h / bh * (w / bw)) * bs :=
        Int.mul_le_mul_of_nonneg_left h8 (Int.mul_nonneg (Int.ediv_nonneg hh (le_of_lt hbh)) hc)
    _ ≤ (w / bw * h) / bh * bs := Int.mul_le_mul_of_nonneg_right h1 hbs

/-! ### Lemmas on the telemetry of the finish phase -/

theorem latency_index_eq (f s : Nat) (hs : s ≤ f) (hf : f < 2 ^ 64) :
    latency_index f s = min ((f : Int) - (s : Int)) 15 := by
  unfold latency_index
  have e : (f + 2 ^ 64 - s) % 2 ^ 64 = f - s := by
    have : f + 2 ^ 64 - s = (f - s) + 2 ^ 64 := by omega
    rw [this, Nat.add_mod_right]
    exact Nat.mod_eq_of_lt (by omega)
  rw [e]
  simp only [XFER_BENCHMARK_HISTOGRAM]
  split <;> omega

theorem latency_index_range (f s : Nat) :
    0 ≤ latency_index f s ∧ latency_index f s ≤ 15 := by
  unfold latency_index
  simp only [XFER_BENCHMARK_HISTOGRAM]
  split <;> omega

/-- One pass of the loop of `xfer_finish`: the histogram update, and the start frames
stay as they are. -/
theorem finish_one_hist (frame : Nat) (ss qr : Int → Nat) (s s' : xfer × Int) (b : Int)
    (h : xfer_finish_one frame ss qr s b = .ok s') :
    s'.1.latency_histogram =
      Function.update s.1.latency_histogram
        (latency_index frame (s.1.buffers b).start_frame)
        ((s.1.latency_histogram (latency_index frame (s.1.buffers b).start_frame) + 1)
          % 2 ^ 64) ∧
    ∀ c, (s'.1.buffers c).start_frame = (s.1.buffers c).start_frame := by
  unfold xfer_finish_one at h
  simp only [bind, Except.bind, pure, Except.pure, cdiv] at h
  split at h
  · simp at h
  · split at h
    · simp at h
    · split at h
      · simp at h
      · split at h
        · simp only [Except.ok.injEq] at h
          subst h
          refine ⟨rfl, ?_⟩
          intro c
          by_cases hc : c = b
          · subst hc; simp [xfer_buffer_finish]
          · simp [Function.update_noteq hc]
        · simp only [Except.ok.injEq] at h
          subst h
          refine ⟨rfl, ?_⟩
          intro c
          by_cases hc : c = b
          · subst hc; simp [xfer_buffer_finish]
          · simp [Function.update_noteq hc]

/-- The loop of `xfer_finish` over the list `l`: bucket `k` is incremented once for
each index of `l` whose latency index is `k`. -/
theorem fold_hist (frame : Nat) (ss qr : Int → Nat) :
    ∀ (l : List Int) (s s' : xfer × Int),
      l.foldlM (xfer_finish_one frame ss qr) s = .ok s' →
      ∀ k : Int, s'.1.latency_histogram k =
        (fun v => (v + 1) % 2 ^ 64)^[(l.filter (fun b =>
          decide (latency_index frame (s.1.buffers b).start_frame = k))).length]
          (s.1.latency_histogram k) := by
  intro l
  induction l with
  | nil =>
    intro s s' h k
    simp only [List.foldlM, pure, Except.pure, Except.ok.injEq] at h
    subst h
    rfl
  | cons b l ih =>
    intro s s' h k
    simp only [List.foldlM, bind, Except.bind] at h
    cases h1 : xfer_finish_one frame ss qr s b with
    | error e => rw [h1] at h; simp at h
    | ok s1 =>
      rw [h1] at h
      simp only at h
      obtain ⟨e1, e2⟩ := finish_one_hist frame ss qr s s1 b h1
      have := ih s1 s' h k
      rw [this]
      simp only [e2, List.filter_cons]
      by_cases hk : latency_index frame (s.1.buffers b).start_frame = k
      · simp only [hk, decide_True, if_true, List.length_cons, Function.iterate_succ_apply]
        rw [e1, hk, Function.update_same]
      · simp only [hk, decide_False, Bool.false_eq_true, if_false]
        rw [e1, Function.update_noteq (Ne.symm hk)]

theorem halt_of_eq {α : Type} (e : Except Halt α) (h : Halt) (he : halt_of e = some h) :
    e = .error h := by
  cases e with
  | error e' => simp only [halt_of, Option.some.injEq] at he; rw [he]
  | ok a => simp [halt_of] at he

/-! ### Lemmas on the fences -/

/-- An index held outside the queues is on no queue. -/
theorem held_not_idle (q : xfer_queue) (b : Int) (held : List Int)
    (h : pool_inv q (b :: held)) (s : Nat) (hs : s < 4) : b ∉ queue_contents q s := by
  intro hb
  have hperm := h.2.2
  have hnd : ([0, 1, 2, 3, 4, 5, 6, 7] : List Int).Nodup := by decide
  have hnd2 := (List.Perm.nodup_iff hperm).mpr hnd
  have hcnt := List.nodup_iff_count_le_one.mp hnd2 b
  have hall : 1 ≤ List.count b (all_queued q) := by
    unfold all_queued
    have h1 : 1 ≤ List.count b (queue_contents q s) := List.count_pos_iff.mpr hb
    simp only [List.count_append]
    interval_cases s <;>
      simp only [XFER_QUEUE_IDLE, XFER_QUEUE_READ, XFER_QUEUE_UPLOAD, XFER_QUEUE_WAIT] <;> omega
  simp only [List.count_append, List.count_cons_self] at hcnt
  omega

/-- A loop whose every pass puts its index onto the stage `dest`, keeps the sizes,
changes the fence of that buffer only and clears it when the stage is `Idle`, keeps
the fence invariant. -/
theorem fold_fence {σ : Type} (step : σ → Int → Except Halt σ) (qof : σ → xfer_queue)
    (bof : σ → Int → xfer_buffer) (dest : Int → Nat) (hdest : ∀ b, dest b < 4)
    (hq : ∀ s b s', step s b = .ok s' → qof s' = (xfer_queue_put (qof s) (dest b) b).1)
    (hb : ∀ s b s', step s b = .ok s' →
      (∀ c, (bof s' c).size = (bof s c).size) ∧
      (∀ c, c ≠ b → (bof s' c).syncpt = (bof s c).syncpt) ∧
      (dest b = XFER_QUEUE_IDLE → (bof s' b).syncpt = 0)) :
    ∀ (l : List Int) (s s' : σ) (held : List Int), pool_inv (qof s) (l ++ held) →
      fence_inv (qof s) (bof s) → l.foldlM step s = .ok s' →
      fence_inv (qof s') (bof s') := by
  intro l
  induction l with
  | nil =>
    intro s s' held _ hf h
    simp only [List.foldlM, pure, Except.pure, Except.ok.injEq] at h
    subst h
    exact hf
  | cons b l ih =>
    intro s s' held hinv hf h
    simp only [List.foldlM, bind, Except.bind] at h
    cases h1 : step s b with
    | error e => rw [h1] at h; simp at h
    | ok s1 =>
      rw [h1] at h
      simp only at h
      have hinv0 : pool_inv (qof s) (b :: (l ++ held)) := hinv
      obtain ⟨_, p2⟩ := put_inv (qof s) (dest b) b (l ++ held) (hdest b) hinv0
      obtain ⟨c1, c2⟩ := put_inv_contents (qof s) (dest b) b (l ++ held) (hdest b) hinv0
      have hq1 := hq s b s1 h1
      obtain ⟨b1, b2, b3⟩ := hb s b s1 h1
      apply ih s1 s' held (by rw [hq1]; exact p2) _ h
      constructor
      · intro c hc0 hc1
        rw [b1 c]; exact hf.1 c hc0 hc1
      · intro c hc
        rw [hq1] at hc
        by_cases hd : dest b = XFER_QUEUE_IDLE
        · by_cases hcb : c = b
          · rw [hcb]; exact b3 hd
          · rw [b2 c hcb]
            rw [← hd, c1, List.mem_append, List.mem_singleton] at hc
            rcases hc with hc | hc
            · rw [hd] at hc; exact hf.2 c hc
            · exact absurd hc hcb
        · rw [c2 XFER_QUEUE_IDLE (Ne.symm hd)] at hc
          have hcb : c ≠ b := by
            intro e
            rw [e] at hc
            exact held_not_idle (qof s) b (l ++ held) hinv0 XFER_QUEUE_IDLE (by decide) hc
          rw [b2 c hcb]
          exact hf.2 c hc

theorem upload_one_buffers (syncs : Int → Nat) (x x' : xfer) (b : Int)
    (h : xfer_upload_one syncs x b = .ok x') :
    x'.buffers = Function.update x.buffers b { x.buffers b with syncpt := syncs b } := by
  unfold xfer_upload_one xfer_buffer_upload at h
  by_cases hbw : (x.buffers b).block_width = 0
  · simp [cdiv, hbw, bind, Except.bind] at h
  · by_cases hbh : (x.buffers b).block_height = 0
    · simp [cdiv, hbw, hbh, bind, Except.bind] at h
    · simp only [cdiv_ok _ _ hbw, cdiv_ok _ _ hbh, bind, Except.bind, pure, Except.pure,
        Except.ok.injEq] at h
      subst h
      rfl

theorem finish_one_buffers (frame : Nat) (ss qr : Int → Nat) (s s' : xfer × Int) (b : Int)
    (h : xfer_finish_one frame ss qr s b = .ok s') :
    s'.1.buffers = Function.update s.1.buffers b
      (xfer_buffer_finish (s.1.buffers b) true false false 0 0 (ss b) (qr b)).1 := by
  unfold xfer_finish_one at h
  simp only [bind, Except.bind, pure, Except.pure, cdiv] at h
  split at h
  · simp at h
  · split at h
    · simp at h
    · split at h
      · simp at h
      · split at h
        · simp only [Except.ok.injEq] at h
          subst h
          rfl
        · simp only [Except.ok.injEq] at h
          subst h
          rfl

theorem finish_fields (b : xfer_buffer) (ss qr : Nat) :
    (xfer_buffer_finish b true false false 0 0 ss qr).1.size = b.size ∧
    (xfer_buffer_finish b true false false 0 0 ss qr).1.syncpt =
      if fence_status ss = 1 then 0 else b.syncpt := by
  simp [xfer_buffer_finish, fence_status]

theorem upload_fence (x x' : xfer) (wait : Bool) (syncs : Int → Nat) (n : Int)
    (hinv : pool_inv x.queue []) (hf : fence_inv x.queue x.buffers)
    (h : xfer_upload x wait syncs = .ok (x', n)) :
    fence_inv x'.queue x'.buffers := by
  unfold xfer_upload at h
  split at h
  · simp at h
  · simp at h
  · rename_i q out num hget
    obtain ⟨i1, i2, _, _, i5⟩ := get_inv _ q XFER_QUEUE_UPLOAD wait _ [] out num (by decide)
      hinv hget
    rw [take_length_eq out num i2] at h
    cases hfold : out.foldlM (xfer_upload_one syncs) { x with queue := q } with
    | error e => rw [hfold] at h; simp [bind, Except.bind] at h
    | ok x1 =>
      rw [hfold] at h
      simp only [bind, Except.bind, pure, Except.pure, Except.ok.injEq, Prod.mk.injEq] at h
      rw [← h.1]
      refine fold_fence (xfer_upload_one syncs) (fun s => s.queue) (fun s => s.buffers)
        (fun _ => XFER_QUEUE_WAIT) (fun _ => (by decide : XFER_QUEUE_WAIT < 4))
        (fun s b s' hs => upload_one_queue' syncs s s' b hs) ?_ out _ x1 []
        (held_comm _ _ _ i1) ?_ hfold
      · intro s b s' hs
        have e := upload_one_buffers syncs s s' b hs
        refine ⟨?_, ?_, ?_⟩ <;> dsimp only
        · intro c
          rw [e]
          by_cases hc : c = b
          · subst hc; simp
          · rw [Function.update_noteq hc]
        · intro c hc
          rw [e, Function.update_noteq hc]
        · intro hd; exact absurd hd (by decide)
      · refine ⟨hf.1, ?_⟩
        intro c hc
        simp only at hc
        rw [i5 XFER_QUEUE_IDLE (by decide)] at hc
        exact hf.2 c hc

theorem finish_fence (x x' : xfer) (frame : Nat) (ss qr : Int → Nat) (n : Int)
    (hss : ∀ b, ss b = GL_SIGNALED ∨ ss b = GL_UNSIGNALED)
    (hinv : pool_inv x.queue []) (hf : fence_inv x.queue x.buffers)
    (h : xfer_finish x frame ss qr = .ok (x', n)) :
    fence_inv x'.queue x'.buffers := by
  unfold xfer_finish at h
  split at h
  · simp at h
  · simp at h
  · rename_i q out num hget
    obtain ⟨i1, i2, _, _, i5⟩ := get_inv _ q XFER_QUEUE_WAIT false _ [] out num (by decide)
      hinv hget
    rw [take_length_eq out num i2] at h
    have hdest : ∀ b : Int, finish_stage (ss b) < 4 := by
      intro b; unfold finish_stage; split <;> decide
    refine fold_fence (xfer_finish_one frame ss qr) (fun s => s.1.queue)
      (fun s => s.1.buffers) (fun b => finish_stage (ss b)) hdest
      (fun s b s' hs => (finish_one_queue' frame ss qr s s' b hs).1) ?_ out _ (x', n) []
      (held_comm _ _ _ i1) ?_ h
    · intro s b s' hs
      have e := finish_one_buffers frame ss qr s s' b hs
      obtain ⟨f1, f2⟩ := finish_fields (s.1.buffers b) (ss b) (qr b)
      refine ⟨?_, ?_, ?_⟩ <;> dsimp only
      · intro c
        rw [e]
        by_cases hc : c = b
        · subst hc; rw [Function.update_same]; exact f1
        · rw [Function.update_noteq hc]
      · intro c hc
        rw [e, Function.update_noteq hc]
      · intro hd
        rw [e, Function.update_same, f2]
        have h1 : fence_status (ss b) = 1 := by
          rcases hss b with hs1 | hs0
          · simp [fence_status, hs1]
          · exfalso
            simp [finish_stage, fence_status, hs0, GL_UNSIGNALED, GL_SIGNALED,
              XFER_QUEUE_WAIT, XFER_QUEUE_IDLE] at hd
        rw [if_pos h1]
    · refine ⟨hf.1, ?_⟩
      intro c hc
      simp only at hc
      rw [i5 XFER_QUEUE_IDLE (by decide)] at hc
      exact hf.2 c hc

theorem blit_fields (b b' : xfer_buffer) (mem : Int → Nat)
    (h : xfer_buffer_blit b mem = .ok b') : b'.size = b.size ∧ b'.syncpt = b.syncpt := by
  unfold xfer_buffer_blit at h
  by_cases hbw : b.block_width = 0
  · simp [cdiv, hbw, bind, Except.bind] at h
  · simp only [cdiv_ok _ _ hbw, bind, Except.bind, pure, Except.pure] at h
    split at h
    · simp at h
    · simp only [Except.ok.injEq] at h
      subst h
      exact ⟨rfl, rfl⟩

theorem worker_fence (x x' : xfer) (mem : Int → Nat) (t : Nat) (cont : Bool)
    (hinv : pool_inv x.queue []) (hf : fence_inv x.queue x.buffers)
    (h : xfer_thread_main_step x mem t = .ok (x', cont)) :
    fence_inv x'.queue x'.buffers := by
  unfold xfer_thread_main_step at h
  split at h
  · simp at h
  · simp at h
  · rename_i q out ret hget
    obtain ⟨i1, i2, i3, _, i5⟩ := get_inv _ q XFER_QUEUE_READ true 1 [] out ret (by decide)
      hinv hget
    split at h
    · rename_i hr
      subst hr
      have hp := get_one _ q XFER_QUEUE_READ true [] out (by decide) hinv hget
      obtain ⟨_, c2⟩ := put_inv_contents q XFER_QUEUE_UPLOAD (out.headD (-1)) [] (by decide) hp
      dsimp only at h
      cases hb : xfer_buffer_blit (x.buffers (out.headD (-1))) mem with
      | error e => rw [hb] at h; simp [bind, Except.bind] at h
      | ok b =>
        rw [hb] at h
        simp only [bind, Except.bind, pure, Except.pure, Except.ok.injEq, Prod.mk.injEq] at h
        obtain ⟨f1, f2⟩ := blit_fields _ _ _ hb
        rw [← h.1]
        constructor
        · intro c hc0 hc1
          dsimp only
          by_cases hc : c = out.headD (-1)
          · rw [hc, Function.update_same]
            dsimp only
            rw [f1]; exact hf.1 _ (by rw [← hc]; exact hc0) (by rw [← hc]; exact hc1)
          · rw [Function.update_noteq hc]; exact hf.1 c hc0 hc1
        · intro c hc
          dsimp only at hc ⊢
          rw [c2 XFER_QUEUE_IDLE (by decide), i5 XFER_QUEUE_IDLE (by decide)] at hc
          by_cases hcb : c = out.headD (-1)
          · rw [hcb, Function.update_same]
            dsimp only
            rw [f2]; exact hf.2 _ (by rw [← hcb]; exact hc)
          · rw [Function.update_noteq hcb]; exact hf.2 c hc
    · simp only [pure, Except.pure, Except.ok.injEq, Prod.mk.injEq] at h
      rw [← h.1]
      refine ⟨hf.1, ?_⟩
      intro c hc
      dsimp only at hc ⊢
      rw [i5 XFER_QUEUE_IDLE (by decide)] at hc
      exact hf.2 c hc

/-- A returning request leaves the capacity and the fence of every buffer as they
are. -/
theorem request_buffers (g g' : gfx) (commit : Bool) (x0 y0 x1 y1 : Int) (wait : Bool)
    (f : Nat) (ret : Int)
    (h : gfx_request_pages g commit x0 y0 x1 y1 wait f = .ok (g', ret)) :
    ∀ c, (g'.xfer.buffers c).size = (g.xfer.buffers c).size ∧
      (g'.xfer.buffers c).syncpt = (g.xfer.buffers c).syncpt := by
  by_cases hpw : g.page_width = 0
  · simp [gfx_request_pages, cdiv, hpw, bind, Except.bind] at h
  by_cases hph : g.page_height = 0
  · simp [gfx_request_pages, cdiv, hpw, hph, bind, Except.bind] at h
  by_cases he : MIN x1 (Int.tdiv g.tex_width g.page_width) ≤ x0 ∨
      MIN y1 (Int.tdiv g.tex_height g.page_height) ≤ y0
  · rw [gfx_request_pages_empty g commit x0 y0 x1 y1 wait f hpw hph he] at h
    simp only [Except.ok.injEq, Prod.mk.injEq] at h
    rw [← h.1]; intro c; exact ⟨rfl, rfl⟩
  by_cases hbw : g.block_width = 0
  · simp [gfx_request_pages, cdiv, hpw, hph, hbw, he, bind, Except.bind] at h
  by_cases hbh : g.block_height = 0
  · simp [gfx_request_pages, cdiv, hpw, hph, hbw, hbh, he, bind, Except.bind] at h
  have hd : dims_ok g := ⟨hpw, hph, hbw, hbh⟩
  cases commit with
  | false =>
    rw [gfx_request_pages_uncommit g x0 y0 x1 y1 wait f hd he] at h
    simp only [Except.ok.injEq, Prod.mk.injEq] at h
    rw [← h.1]; intro c; exact ⟨rfl, rfl⟩
  | true =>
    rw [gfx_request_pages_commit g x0 y0 x1 y1 wait f hd he] at h
    split at h
    · simp at h
    · simp at h
    · split at h
      · simp only [Except.ok.injEq, Prod.mk.injEq] at h
        rw [← h.1]; intro c; exact ⟨rfl, rfl⟩
      · rename_i q out r hget hr
        cases hs : xfer_start (g.xfer.buffers (out.headD (-1))) g.texture g.tex_format 0
            (Int.tdiv g.tex_width g.block_width * Int.tdiv g.block_size 8)
            (x0 * g.page_width) (y0 * g.page_height) (x0 * g.page_width) (y0 * g.page_height)
            g.block_width g.block_height g.block_size
            ((MIN x1 (Int.tdiv g.tex_width g.page_width) - x0) * g.page_width)
            ((MIN y1 (Int.tdiv g.tex_height g.page_height) - y0) * g.page_height) f with
        | error e => rw [hs] at h; simp [Except.bind] at h
        | ok b =>
          rw [hs] at h
          simp only [Except.bind, Except.ok.injEq, Prod.mk.injEq] at h
          obtain ⟨eb, _⟩ := xfer_start_ok _ _ _ _ _ _ _ _ _ _ _ _ _ _ _ _ hs
          rw [← h.1]
          intro c
          dsimp only
          by_cases hc : c = out.headD (-1)
          · rw [hc, Function.update_same, eb]; exact ⟨rfl, rfl⟩
          · rw [Function.update_noteq hc]; exact ⟨rfl, rfl⟩

/-- A returning request leaves on `Idle` only indices that were there. -/
theorem request_idle (g g' : gfx) (commit : Bool) (x0 y0 x1 y1 : Int) (wait : Bool)
    (f : Nat) (ret : Int) (hinv : pool_inv g.xfer.queue [])
    (h : gfx_request_pages g commit x0 y0 x1 y1 wait f = .ok (g', ret)) :
    ∀ c ∈ queue_contents g'.xfer.queue XFER_QUEUE_IDLE,
      c ∈ queue_contents g.xfer.queue XFER_QUEUE_IDLE := by
  rcases gfx_request_pages_queue g g' commit x0 y0 x1 y1 wait f ret h with
    ⟨hq, _⟩ | ⟨q, out, r, hget, hcase⟩
  · rw [hq]; exact fun c hc => hc
  · obtain ⟨_, _, _, i4, _⟩ := get_inv _ q XFER_QUEUE_IDLE wait 1 [] out r (by decide) hinv hget
    rcases hcase with ⟨_, hq, _⟩ | ⟨hr, hq, _⟩
    · rw [hq, i4]; exact fun c hc => List.mem_of_mem_drop hc
    · subst hr
      have hp := get_one _ q XFER_QUEUE_IDLE wait [] out (by decide) hinv hget
      obtain ⟨_, c2⟩ := put_inv_contents q XFER_QUEUE_READ (out.headD (-1)) [] (by decide) hp
      rw [hq, c2 XFER_QUEUE_IDLE (by decide), i4]
      exact fun c hc => List.mem_of_mem_drop hc

theorem request_fence (g g' : gfx) (commit : Bool) (x0 y0 x1 y1 : Int) (wait : Bool)
    (f : Nat) (ret : Int) (hinv : pool_inv g.xfer.queue [])
    (hf : fence_inv g.xfer.queue g.xfer.buffers)
    (h : gfx_request_pages g commit x0 y0 x1 y1 wait f = .ok (g', ret)) :
    fence_inv g'.xfer.queue g'.xfer.buffers := by
  have hb := request_buffers g g' commit x0 y0 x1 y1 wait f ret h
  have hi := request_idle g g' commit x0 y0 x1 y1 wait f ret hinv h
  constructor
  · intro c hc0 hc1
    rw [(hb c).1]; exact hf.1 c hc0 hc1
  · intro c hc
    rw [(hb c).2]; exact hf.2 c (hi c hc)

theorem run_fence (reqs : List page_request) (wait : Bool) (f : Nat) :
    ∀ (g g' : gfx), pool_inv g.xfer.queue [] → fence_inv g.xfer.queue g.xfer.buffers →
      gfx_run_requests g reqs wait f = .ok g' →
      fence_inv g'.xfer.queue g'.xfer.buffers := by
  induction reqs with
  | nil =>
    intro g g' _ hf h
    rw [run_nil] at h
    simp only [Except.ok.injEq] at h
    rw [← h]; exact hf
  | cons r rs ih =>
    intro g g' hinv hf h
    rw [run_cons] at h
    cases h1 : gfx_request_pages_ g r wait f with
    | error e => rw [h1] at h; simp [Except.bind] at h
    | ok g1 =>
      rw [h1, ok_bind] at h
      unfold gfx_request_pages_ at h1
      cases hp : gfx_request_pages g r.commit r.x0 r.y0 r.x1 r.y1 wait f with
      | error e => rw [hp] at h1; simp [bind, Except.bind] at h1
      | ok p =>
        rw [hp] at h1
        simp only [bind, Except.bind, pure, Except.pure, Except.ok.injEq] at h1
        have a1 := (request_inv g p.1 _ _ _ _ _ wait f p.2 hinv hp).1
        have a2 := request_fence g p.1 _ _ _ _ _ wait f p.2 hinv hf hp
        rw [h1] at a1 a2
        exact ih g1 g' a1 a2 h

theorem rect_fence (g g' : gfx) (x0 y0 x1 y1 : Int) (wait : Bool) (f : Nat) (ret : Int)
    (hinv : pool_inv g.xfer.queue []) (hf : fence_inv g.xfer.queue g.xfer.buffers)
    (h : gfx_request_rect g x0 y0 x1 y1 wait f = .ok (g', ret)) :
    fence_inv g'.xfer.queue g'.xfer.buffers := by
  rw [gfx_request_rect_eq_run] at h
  split at h
  · simp only [Except.ok.injEq, Prod.mk.injEq] at h
    rw [← h.1]; exact hf
  · cases hrun : gfx_run_requests g (gfx_request_rect_calls g.rect_page_x0 g.rect_page_y0
        g.rect_page_x1 g.rect_page_y1 x0 y0 x1 y1) wait f with
    | error e => rw [hrun] at h; simp [Except.bind] at h
    | ok g4 =>
      rw [hrun, ok_bind] at h
      simp only [Except.ok.injEq, Prod.mk.injEq] at h
      rw [← h.1]
      exact run_fence _ wait f g g4 hinv hf hrun

theorem reachable_fence (g : gfx) (h : ReachableNoError g) :
    pool_inv g.xfer.queue [] ∧ fence_inv g.xfer.queue g.xfer.buffers := by
  induction h with
  | init g hq hb =>
    refine ⟨by rw [hq]; exact init_inv, fun b h0 h1 => (hb b h0 h1).1, ?_⟩
    intro b hmem
    have e : queue_contents (xfer_init xfer_zero XFER_BUFFER_SIZE).queue XFER_QUEUE_IDLE =
      [0, 1, 2, 3, 4, 5, 6, 7] := by decide
    rw [hq, e] at hmem
    have : 0 ≤ b ∧ b < XFER_NUM_BUFFERS := by
      simp only [List.mem_cons, List.mem_singleton, List.not_mem_nil, or_false] at hmem
      simp only [XFER_NUM_BUFFERS]
      omega
    exact (hb b this.1 this.2).2
  | request g g' commit x0 y0 x1 y1 wait f ret _ hstep ih =>
    exact ⟨(request_inv g g' commit x0 y0 x1 y1 wait f ret ih.1 hstep).1,
      request_fence g g' commit x0 y0 x1 y1 wait f ret ih.1 ih.2 hstep⟩
  | reconcile g g' x0 y0 x1 y1 wait f ret _ hstep ih =>
    exact ⟨rect_inv g g' x0 y0 x1 y1 wait f ret ih.1 hstep,
      rect_fence g g' x0 y0 x1 y1 wait f ret ih.1 ih.2 hstep⟩
  | worker g x' mem t cont _ hstep ih =>
    exact ⟨(worker_inv g.xfer x' mem t cont ih.1 hstep).1,
      worker_fence g.xfer x' mem t cont ih.1 ih.2 hstep⟩
  | upload g x' wait syncs n _ hstep ih =>
    exact ⟨upload_inv g.xfer x' wait syncs n [] ih.1 hstep,
      upload_fence g.xfer x' wait syncs n ih.1 ih.2 hstep⟩
  | finish g x' frame ss qr n _ hss hstep ih =>
    exact ⟨finish_inv g.xfer x' frame ss qr n [] ih.1 hstep,
      finish_fence g.xfer x' frame ss qr n hss ih.1 ih.2 hstep⟩

/-- What `xfer_start` does when the block dimensions are not zero. -/
theorem xfer_start_eval (b : xfer_buffer) (dst_tex : Nat) (tex_format src_ptr : Int)
    (src_pitch src_x src_y dst_x dst_y bw bh bs w h : Int) (f : Nat)
    (hbw : bw ≠ 0) (hbh : bh ≠ 0) :
    xfer_start b dst_tex tex_format src_ptr src_pitch src_x src_y dst_x dst_y bw bh bs w h f =
      if ¬ to_uint64 (Int.tdiv (Int.tdiv (Int.tdiv w bw * h) bh * bs) 8) < b.size then
        .error Halt.fault
      else if ¬ b.syncpt = 0 then .error Halt.fault
      else .ok { b with
        dst_tex := dst_tex, tex_format := tex_format, src_ptr := src_ptr,
        src_pitch := src_pitch, src_x := src_x, src_y := src_y, dst_x := dst_x, dst_y := dst_y,
        block_width := bw, block_height := bh, block_size := bs,
        width := w, height := h, start_frame := f } := by
  unfold xfer_start
  simp only [cdiv_ok _ _ hbw, cdiv_ok _ _ hbh, bind, Except.bind, pure, Except.pure]

/-! ## The claims -/

/-- C1. Let the tracked rectangle and the new rectangle share a page (so both are
non-empty), differ, and let the new rectangle lie inside the page grid. Then
`gfx_request_rect` runs the calls of `gfx_request_rect_calls` in order and stores the
new rectangle; these are at most four calls; each has positive width and height; no
two of them share a page; the pages covered by the commit calls are exactly the pages
of the new rectangle outside the tracked one, and the pages covered by the uncommit
calls are exactly the pages of the tracked rectangle outside the new one; so the
new rectangle is the intersection together with the commit strips; and every commit
call lies inside the page grid, so the clamp of `gfx_request_pages` leaves it as it
is. -/
theorem C1_strip_decomposition (g : gfx) (px0 py0 px1 py1 : Int) (wait : Bool) (f : Nat)
    (hshare : ∃ x y, in_rect g.rect_page_x0 g.rect_page_y0 g.rect_page_x1 g.rect_page_y1 x y ∧
      in_rect px0 py0 px1 py1 x y)
    (hne : ¬ (g.rect_page_x0 = px0 ∧ g.rect_page_y0 = py0 ∧
      g.rect_page_x1 = px1 ∧ g.rect_page_y1 = py1))
    (hgrid : 0 ≤ px0 ∧ 0 ≤ py0 ∧ px1 ≤ Int.tdiv g.tex_width g.page_width ∧
      py1 ≤ Int.tdiv g.tex_height g.page_height) :
    gfx_request_rect g px0 py0 px1 py1 wait f =
      (gfx_run_requests g
        (gfx_request_rect_calls g.rect_page_x0 g.rect_page_y0 g.rect_page_x1 g.rect_page_y1
          px0 py0 px1 py1) wait f).bind
        (fun g4 => .ok ({ g4 with
          rect_page_x0 := px0, rect_page_y0 := py0,
          rect_page_x1 := px1, rect_page_y1 := py1 }, 1)) ∧
    (gfx_request_rect_calls g.rect_page_x0 g.rect_page_y0 g.rect_page_x1 g.rect_page_y1
      px0 py0 px1 py1).length ≤ 4 ∧
    (∀ r ∈ gfx_request_rect_calls g.rect_page_x0 g.rect_page_y0 g.rect_page_x1 g.rect_page_y1
      px0 py0 px1 py1, r.x0 < r.x1 ∧ r.y0 < r.y1) ∧
    (gfx_request_rect_calls g.rect_page_x0 g.rect_page_y0 g.rect_page_x1 g.rect_page_y1
      px0 py0 px1 py1).Pairwise page_request.disjoint ∧
    (∀ x y, (∃ r ∈ gfx_request_rect_calls g.rect_page_x0 g.rect_page_y0 g.rect_page_x1
        g.rect_page_y1 px0 py0 px1 py1, r.commit = true ∧ r.covers x y) ↔
      (in_rect px0 py0 px1 py1 x y ∧
        ¬ in_rect g.rect_page_x0 g.rect_page_y0 g.rect_page_x1 g.rect_page_y1 x y)) ∧
    (∀ x y, (∃ r ∈ gfx_request_rect_calls g.rect_page_x0 g.rect_page_y0 g.rect_page_x1
        g.rect_page_y1 px0 py0 px1 py1, r.commit = false ∧ r.covers x y) ↔
      (in_rect g.rect_page_x0 g.rect_page_y0 g.rect_page_x1 g.rect_page_y1 x y ∧
        ¬ in_rect px0 py0 px1 py1 x y)) ∧
    (∀ x y, in_rect px0 py0 px1 py1 x y ↔
      ((in_rect g.rect_page_x0 g.rect_page_y0 g.rect_page_x1 g.rect_page_y1 x y ∧
          in_rect px0 py0 px1 py1 x y) ∨
        ∃ r ∈ gfx_request_rect_calls g.rect_page_x0 g.rect_page_y0 g.rect_page_x1
          g.rect_page_y1 px0 py0 px1 py1, r.commit = true ∧ r.covers x y)) ∧
    (∀ r ∈ gfx_request_rect_calls g.rect_page_x0 g.rect_page_y0 g.rect_page_x1 g.rect_page_y1
      px0 py0 px1 py1, r.commit = true →
        0 ≤ r.x0 ∧ 0 ≤ r.y0 ∧
        MIN r.x1 (Int.tdiv g.tex_width g.page_width) = r.x1 ∧
        MIN r.y1 (Int.tdiv g.tex_height g.page_height) = r.y1) := by
  obtain ⟨sx, sy, hs1, hs2⟩ := hshare
  have hnd : ¬ (g.rect_page_x1 ≤ g.rect_page_x0 ∨ g.rect_page_y1 ≤ g.rect_page_y0 ∨
      px1 < g.rect_page_x0 ∨ px0 > g.rect_page_x1 ∨
      py1 < g.rect_page_y0 ∨ py0 > g.rect_page_y1) := by
    unfold in_rect at hs1 hs2; omega
  have hcalls : gfx_request_rect_calls g.rect_page_x0 g.rect_page_y0 g.rect_page_x1
      g.rect_page_y1 px0 py0 px1 py1 =
      bottom_strip g.rect_page_x0 g.rect_page_y0 g.rect_page_x1 g.rect_page_y1 px0 py0 px1 py1 ++
      top_strip g.rect_page_x0 g.rect_page_y0 g.rect_page_x1 g.rect_page_y1 px0 py0 px1 py1 ++
      left_strip g.rect_page_x0 g.rect_page_y0 g.rect_page_x1 g.rect_page_y1 px0 py0 px1 py1 ++
      right_strip g.rect_page_x0 g.rect_page_y0 g.rect_page_x1 g.rect_page_y1 px0 py0 px1 py1 := by
    unfold gfx_request_rect_calls
    simp only [hne, hnd, if_false]
  obtain ⟨g1, g2, g3, g4, g5⟩ := strips_geometry _ _ _ _ _ _ _ _ sx sy hs1 hs2 _ hcalls
  refine ⟨?_, g1, g2, g3, g4, g5, ?_, ?_⟩
  · rw [gfx_request_rect_eq_run]
    simp only [hne, if_false]
  · intro x y
    rw [g4 x y]
    unfold in_rect
    omega
  · intro r hr hc
    have hpos := g2 r hr
    have hin : ∀ x y, r.covers x y → in_rect px0 py0 px1 py1 x y :=
      fun x y hcov => ((g4 x y).mp ⟨r, hr, hc, hcov⟩).1
    have h00 := hin r.x0 r.y0 (by unfold page_request.covers in_rect; omega)
    have h11 := hin (r.x1 - 1) (r.y1 - 1) (by unfold page_request.covers in_rect; omega)
    unfold in_rect at h00 h11
    unfold MIN
    refine ⟨by omega, by omega, ?_, ?_⟩
    · split <;> omega
    · split <;> omega

/-- C1, in the scenario of the specification: on the 16 x 16 page grid, with
`(0,0)-(4,4)` tracked and `(1,0)-(5,4)` requested, the calls are one uncommit of
column 0 and one commit of column 4, of 4 pages each, sharing no page. -/
theorem C1_strip_decomposition_witness :
    gfx_request_rect_calls 0 0 4 4 1 0 5 4 = [⟨false, 0, 0, 1, 4⟩, ⟨true, 4, 0, 5, 4⟩] ∧
    ([⟨false, 0, 0, 1, 4⟩, ⟨true, 4, 0, 5, 4⟩] : List page_request).Pairwise
      page_request.disjoint ∧
    (∀ x y, (∃ r ∈ ([⟨false, 0, 0, 1, 4⟩, ⟨true, 4, 0, 5, 4⟩] : List page_request),
        r.commit = true ∧ r.covers x y) ↔
      (in_rect 1 0 5 4 x y ∧ ¬ in_rect 0 0 4 4 x y)) := by
  have hcalls : gfx_request_rect_calls 0 0 4 4 1 0 5 4 =
      [⟨false, 0, 0, 1, 4⟩, ⟨true, 4, 0, 5, 4⟩] := by decide
  have h := C1_strip_decomposition
    (gfx_scenario.with_rect 0 0 4 4) 1 0 5 4 false 0
    ⟨1, 0, by unfold in_rect; decide, by unfold in_rect; decide⟩ (by decide) (by decide)
  simp only [hcalls] at h
  exact ⟨hcalls, h.2.2.2.1, h.2.2.2.2.1⟩

/-- C2. On a running queue set whose counters of stage `s` are in range, the ring
buffer of the stage behaves as a FIFO list. A put is accepted exactly when the stage
holds fewer than 8 values; an accepted put appends its value at the tail and a put
that is not accepted changes nothing. A get with `max_out = m`, `m >= 1` as the
entry assertion of `xfer_queue_get` demands, on a stage holding `n >= 1` values
returns the `min n m` oldest values in order, with return value `min n m`, and leaves
the remaining values in order. The contents of every other stage are unchanged by
both operations. -/
theorem C2_queue_is_fifo (q : xfer_queue) (s : Nat) (hok : counters_ok q s)
    (hrun : q.stopped = 0) :
    (∀ v, ((xfer_queue_put q s v).2 = 1 ↔ queue_size q s < 8) ∧
      ((xfer_queue_put q s v).2 = 1 →
        queue_contents (xfer_queue_put q s v).1 s = queue_contents q s ++ [v]) ∧
      ((xfer_queue_put q s v).2 ≠ 1 → (xfer_queue_put q s v).1 = q) ∧
      (∀ s', s' ≠ s → queue_contents (xfer_queue_put q s v).1 s' = queue_contents q s')) ∧
    (∀ (wait : Bool) (m : Int), 0 < m → queue_contents q s ≠ [] →
      ∃ q', xfer_queue_get q s wait m =
          .returned q' ((queue_contents q s).take m.toNat)
            ((min (queue_contents q s).length m.toNat : Nat) : Int) ∧
        queue_contents q' s = (queue_contents q s).drop m.toNat ∧
        (∀ s', s' ≠ s → queue_contents q' s' = queue_contents q s')) := by
  constructor
  · intro v
    refine ⟨put_accepted_iff q s v hok hrun, ?_, put_rejected q s v, ?_⟩
    · intro h
      exact (put_spec q s v hok hrun ((put_accepted_iff q s v hok hrun).mp h)).2.1
    · by_cases h : (xfer_queue_put q s v).2 = 1
      · exact contents_of_other q _ s
          (put_spec q s v hok hrun ((put_accepted_iff q s v hok hrun).mp h)).2.2.1
      · intro s' _
        rw [put_rejected q s v h]
  · intro wait m hm hne
    obtain ⟨q', h1, h2, h3, _⟩ := get_loop_spec q s wait m hok hrun hne
    refine ⟨q', ?_, h2, contents_of_other q q' s h3⟩
    have hm0 : m ≠ 0 := by omega
    simp only [xfer_queue_get, hm0, if_false]
    exact h1

/-- C2, at the queue set built by `xfer_init`: a get of at most 3 from `Idle`
returns `0, 1, 2` and leaves `3 .. 7`. -/
theorem C2_queue_is_fifo_witness :
    counters_ok (xfer_init xfer_zero XFER_BUFFER_SIZE).queue XFER_QUEUE_IDLE ∧
    (xfer_init xfer_zero XFER_BUFFER_SIZE).queue.stopped = 0 ∧
    ∃ q', xfer_queue_get (xfer_init xfer_zero XFER_BUFFER_SIZE).queue XFER_QUEUE_IDLE false 3 =
        .returned q' [0, 1, 2] 3 ∧
      queue_contents q' XFER_QUEUE_IDLE = [3, 4, 5, 6, 7] := by
  have hok : counters_ok (xfer_init xfer_zero XFER_BUFFER_SIZE).queue XFER_QUEUE_IDLE := by
    decide
  have hc : queue_contents (xfer_init xfer_zero XFER_BUFFER_SIZE).queue XFER_QUEUE_IDLE =
      [0, 1, 2, 3, 4, 5, 6, 7] := by decide
  refine ⟨hok, rfl, ?_⟩
  obtain ⟨q', h1, h2, _⟩ :=
    (C2_queue_is_fifo (xfer_init xfer_zero XFER_BUFFER_SIZE).queue XFER_QUEUE_IDLE hok rfl).2
      false 3 (by decide) (by rw [hc]; decide)
  rw [hc] at h1 h2
  exact ⟨q', h1, h2⟩

/-- C3. The function `xfer_queue_stop` sets the flag and is idempotent. On a queue set
`q` whose flag is set, for every stage and whatever the contents and counters: a get,
blocking or not (with `max_out` non-zero, as its entry assertion demands), returns
`-1`, writes nothing and leaves the state as it is; a get that was suspended and is
woken returns `-1` and writes nothing, leaving queues and counters as they are; a put
returns `-1` and leaves the state as it is. No operation (put, get, woken get, stop)
changes a set flag: put and get never write the flag at all. -/
theorem C3_stop_is_final (q0 q : xfer_queue) (s : Nat) (hq : q.stopped ≠ 0) :
    (xfer_queue_stop q0).stopped ≠ 0 ∧
    xfer_queue_stop (xfer_queue_stop q0) = xfer_queue_stop q0 ∧
    (∀ (wait : Bool) (m : Int), m ≠ 0 → xfer_queue_get q s wait m = .returned q [] (-1)) ∧
    (∀ m : Int, ∃ q', xfer_queue_get_resume q s m = .returned q' [] (-1) ∧
      q'.stopped = q.stopped ∧ q'.queues = q.queues ∧ q'.queue_counters = q.queue_counters) ∧
    (∀ v : Int, xfer_queue_put q s v = (q, -1)) ∧
    (xfer_queue_stop q).stopped ≠ 0 ∧
    (∀ v : Int, (xfer_queue_put q0 s v).1.stopped = q0.stopped) ∧
    (∀ (wait : Bool) (m : Int) (q' : xfer_queue),
      (xfer_queue_get q0 s wait m).state? = some q' → q'.stopped = q0.stopped) ∧
    (∀ (m : Int) (q' : xfer_queue),
      (xfer_queue_get_resume q0 s m).state? = some q' → q'.stopped = q0.stopped) := by
  refine ⟨by simp [xfer_queue_stop], rfl, ?_, ?_, ?_, by simp [xfer_queue_stop],
    put_stopped_eq q0 s, get_stopped_eq q0 s, ?_⟩
  · intro wait m hm
    simp [xfer_queue_get, xfer_queue_get_loop, hm, hq]
  · intro m
    refine ⟨{ q with queue_waiting :=
      Function.update q.queue_waiting s (q.queue_waiting s - 1) }, ?_, rfl, rfl, rfl⟩
    simp [xfer_queue_get_resume, xfer_queue_get_loop, hq]
  · intro v
    simp [xfer_queue_put, hq]
  · intro m q' h
    exact get_loop_stopped_eq
      { q0 with queue_waiting := Function.update q0.queue_waiting s (q0.queue_waiting s - 1) }
      s true m q' h

/-- C3, at the queue set built by `xfer_init` and then stopped: a non-blocking get
from the full `Idle` stage returns `-1` with nothing written, and a put onto the
empty stage `XFER_QUEUE_READ` returns `-1` and changes nothing. -/
theorem C3_stop_is_final_witness :
    (xfer_queue_stop (xfer_init xfer_zero XFER_BUFFER_SIZE).queue).stopped ≠ 0 ∧
    xfer_queue_get (xfer_queue_stop (xfer_init xfer_zero XFER_BUFFER_SIZE).queue)
        XFER_QUEUE_IDLE false 1 =
      .returned (xfer_queue_stop (xfer_init xfer_zero XFER_BUFFER_SIZE).queue) [] (-1) ∧
    xfer_queue_put (xfer_queue_stop (xfer_init xfer_zero XFER_BUFFER_SIZE).queue)
        XFER_QUEUE_IDLE 5 =
      (xfer_queue_stop (xfer_init xfer_zero XFER_BUFFER_SIZE).queue, -1) := by
  have h := C3_stop_is_final xfer_queue_zero
    (xfer_queue_stop (xfer_init xfer_zero XFER_BUFFER_SIZE).queue) XFER_QUEUE_IDLE (by decide)
  exact ⟨by decide, h.2.2.1 false 1 (by decide), h.2.2.2.2.1 5⟩

/-- C4. In every state reachable from the pool set up by `xfer_init` through page-range
requests, reconciles, worker passes, upload phases and finish phases, the indices in the
four stage queues taken together are the eight buffer indices `0 .. 7`, each exactly
once: no index occurs twice, no queue holds more than 8, and the queue set is running.
Every put these operations issue from such a state is accepted: a request never
returns `-1` (the value for a rejected put or a stopped queue), a worker pass goes on
(its put returned `1`), the upload phase appends every index it drained from
`XFER_QUEUE_UPLOAD` to `XFER_QUEUE_WAIT`, and the finish phase puts every index it
drained from `XFER_QUEUE_WAIT` onto `Idle` or back onto `XFER_QUEUE_WAIT`, in order,
dropping none. -/
theorem C4_pool_invariant (g : gfx) (h : Reachable g) :
    (all_queued g.xfer.queue).Nodup ∧
    (all_queued g.xfer.queue).Perm [0, 1, 2, 3, 4, 5, 6, 7] ∧
    (∀ s, (queue_contents g.xfer.queue s).length ≤ 8) ∧
    g.xfer.queue.stopped = 0 ∧
    (∀ commit x0 y0 x1 y1 wait f g' ret,
      gfx_request_pages g commit x0 y0 x1 y1 wait f = .ok (g', ret) → ret ≠ -1) ∧
    (∀ mem blit_time x' cont,
      xfer_thread_main_step g.xfer mem blit_time = .ok (x', cont) → cont = true) ∧
    (∀ wait syncs x' n, xfer_upload g.xfer wait syncs = .ok (x', n) →
      queue_contents x'.queue XFER_QUEUE_UPLOAD = [] ∧
      queue_contents x'.queue XFER_QUEUE_WAIT =
        queue_contents g.xfer.queue XFER_QUEUE_WAIT ++
          queue_contents g.xfer.queue XFER_QUEUE_UPLOAD ∧
      queue_contents x'.queue XFER_QUEUE_IDLE = queue_contents g.xfer.queue XFER_QUEUE_IDLE ∧
      queue_contents x'.queue XFER_QUEUE_READ = queue_contents g.xfer.queue XFER_QUEUE_READ) ∧
    (∀ frame sync_status query_result x' n,
      xfer_finish g.xfer frame sync_status query_result = .ok (x', n) →
      queue_contents x'.queue XFER_QUEUE_IDLE =
        queue_contents g.xfer.queue XFER_QUEUE_IDLE ++
          (queue_contents g.xfer.queue XFER_QUEUE_WAIT).filter
            (fun b => decide (finish_stage (sync_status b) = XFER_QUEUE_IDLE)) ∧
      queue_contents x'.queue XFER_QUEUE_WAIT =
        (queue_contents g.xfer.queue XFER_QUEUE_WAIT).filter
          (fun b => decide (finish_stage (sync_status b) = XFER_QUEUE_WAIT)) ∧
      queue_contents x'.queue XFER_QUEUE_READ = queue_contents g.xfer.queue XFER_QUEUE_READ ∧
      queue_contents x'.queue XFER_QUEUE_UPLOAD =
        queue_contents g.xfer.queue XFER_QUEUE_UPLOAD) := by
  have hinv := reachable_inv g h
  have hrun := hinv.1
  have hperm := hinv.2.2
  rw [List.append_nil] at hperm
  refine ⟨hperm.nodup_iff.mpr (by decide), hperm, ?_, hrun, ?_, ?_, ?_, ?_⟩
  · intro s
    rw [queue_contents_length]
    exact queue_size_le _ s
  · intro commit x0 y0 x1 y1 wait f g' ret hstep
    exact (request_inv g g' commit x0 y0 x1 y1 wait f ret hinv hstep).2
  · intro mem t x' cont hstep
    exact (worker_inv g.xfer x' mem t cont hinv hstep).2
  · intro wait syncs x' n hstep
    exact upload_effect g.xfer x' wait syncs n [] hinv hstep
  · intro frame ss qr x' n hstep
    exact finish_effect g.xfer x' frame ss qr n [] hinv hstep

/-- C4, in the scenario after a commit request for the page `(0,0)-(1,1)`: the state
is reachable, buffer `0` has moved from `Idle` to `XFER_QUEUE_READ`, and no index
occurs twice. -/
theorem C4_pool_invariant_witness :
    ∃ g1, gfx_request_pages gfx_scenario true 0 0 1 1 false 0 = .ok (g1, 1) ∧
      Reachable g1 ∧
      queue_contents g1.xfer.queue XFER_QUEUE_READ = [0] ∧
      queue_contents g1.xfer.queue XFER_QUEUE_IDLE = [1, 2, 3, 4, 5, 6, 7] ∧
      (all_queued g1.xfer.queue).Nodup := by
  have h1 : ∃ g1, gfx_request_pages gfx_scenario true 0 0 1 1 false 0 = .ok (g1, 1) ∧
      queue_contents g1.xfer.queue XFER_QUEUE_READ = [0] ∧
      queue_contents g1.xfer.queue XFER_QUEUE_IDLE = [1, 2, 3, 4, 5, 6, 7] :=
    ⟨_, rfl, by decide, by decide⟩
  obtain ⟨g1, e1, e2, e3⟩ := h1
  have hr : Reachable g1 :=
    Reachable.request gfx_scenario g1 true 0 0 1 1 false 0 1 (Reachable.init _ rfl) e1
  exact ⟨g1, e1, hr, e2, e3, (C4_pool_invariant g1 hr).1⟩

/-- C5, refuted as stated. With the tracked rectangle empty and the new rectangle
identical to it, `gfx_request_rect` makes no call at all and returns at once. With
the tracked rectangle `(0,0)-(4,4)` and the new rectangle `(4,2)-(8,6)`, which share
no page but touch along an edge, it makes four calls, not two. -/
theorem C5_counterexample :
    gfx_request_rect_calls 0 0 0 0 0 0 0 0 = [] ∧
    gfx_request_rect gfx_scenario 0 0 0 0 false 0 = .ok (gfx_scenario, 1) ∧
    (∀ x y, ¬ (in_rect 0 0 4 4 x y ∧ in_rect 4 2 8 6 x y)) ∧
    gfx_request_rect_calls 0 0 4 4 4 2 8 6 =
      [⟨false, 0, 0, 4, 2⟩, ⟨true, 4, 4, 8, 6⟩, ⟨false, 0, 2, 4, 4⟩, ⟨true, 4, 2, 8, 4⟩] := by
  refine ⟨by decide, rfl, ?_, by decide⟩
  intro x y
  unfold in_rect
  omega

/-- C5, amended. Let the new rectangle differ from the tracked one, and let the
tracked rectangle be empty or the two be separated along an axis by the test of the
source (`new.x1 < cur.x0`, `new.x0 > cur.x1`, `new.y1 < cur.y0` or `new.y0 > cur.y1`).
Then `gfx_request_rect` makes exactly two calls, an uncommit of the whole tracked
rectangle and then a commit of the whole new rectangle, and stores the new
rectangle; the two ranges share no page; and a request for an empty range returns
`1` and leaves the whole state as it is (no command, no transfer). -/
theorem C5_disjoint_rects (g : gfx) (px0 py0 px1 py1 : Int) (wait : Bool) (f : Nat)
    (hne : ¬ (g.rect_page_x0 = px0 ∧ g.rect_page_y0 = py0 ∧
      g.rect_page_x1 = px1 ∧ g.rect_page_y1 = py1))
    (hsep : g.rect_page_x1 ≤ g.rect_page_x0 ∨ g.rect_page_y1 ≤ g.rect_page_y0 ∨
      px1 < g.rect_page_x0 ∨ px0 > g.rect_page_x1 ∨
      py1 < g.rect_page_y0 ∨ py0 > g.rect_page_y1) :
    gfx_request_rect_calls g.rect_page_x0 g.rect_page_y0 g.rect_page_x1 g.rect_page_y1
        px0 py0 px1 py1 =
      [⟨false, g.rect_page_x0, g.rect_page_y0, g.rect_page_x1, g.rect_page_y1⟩,
        ⟨true, px0, py0, px1, py1⟩] ∧
    gfx_request_rect g px0 py0 px1 py1 wait f =
      (gfx_run_requests g
        [⟨false, g.rect_page_x0, g.rect_page_y0, g.rect_page_x1, g.rect_page_y1⟩,
          ⟨true, px0, py0, px1, py1⟩] wait f).bind
        (fun g4 => .ok (gfx.with_rect g4 px0 py0 px1 py1, 1)) ∧
    page_request.disjoint
      ⟨false, g.rect_page_x0, g.rect_page_y0, g.rect_page_x1, g.rect_page_y1⟩
      ⟨true, px0, py0, px1, py1⟩ ∧
    (∀ (c : Bool) (x0 y0 x1 y1 : Int), (x1 ≤ x0 ∨ y1 ≤ y0) →
      g.page_width ≠ 0 → g.page_height ≠ 0 →
      gfx_request_pages g c x0 y0 x1 y1 wait f = .ok (g, 1)) := by
  have hcalls : gfx_request_rect_calls g.rect_page_x0 g.rect_page_y0 g.rect_page_x1
      g.rect_page_y1 px0 py0 px1 py1 =
      [⟨false, g.rect_page_x0, g.rect_page_y0, g.rect_page_x1, g.rect_page_y1⟩,
        ⟨true, px0, py0, px1, py1⟩] := by
    unfold gfx_request_rect_calls
    simp only [hne, hsep, if_false, if_true]
  refine ⟨hcalls, ?_, ?_, ?_⟩
  · rw [gfx_request_rect_eq_run, hcalls]
    simp only [hne, if_false]
    rfl
  · intro x y
    unfold page_request.covers in_rect
    simp only
    omega
  · intro c x0 y0 x1 y1 he hpw hph
    apply gfx_request_pages_empty g c x0 y0 x1 y1 wait f hpw hph
    unfold MIN
    rcases he with he | he
    · left; split <;> omega
    · right; split <;> omega

/-- C5 amended, in the scenario: from the empty rectangle to `(0,0)-(4,4)` the calls
are the uncommit of the empty rectangle and the commit of `(0,0)-(4,4)`. -/
theorem C5_disjoint_rects_witness :
    gfx_request_rect_calls 0 0 0 0 0 0 4 4 = [⟨false, 0, 0, 0, 0⟩, ⟨true, 0, 0, 4, 4⟩] ∧
    gfx_request_pages gfx_scenario false 0 0 0 0 false 0 = .ok (gfx_scenario, 1) := by
  have h := C5_disjoint_rects gfx_scenario 0 0 4 4 false 0 (by decide) (by decide)
  exact ⟨h.1, h.2.2.2 false 0 0 0 0 (by decide) (by decide) (by decide)⟩

/-- C6. Whenever `gfx_request_rect` returns, the tracked rectangle is the new
rectangle exactly as passed in and the return value is `1`. In particular, when the
texture descriptor is sound, the queue set is running and `Idle` is empty, a
non-blocking call does return, with the new rectangle stored, although every commit
request of a non-empty range made during the call failed: the queues and the staging
buffers are as before and only uncommit commands were issued. -/
theorem C6_rect_always_advances (g : gfx) (x0 y0 x1 y1 : Int) (wait : Bool) (f : Nat) :
    (∀ g' ret, gfx_request_rect g x0 y0 x1 y1 wait f = .ok (g', ret) →
      g'.rect_page_x0 = x0 ∧ g'.rect_page_y0 = y0 ∧ g'.rect_page_x1 = x1 ∧
      g'.rect_page_y1 = y1 ∧ ret = 1) ∧
    (dims_ok g → g.xfer.queue.stopped = 0 → counters_ok g.xfer.queue XFER_QUEUE_IDLE →
      queue_contents g.xfer.queue XFER_QUEUE_IDLE = [] →
      ∃ calls, gfx_request_rect g x0 y0 x1 y1 false f =
        .ok (gfx.with_rect
          { g with xfer := { g.xfer with gl_calls := g.xfer.gl_calls ++ calls } }
          x0 y0 x1 y1, 1)) := by
  refine ⟨fun g' ret h => gfx_request_rect_returns g g' x0 y0 x1 y1 wait f ret h, ?_⟩
  intro hd hrun hok hnil
  have he := (contents_nil_iff _ _ hok).mp hnil
  rw [gfx_request_rect_eq_run]
  by_cases heq : g.rect_page_x0 = x0 ∧ g.rect_page_y0 = y0 ∧
      g.rect_page_x1 = x1 ∧ g.rect_page_y1 = y1
  · refine ⟨[], ?_⟩
    simp only [heq, and_self, if_true, List.append_nil]
    obtain ⟨h0, h1, h2, h3⟩ := heq
    subst h0 h1 h2 h3
    rfl
  · obtain ⟨calls, hc⟩ := starved_run (gfx_request_rect_calls g.rect_page_x0 g.rect_page_y0
      g.rect_page_x1 g.rect_page_y1 x0 y0 x1 y1) f g hd hrun he
    refine ⟨calls, ?_⟩
    simp only [heq, if_false]
    rw [hc, ok_bind]
    rfl

/-- C6, in the scenario with all eight buffers taken: the commit of `(0,0)-(4,4)`
fails with status `0`, and the reconcile to `(0,0)-(4,4)` nevertheless returns `1`
with the rectangle stored. -/
theorem C6_rect_always_advances_witness :
    gfx_request_pages gfx_starved true 0 0 4 4 false 7 = .ok (gfx_starved, 0) ∧
    ∃ calls, gfx_request_rect gfx_starved 0 0 4 4 false 7 =
      .ok (gfx.with_rect
        { gfx_starved with xfer := { gfx_starved.xfer with
          gl_calls := gfx_starved.xfer.gl_calls ++ calls } } 0 0 4 4, 1) := by
  refine ⟨rfl, ?_⟩
  exact (C6_rect_always_advances gfx_starved 0 0 4 4 false 7).2 (by decide) rfl (by decide)
    (by decide)


/-- C7. A call of `gfx_request_rect` with the tracked rectangle itself returns `1`,
makes no call of `gfx_request_pages` and leaves the whole state as it is. Hence,
whenever a first call for a rectangle returns, a second call for the same rectangle
(with any frame number and wait flag) makes no call and returns `1` with the state
unchanged. -/
theorem C7_reconcile_idempotent (g : gfx) (x0 y0 x1 y1 : Int) (wait wait' : Bool) (f f' : Nat) :
    gfx_request_rect g g.rect_page_x0 g.rect_page_y0 g.rect_page_x1 g.rect_page_y1 wait f =
      .ok (g, 1) ∧
    gfx_request_rect_calls g.rect_page_x0 g.rect_page_y0 g.rect_page_x1 g.rect_page_y1
      g.rect_page_x0 g.rect_page_y0 g.rect_page_x1 g.rect_page_y1 = [] ∧
    (∀ g1 ret, gfx_request_rect g x0 y0 x1 y1 wait f = .ok (g1, ret) →
      gfx_request_rect g1 x0 y0 x1 y1 wait' f' = .ok (g1, 1) ∧
      gfx_request_rect_calls g1.rect_page_x0 g1.rect_page_y0 g1.rect_page_x1 g1.rect_page_y1
        x0 y0 x1 y1 = []) := by
  have noop : ∀ (h : gfx) (w : Bool) (k : Nat),
      gfx_request_rect h h.rect_page_x0 h.rect_page_y0 h.rect_page_x1 h.rect_page_y1 w k =
        .ok (h, 1) ∧
      gfx_request_rect_calls h.rect_page_x0 h.rect_page_y0 h.rect_page_x1 h.rect_page_y1
        h.rect_page_x0 h.rect_page_y0 h.rect_page_x1 h.rect_page_y1 = [] := by
    intro h w k
    constructor
    · simp only [gfx_request_rect, and_self, if_true]; rfl
    · simp only [gfx_request_rect_calls, and_self, if_true]
  refine ⟨(noop g wait f).1, (noop g wait f).2, ?_⟩
  intro g1 ret h
  have hrect : g1.rect_page_x0 = x0 ∧ g1.rect_page_y0 = y0 ∧
      g1.rect_page_x1 = x1 ∧ g1.rect_page_y1 = y1 := by
    rw [gfx_request_rect_eq_run] at h
    split at h
    · rename_i heq
      simp only [Except.ok.injEq, Prod.mk.injEq] at h
      rw [← h.1]; exact heq
    · cases hrun : gfx_run_requests g (gfx_request_rect_calls g.rect_page_x0 g.rect_page_y0
          g.rect_page_x1 g.rect_page_y1 x0 y0 x1 y1) wait f with
      | error e => rw [hrun] at h; simp [Except.bind] at h
      | ok g4 =>
        rw [hrun, ok_bind] at h
        simp only [Except.ok.injEq, Prod.mk.injEq] at h
        rw [← h.1]
        exact ⟨rfl, rfl, rfl, rfl⟩
  obtain ⟨e0, e1, e2, e3⟩ := hrect
  have h2 := noop g1 wait' f'
  constructor
  · have h3 := h2.1
    rw [e0, e1, e2, e3] at h3
    exact h3
  · rw [e0, e1, e2, e3]
    simp only [gfx_request_rect_calls, and_self, if_true]

/-- C7, in the scenario: the first reconcile to `(0,0)-(4,4)` returns, and the second
changes nothing. -/
theorem C7_reconcile_idempotent_witness :
    ∃ g1, gfx_request_rect gfx_scenario 0 0 4 4 false 10 = .ok (g1, 1) ∧
      gfx_request_rect g1 0 0 4 4 false 11 = .ok (g1, 1) := by
  have h1 : ∃ g1, gfx_request_rect gfx_scenario 0 0 4 4 false 10 = .ok (g1, 1) := ⟨_, rfl⟩
  obtain ⟨g1, h1⟩ := h1
  exact ⟨g1, h1, ((C7_reconcile_idempotent gfx_scenario 0 0 4 4 false false 10 11).2.2 g1 1 h1).1⟩

/-- C8, refuted as stated. In the scenario (16 x 16 page grid), the uncommit request
for `(-1,0)-(1,1)` is passed on with its lower corner unclamped: the commitment
toggle starts at pixel column `-256`, that is page column `-1`, outside the grid. -/
theorem C8_counterexample :
    ∃ g', gfx_request_pages gfx_scenario false (-1) 0 1 1 false 0 = .ok (g', 1) ∧
      g'.xfer.gl_calls = [gl_call.glTexPageCommitmentARB (-256) 0 512 256 false] :=
  ⟨_, rfl, rfl⟩

/-- C8, amended. Let the texture descriptor be sound and the lower corner of the
requested rectangle non-negative, and let `(x0, y0)-(X1, Y1)` be the rectangle with
the upper corner clamped to the page grid. If it is empty, `gfx_request_pages`
returns `1` and leaves the whole state as it is. Otherwise it is non-empty and lies
inside the grid; an uncommit request issues exactly one commitment toggle, for that
range, and returns `1`; a commit request issues no command, and the only descriptor
it can write is the one for that range, into one buffer. -/
theorem C8_clamped_range (g : gfx) (commit : Bool) (x0 y0 x1 y1 : Int) (wait : Bool) (f : Nat)
    (hd : dims_ok g) (hx : 0 ≤ x0) (hy : 0 ≤ y0) :
    ((MIN x1 (Int.tdiv g.tex_width g.page_width) ≤ x0 ∨
        MIN y1 (Int.tdiv g.tex_height g.page_height) ≤ y0) →
      gfx_request_pages g commit x0 y0 x1 y1 wait f = .ok (g, 1)) ∧
    (¬ (MIN x1 (Int.tdiv g.tex_width g.page_width) ≤ x0 ∨
        MIN y1 (Int.tdiv g.tex_height g.page_height) ≤ y0) →
      (0 ≤ x0 ∧ x0 < MIN x1 (Int.tdiv g.tex_width g.page_width) ∧
        MIN x1 (Int.tdiv g.tex_width g.page_width) ≤ Int.tdiv g.tex_width g.page_width ∧
        0 ≤ y0 ∧ y0 < MIN y1 (Int.tdiv g.tex_height g.page_height) ∧
        MIN y1 (Int.tdiv g.tex_height g.page_height) ≤ Int.tdiv g.tex_height g.page_height) ∧
      gfx_request_pages g false x0 y0 x1 y1 wait f =
        .ok ({ g with xfer := { g.xfer with
          gl_calls := g.xfer.gl_calls ++
            [gl_call.glTexPageCommitmentARB (x0 * g.page_width) (y0 * g.page_height)
              ((MIN x1 (Int.tdiv g.tex_width g.page_width) - x0) * g.page_width)
              ((MIN y1 (Int.tdiv g.tex_height g.page_height) - y0) * g.page_height)
              false] } }, 1) ∧
      (∀ g' ret, gfx_request_pages g true x0 y0 x1 y1 wait f = .ok (g', ret) →
        g'.xfer.gl_calls = g.xfer.gl_calls ∧
        (g'.xfer.buffers = g.xfer.buffers ∨
          ∃ buffer_id, g'.xfer.buffers = Function.update g.xfer.buffers buffer_id
            (xfer_descriptor (g.xfer.buffers buffer_id) g x0 y0
              (MIN x1 (Int.tdiv g.tex_width g.page_width))
              (MIN y1 (Int.tdiv g.tex_height g.page_height)) f)))) := by
  refine ⟨fun he => gfx_request_pages_empty g commit x0 y0 x1 y1 wait f hd.1 hd.2.1 he, ?_⟩
  intro hne
  refine ⟨?_, gfx_request_pages_uncommit g x0 y0 x1 y1 wait f hd hne, ?_⟩
  · have h1 : MIN x1 (Int.tdiv g.tex_width g.page_width) ≤ Int.tdiv g.tex_width g.page_width := by
      unfold MIN; split <;> omega
    have h2 : MIN y1 (Int.tdiv g.tex_height g.page_height) ≤
        Int.tdiv g.tex_height g.page_height := by
      unfold MIN; split <;> omega
    omega
  · intro g' ret h
    rw [gfx_request_pages_commit g _ _ _ _ _ _ hd hne] at h
    cases hget : xfer_queue_get g.xfer.queue XFER_QUEUE_IDLE wait 1 with
    | assert_failed => rw [hget] at h; simp at h
    | waiting q => rw [hget] at h; simp at h
    | returned q out r =>
      rw [hget] at h
      simp only [] at h
      by_cases hr : r = 1
      · simp only [hr, ne_eq, not_true_eq_false, if_false] at h
        cases hs : xfer_start (g.xfer.buffers (out.headD (-1))) g.texture g.tex_format 0
            (Int.tdiv g.tex_width g.block_width * Int.tdiv g.block_size 8)
            (x0 * g.page_width) (y0 * g.page_height) (x0 * g.page_width) (y0 * g.page_height)
            g.block_width g.block_height g.block_size
            ((MIN x1 (Int.tdiv g.tex_width g.page_width) - x0) * g.page_width)
            ((MIN y1 (Int.tdiv g.tex_height g.page_height) - y0) * g.page_height) f with
        | error e => rw [hs] at h; simp [Except.bind] at h
        | ok b =>
          rw [hs, ok_bind] at h
          simp only [Except.ok.injEq, Prod.mk.injEq] at h
          obtain ⟨hb, _⟩ := xfer_start_ok _ _ _ _ _ _ _ _ _ _ _ _ _ _ _ _ hs
          rw [← h.1]
          refine ⟨rfl, Or.inr ⟨out.headD (-1), ?_⟩⟩
          simp only [hb, xfer_descriptor]
      · simp only [hr, ne_eq, not_false_eq_true, if_true, Except.ok.injEq, Prod.mk.injEq] at h
        rw [← h.1]
        exact ⟨rfl, Or.inl rfl⟩

/-- C8 amended, in the scenario: the uncommit request for `(0,0)-(20,20)` is clamped
to the 16 x 16 grid and toggles the pixel region `4096 x 4096` at the origin. -/
theorem C8_clamped_range_witness :
    dims_ok gfx_scenario ∧
    ∃ g', gfx_request_pages gfx_scenario false 0 0 20 20 false 0 = .ok (g', 1) ∧
      g'.xfer.gl_calls = [gl_call.glTexPageCommitmentARB 0 0 4096 4096 false] := by
  have h := (C8_clamped_range gfx_scenario false 0 0 20 20 false 0 (by decide) (by decide)
    (by decide)).2 (by decide)
  exact ⟨by decide, _, h.2.1, by decide⟩


/-- C9. With a sound texture descriptor, a running queue set and an empty `Idle`
stage, a non-blocking commit request for a range that is non-empty after clamping
returns `0` (success is `1`) and leaves the whole state as it is: nothing is put on
`XFER_QUEUE_READ`, no descriptor is written, no command is issued, the four queues
are unchanged. -/
theorem C9_commit_fails_whole (g : gfx) (x0 y0 x1 y1 : Int) (f : Nat) (hd : dims_ok g)
    (hne : ¬ (MIN x1 (Int.tdiv g.tex_width g.page_width) ≤ x0 ∨
      MIN y1 (Int.tdiv g.tex_height g.page_height) ≤ y0))
    (hrun : g.xfer.queue.stopped = 0) (hok : counters_ok g.xfer.queue XFER_QUEUE_IDLE)
    (hidle : queue_contents g.xfer.queue XFER_QUEUE_IDLE = []) :
    gfx_request_pages g true x0 y0 x1 y1 false f = .ok (g, 0) := by
  have he := (contents_nil_iff _ _ hok).mp hidle
  rw [gfx_request_pages_commit g _ _ _ _ _ _ hd hne, get_empty _ _ 1 (by decide) hrun he]
  rfl

/-- C9, in the scenario with all eight buffers taken, for the range `(0,0)-(4,4)`. -/
theorem C9_commit_fails_whole_witness :
    queue_contents gfx_starved.xfer.queue XFER_QUEUE_IDLE = [] ∧
    gfx_request_pages gfx_starved true 0 0 4 4 false 3 = .ok (gfx_starved, 0) :=
  ⟨by decide, C9_commit_fails_whole gfx_starved 0 0 4 4 3 (by decide) (by decide) rfl
    (by decide) (by decide)⟩

/-- C10. From the pool set up by `xfer_init`, nine successive non-blocking
acquisitions of one index from `Idle` give `0, 1, .., 7`, each with return value `1`,
and then nothing with return value `0`. And in any state of the pool (the invariant
holding with some indices held) in which `Idle` is empty, an acquisition gives nothing;
if then the finish phase observes the fence of exactly one buffer `b` of
`XFER_QUEUE_WAIT` signaled (the others unsignaled) and returns, the next non-blocking
acquisition returns `b` with return value `1`. -/
theorem C10_pool_exhaustion :
    (acquire_idle 9 (xfer_init xfer_zero XFER_BUFFER_SIZE).queue).2 =
      [([0], 1), ([1], 1), ([2], 1), ([3], 1), ([4], 1), ([5], 1), ([6], 1), ([7], 1),
        ([], 0)] ∧
    (∀ (x x' : xfer) (held l1 l2 : List Int) (b : Int) (frame : Nat) (ss qr : Int → Nat)
        (n : Int),
      pool_inv x.queue held → queue_contents x.queue XFER_QUEUE_IDLE = [] →
      queue_contents x.queue XFER_QUEUE_WAIT = l1 ++ b :: l2 →
      ss b = GL_SIGNALED → (∀ c ∈ l1 ++ l2, ss c = GL_UNSIGNALED) →
      xfer_finish x frame ss qr = .ok (x', n) →
      xfer_queue_get x.queue XFER_QUEUE_IDLE false 1 = .returned x.queue [] 0 ∧
      ∃ q', xfer_queue_get x'.queue XFER_QUEUE_IDLE false 1 = .returned q' [b] 1 ∧
        queue_contents q' XFER_QUEUE_IDLE = []) := by
  refine ⟨by decide, ?_⟩
  intro x x' held l1 l2 b frame ss qr n hinv hidle hwait hb hothers hfin
  constructor
  · exact get_empty _ _ 1 (by decide) hinv.1
      ((contents_nil_iff _ _ (hinv.2.1 _ (by decide))).mp hidle)
  · have hinv' := finish_inv x x' frame ss qr n held hinv hfin
    obtain ⟨e1, _, _, _⟩ := finish_effect x x' frame ss qr n held hinv hfin
    rw [hidle, hwait, List.nil_append] at e1
    have hf : (l1 ++ b :: l2).filter
        (fun c => decide (finish_stage (ss c) = XFER_QUEUE_IDLE)) = [b] := by
      apply filter_single
      · simp [finish_stage, fence_status, hb]
      · intro c hc
        simp [finish_stage, fence_status, hothers c hc]
    rw [hf] at e1
    obtain ⟨q', g1, g2, _⟩ := get_loop_spec x'.queue XFER_QUEUE_IDLE false 1
      (hinv'.2.1 _ (by decide)) hinv'.1 (by rw [e1]; simp)
    rw [e1] at g1 g2
    refine ⟨q', ?_, ?_⟩
    · simp only [xfer_queue_get, one_ne_zero, if_false]
      exact g1
    · rw [g2]; rfl

/-- C10, in the scenario: buffer `0` was committed, copied and uploaded and the other
seven buffers were acquired; `Idle` is empty and an acquisition gives nothing; the
finish phase with the fence signaled returns `1`, and the next acquisition gives
buffer `0`. -/
theorem C10_pool_exhaustion_witness :
    queue_contents xfer_awaiting.queue XFER_QUEUE_IDLE = [] ∧
    queue_contents xfer_awaiting.queue XFER_QUEUE_WAIT = [0] ∧
    xfer_queue_get xfer_awaiting.queue XFER_QUEUE_IDLE false 1 =
      .returned xfer_awaiting.queue [] 0 ∧
    ∃ x', xfer_finish xfer_awaiting 13 (fun _ => GL_SIGNALED) (fun _ => 5000) = .ok (x', 1) ∧
      ∃ q', xfer_queue_get x'.queue XFER_QUEUE_IDLE false 1 = .returned q' [0] 1 ∧
        queue_contents q' XFER_QUEUE_IDLE = [] := by
  have hfin : ∃ x', xfer_finish xfer_awaiting 13 (fun _ => GL_SIGNALED) (fun _ => 5000) =
      .ok (x', 1) := ⟨_, rfl⟩
  obtain ⟨x', hfin⟩ := hfin
  have h := C10_pool_exhaustion.2 xfer_awaiting x' [1, 2, 3, 4, 5, 6, 7] [] [] 0 13
    (fun _ => GL_SIGNALED) (fun _ => 5000) 1 (by decide) (by decide) (by decide) rfl
    (by intro c hc; simp at hc) hfin
  exact ⟨by decide, by decide, h.1, x', hfin, h.2⟩

/-- C11, counterexample. In the scenario (a 16 x 16 page grid, pages of 16 KiB, buffers
of 2 MiB) the commit request for the whole grid `(0,0)-(16,16)`, made on the state
`xfer_init` leaves, acquires a buffer and fails the size assertion of `xfer_start`
(4 MiB are asked for); so does the request for `(0,0)-(16,8)`, whose size is exactly
the capacity. No `int` expression overflows on either request. -/
theorem C11_counterexample :
    queue_contents gfx_scenario.xfer.queue XFER_QUEUE_IDLE = [0, 1, 2, 3, 4, 5, 6, 7] ∧
    request_size_bytes gfx_scenario 0 0 16 16 = 2 * XFER_BUFFER_SIZE ∧
    gfx_request_pages gfx_scenario true 0 0 16 16 false 0 = .error Halt.fault ∧
    request_size_bytes gfx_scenario 0 0 16 8 = XFER_BUFFER_SIZE ∧
    gfx_request_pages gfx_scenario true 0 0 16 8 false 0 = .error Halt.fault ∧
    commit_in_int gfx_scenario 0 0 16 16 ∧ commit_in_int gfx_scenario 0 0 16 8 :=
  ⟨by decide, by decide, halt_of_eq _ _ (by decide), by decide, halt_of_eq _ _ (by decide),
    by decide, by decide⟩

/-- C11, amended. In every state reachable from the pool set up by `xfer_init` while
the driver reports each queried fence as signaled or unsignaled, with non-zero page
and block dimensions, a commit request for a rectangle that is not empty after the
clamp and finds a buffer on `Idle` acquires the first one, `b`; that buffer has the
capacity `XFER_BUFFER_SIZE` and holds no fence, so the fence assertion of
`xfer_start` holds. When no `int` expression of the request overflows
(`commit_in_int`: every value the commit path computes is a value of the 32-bit
`int`), the size assertion holds exactly when the byte size computed for the
rectangle is below the capacity: then the request returns `1` with the descriptor
stored in `b` and `b` put on the read queue; otherwise it fails the assertion.
Nothing is stated about a request whose `int` arithmetic overflows. -/
theorem C11_start_assertions (g : gfx) (x0 y0 x1 y1 : Int) (wait : Bool) (f : Nat)
    (b : Int) (rest : List Int)
    (hreach : ReachableNoError g) (hd : dims_ok g)
    (he : ¬ (MIN x1 (Int.tdiv g.tex_width g.page_width) ≤ x0 ∨
      MIN y1 (Int.tdiv g.tex_height g.page_height) ≤ y0))
    (hidle : queue_contents g.xfer.queue XFER_QUEUE_IDLE = b :: rest) :
    (∃ q, xfer_queue_get g.xfer.queue XFER_QUEUE_IDLE wait 1 = .returned q [b] 1) ∧
    (g.xfer.buffers b).size = XFER_BUFFER_SIZE ∧
    (g.xfer.buffers b).syncpt = 0 ∧
    (commit_in_int g x0 y0 x1 y1 →
      (request_size_bytes g x0 y0 x1 y1 < XFER_BUFFER_SIZE →
        ∃ g', gfx_request_pages g true x0 y0 x1 y1 wait f = .ok (g', 1) ∧
          g'.xfer.buffers b = xfer_descriptor (g.xfer.buffers b) g x0 y0
            (MIN x1 (Int.tdiv g.tex_width g.page_width))
            (MIN y1 (Int.tdiv g.tex_height g.page_height)) f ∧
          queue_contents g'.xfer.queue XFER_QUEUE_IDLE = rest ∧
          queue_contents g'.xfer.queue XFER_QUEUE_READ =
            queue_contents g.xfer.queue XFER_QUEUE_READ ++ [b]) ∧
      (¬ request_size_bytes g x0 y0 x1 y1 < XFER_BUFFER_SIZE →
        gfx_request_pages g true x0 y0 x1 y1 wait f = .error Halt.fault)) := by
  obtain ⟨hinv, hf⟩ := reachable_fence g hreach
  have hmem : b ∈ queue_contents g.xfer.queue XFER_QUEUE_IDLE := by rw [hidle]; simp
  have hsync := hf.2 b hmem
  have hrange : 0 ≤ b ∧ b < XFER_NUM_BUFFERS := by
    have hperm := hinv.2.2
    have : b ∈ all_queued g.xfer.queue ++ [] := by
      unfold all_queued
      simp only [List.mem_append]
      left; left; left; left; exact hmem
    have := (List.Perm.mem_iff hperm).mp this
    simp only [List.mem_cons, List.mem_singleton, List.not_mem_nil, or_false] at this
    simp only [XFER_NUM_BUFFERS]
    omega
  have hsize := hf.1 b hrange.1 hrange.2
  obtain ⟨q, g1, g2, _⟩ := get_loop_spec g.xfer.queue XFER_QUEUE_IDLE wait 1
    (hinv.2.1 _ (by decide)) hinv.1 (by rw [hidle]; simp)
  rw [hidle] at g1 g2
  have hget : xfer_queue_get g.xfer.queue XFER_QUEUE_IDLE wait 1 = .returned q [b] 1 := by
    simp only [xfer_queue_get, one_ne_zero, if_false]
    rw [g1]
    simp
  have hp := get_one _ q XFER_QUEUE_IDLE wait [] [b] (by decide) hinv hget
  obtain ⟨i1, _, _, _, i5⟩ := get_inv _ q XFER_QUEUE_IDLE wait 1 [] [b] 1 (by decide) hinv hget
  have hb : ([b] : List Int).headD (-1) = b := rfl
  rw [hb] at hp
  obtain ⟨p1, _⟩ := put_inv q XFER_QUEUE_READ b [] (by decide) hp
  obtain ⟨c1, c2⟩ := put_inv_contents q XFER_QUEUE_READ b [] (by decide) hp
  have hcommit := gfx_request_pages_commit g x0 y0 x1 y1 wait f hd he
  rw [hget] at hcommit
  simp only [ne_eq, not_true_eq_false, if_false, hb] at hcommit
  refine ⟨⟨q, hget⟩, hsize, hsync, ?_⟩
  intro _
  refine ⟨?_, ?_⟩
  · intro hlt
    have hstart : xfer_start (g.xfer.buffers b) g.texture g.tex_format 0
        (Int.tdiv g.tex_width g.block_width * Int.tdiv g.block_size 8)
        (x0 * g.page_width) (y0 * g.page_height) (x0 * g.page_width) (y0 * g.page_height)
        g.block_width g.block_height g.block_size
        ((MIN x1 (Int.tdiv g.tex_width g.page_width) - x0) * g.page_width)
        ((MIN y1 (Int.tdiv g.tex_height g.page_height) - y0) * g.page_height) f =
        .ok (xfer_descriptor (g.xfer.buffers b) g x0 y0
          (MIN x1 (Int.tdiv g.tex_width g.page_width))
          (MIN y1 (Int.tdiv g.tex_height g.page_height)) f) := by
      rw [xfer_start_eval _ _ _ _ _ _ _ _ _ _ _ _ _ _ f hd.2.2.1 hd.2.2.2,
        if_neg (not_not.mpr (by rw [hsize]; exact hlt)), if_neg (not_not.mpr hsync)]
      rfl
    rw [hstart] at hcommit
    simp only [Except.bind, p1, ne_eq, not_true_eq_false, if_false] at hcommit
    refine ⟨_, hcommit, ?_, ?_, ?_⟩
    · dsimp only
      rw [Function.update_same]
    · dsimp only
      rw [c2 XFER_QUEUE_IDLE (by decide), g2]
      rfl
    · dsimp only
      rw [c1, i5 XFER_QUEUE_READ (by decide)]
  · intro hge
    rw [xfer_start_eval _ _ _ _ _ _ _ _ _ _ _ _ _ _ f hd.2.2.1 hd.2.2.2,
      if_pos (by rw [hsize]; exact hge)] at hcommit
    exact hcommit

theorem C11_start_assertions_witness :
    ReachableNoError gfx_scenario ∧ dims_ok gfx_scenario ∧
    queue_contents gfx_scenario.xfer.queue XFER_QUEUE_IDLE = 0 :: [1, 2, 3, 4, 5, 6, 7] ∧
    commit_in_int gfx_scenario 0 0 2 2 ∧
    request_size_bytes gfx_scenario 0 0 2 2 = 65536 ∧
    (gfx_scenario.xfer.buffers 0).size = XFER_BUFFER_SIZE ∧
    (gfx_scenario.xfer.buffers 0).syncpt = 0 ∧
    ∃ g', gfx_request_pages gfx_scenario true 0 0 2 2 false 0 = .ok (g', 1) ∧
      queue_contents g'.xfer.queue XFER_QUEUE_IDLE = [1, 2, 3, 4, 5, 6, 7] ∧
      queue_contents g'.xfer.queue XFER_QUEUE_READ = [0] := by
  have hr : ReachableNoError gfx_scenario := by
    refine ReachableNoError.init _ rfl ?_
    intro b h0 h1
    have h2 : b < 8 := h1
    simp [gfx_scenario, xfer_init, xfer_buffer_init, h0, h2]
  have h := C11_start_assertions gfx_scenario 0 0 2 2 false 0 0 [1, 2, 3, 4, 5, 6, 7] hr
    (by decide) (by decide) (by decide)
  obtain ⟨g', e1, _, e3, e4⟩ := (h.2.2.2 (by decide)).1 (by decide)
  refine ⟨hr, by decide, by decide, by decide, by decide, h.2.1, h.2.2.1, g', e1, e3, ?_⟩
  rw [e4]
  decide

/-- C12. The status `xfer_buffer_finish` returns, for every buffer, wait mode and
answer of the driver: it is `1`, `0` or `-1`; it is `1` exactly when the fence is
observed satisfied (client wait reporting already-signaled or condition-satisfied,
or, without client wait, the query reporting signaled); it is `0` exactly when there
is no client wait and the query reports unsignaled; the fence is cleared exactly on
`1`. With a client wait whose timeout expired the status is `-1`, not `0`: the case
`GL_TIMEOUT_EXPIRED` of the `switch` has no `break` and runs on into the default
case. -/
theorem C12_timeout_returns_error (b : xfer_buffer) (server_wait client_wait flush : Bool)
    (t cond ss qr : Nat) :
    ((xfer_buffer_finish b server_wait client_wait flush t cond ss qr).2.1 = 1 ∨
      (xfer_buffer_finish b server_wait client_wait flush t cond ss qr).2.1 = 0 ∨
      (xfer_buffer_finish b server_wait client_wait flush t cond ss qr).2.1 = -1) ∧
    ((xfer_buffer_finish b server_wait client_wait flush t cond ss qr).2.1 = 1 ↔
      (client_wait = true ∧ (cond = GL_ALREADY_SIGNALED ∨ cond = GL_CONDITION_SATISFIED)) ∨
      (client_wait = false ∧ ss = GL_SIGNALED)) ∧
    ((xfer_buffer_finish b server_wait client_wait flush t cond ss qr).2.1 = 0 ↔
      client_wait = false ∧ ss = GL_UNSIGNALED) ∧
    (xfer_buffer_finish b server_wait client_wait flush t cond ss qr).1.syncpt =
      (if (xfer_buffer_finish b server_wait client_wait flush t cond ss qr).2.1 = 1 then 0
       else b.syncpt) ∧
    (xfer_buffer_finish b server_wait true flush t GL_TIMEOUT_EXPIRED ss qr).2.1 = -1 ∧
    (xfer_buffer_finish b server_wait true flush t GL_TIMEOUT_EXPIRED ss qr).1.syncpt =
      b.syncpt := by
  have hne : GL_SIGNALED ≠ GL_UNSIGNALED := by decide
  refine ⟨?_, ?_, ?_, rfl, ?_, ?_⟩
  · cases client_wait <;> simp only [xfer_buffer_finish] <;> split_ifs <;> simp
  · cases client_wait <;> simp only [xfer_buffer_finish] <;> split_ifs <;> simp_all
  · cases client_wait <;> simp only [xfer_buffer_finish] <;> split_ifs <;> simp_all
  · simp [xfer_buffer_finish, GL_TIMEOUT_EXPIRED, GL_ALREADY_SIGNALED, GL_CONDITION_SATISFIED]
  · simp [xfer_buffer_finish, GL_TIMEOUT_EXPIRED, GL_ALREADY_SIGNALED, GL_CONDITION_SATISFIED]

/-- C13. The finish phase on a fence error. In the scenario after a commit of the pages
`(0,0)-(2,2)`, the copy and the upload, buffer `0` awaits its fence `77`; the driver
leaves the queried status at `0`, which is neither signaled nor unsignaled, so
`xfer_buffer_finish` returns `-1`. `xfer_finish` then puts the buffer on `Idle`
and counts it: it returns `1`, `Idle` holds `0` behind the other seven, the wait
queue is empty and the fence is still in place. The same in the state
`xfer_awaiting`, where `Idle` is empty: the very next commit request acquires
buffer `0` and fails the assertion of `xfer_start`. -/
theorem C13_error_is_recycled :
    queue_contents (xfer_in_flight gfx_scenario 0 0 2 2 0).queue XFER_QUEUE_IDLE =
      [1, 2, 3, 4, 5, 6, 7] ∧
    queue_contents (xfer_in_flight gfx_scenario 0 0 2 2 0).queue XFER_QUEUE_WAIT = [0] ∧
    (xfer_buffer_finish ((xfer_in_flight gfx_scenario 0 0 2 2 0).buffers 0)
      true false false 0 0 0 5000).2.1 = -1 ∧
    (∃ x', xfer_finish (xfer_in_flight gfx_scenario 0 0 2 2 0) 1 (fun _ => 0)
        (fun _ => 5000) = .ok (x', 1) ∧
      queue_contents x'.queue XFER_QUEUE_IDLE = [1, 2, 3, 4, 5, 6, 7, 0] ∧
      queue_contents x'.queue XFER_QUEUE_WAIT = [] ∧
      (x'.buffers 0).syncpt = 77) ∧
    queue_contents xfer_awaiting.queue XFER_QUEUE_IDLE = [] ∧
    queue_contents xfer_awaiting.queue XFER_QUEUE_WAIT = [0] ∧
    ∃ x', xfer_finish xfer_awaiting 1 (fun _ => 0) (fun _ => 5000) = .ok (x', 1) ∧
      queue_contents x'.queue XFER_QUEUE_IDLE = [0] ∧
      queue_contents x'.queue XFER_QUEUE_WAIT = [] ∧
      (x'.buffers 0).syncpt = 77 ∧
      gfx_request_pages { gfx_scenario with xfer := x' } true 0 0 1 1 false 2 =
        .error Halt.fault := by
  refine ⟨by decide, by decide, by decide, ⟨_, rfl, by decide, by decide, by decide⟩,
    by decide, by decide, _, rfl, by decide, by decide, by decide, ?_⟩
  exact halt_of_eq _ _ (by decide!)

/-- C14. The copy is a strided 2-D copy of whole blocks. For `blockblit2d` with
non-zero block dimensions, a non-negative byte count per row and a destination pitch
of at least that count: it returns `rows * cols`; for every row `r < rows` and byte
`j < cols * B` the destination byte at `r * dst_pitch + j` is the source byte at
`(src_y / block_height + r) * src_pitch + (src_x / block_width) * B + j`; every other
destination byte is unchanged (the source is an argument that is only read). For
`xfer_buffer_blit`, where `dst_pitch = cols * B` and `B = block_size / 8`: the rows
lie one after the other from offset `0`, row `r` at `r * (cols * B)`, the source
being the texture file from `src_ptr` on, and every byte outside
`0 .. rows * cols * B` of the staging buffer is unchanged, as is the rest of the
buffer record. -/
theorem C14_strided_copy :
    (∀ (src dst : Int → Nat) (src_pitch src_x src_y dst_pitch bw bh B w h : Int),
      bw ≠ 0 → bh ≠ 0 → 0 ≤ Int.tdiv w bw * B → Int.tdiv w bw * B ≤ dst_pitch →
      ∃ dst', blockblit2d src src_pitch src_x src_y dst dst_pitch bw bh B w h =
          .ok (dst', Int.tdiv h bh * Int.tdiv w bw) ∧
        (∀ r j : Int, 0 ≤ r → r < Int.tdiv h bh → 0 ≤ j → j < Int.tdiv w bw * B →
          dst' (r * dst_pitch + j) =
            src ((Int.tdiv src_y bh + r) * src_pitch + Int.tdiv src_x bw * B + j)) ∧
        (∀ a : Int, (∀ r : Int, 0 ≤ r → r < Int.tdiv h bh →
            ¬ (r * dst_pitch ≤ a ∧ a < r * dst_pitch + Int.tdiv w bw * B)) →
          dst' a = dst a)) ∧
    (∀ (b : xfer_buffer) (mem : Int → Nat),
      b.block_width ≠ 0 → b.block_height ≠ 0 →
      0 ≤ Int.tdiv b.width b.block_width * Int.tdiv b.block_size 8 →
      ∃ dst', xfer_buffer_blit b mem = .ok { b with pbo_buffer := dst' } ∧
        (∀ r j : Int, 0 ≤ r → r < Int.tdiv b.height b.block_height → 0 ≤ j →
          j < Int.tdiv b.width b.block_width * Int.tdiv b.block_size 8 →
          dst' (r * (Int.tdiv b.width b.block_width * Int.tdiv b.block_size 8) + j) =
            mem (b.src_ptr + ((Int.tdiv b.src_y b.block_height + r) * b.src_pitch +
              Int.tdiv b.src_x b.block_width * Int.tdiv b.block_size 8 + j))) ∧
        (∀ a : Int, ¬ (0 ≤ a ∧ a < Int.tdiv b.height b.block_height *
            (Int.tdiv b.width b.block_width * Int.tdiv b.block_size 8)) →
          dst' a = b.pbo_buffer a)) :=
  ⟨blockblit2d_spec, xfer_buffer_blit_spec⟩

theorem C14_strided_copy_witness :
    ∃ dst', xfer_buffer_blit blit_sample astc_blob =
        .ok { blit_sample with pbo_buffer := dst' } ∧
      dst' (1 * (64 * 16) + 5) = astc_blob (0 + ((32 + 1) * 8192 + 32 * 16 + 5)) ∧
      dst' (32 * (64 * 16)) = 0 := by
  obtain ⟨dst', h1, h2, h3⟩ :=
    C14_strided_copy.2 blit_sample astc_blob (by decide) (by decide) (by decide)
  exact ⟨dst', h1, h2 1 5 (by decide) (by decide) (by decide) (by decide),
    h3 (32 * (64 * 16)) (by decide)⟩

/-- C15. The latency histogram of the finish phase. For one buffer examined by
`xfer_finish` on frame `f < 2^64` whose transfer was started on frame `s ≤ f`: the
bucket `min (f - s) 15` is incremented by one (in `uint64_t`), every other bucket is
unchanged, and the bucket index lies in `0 .. 15`. For the whole phase from a state
of the pool: every bucket `k` is incremented once for each buffer awaiting its fence
whose `min (f - s) 15` is `k`. -/
theorem C15_latency_bucket (f : Nat) (ss qr : Int → Nat) (hf : f < 2 ^ 64) :
    (∀ (s s' : xfer × Int) (b : Int), (s.1.buffers b).start_frame ≤ f →
      xfer_finish_one f ss qr s b = .ok s' →
      s'.1.latency_histogram (min ((f : Int) - ((s.1.buffers b).start_frame : Int)) 15) =
        (s.1.latency_histogram (min ((f : Int) - ((s.1.buffers b).start_frame : Int)) 15)
          + 1) % 2 ^ 64 ∧
      (∀ i : Int, i ≠ min ((f : Int) - ((s.1.buffers b).start_frame : Int)) 15 →
        s'.1.latency_histogram i = s.1.latency_histogram i) ∧
      0 ≤ min ((f : Int) - ((s.1.buffers b).start_frame : Int)) 15 ∧
      min ((f : Int) - ((s.1.buffers b).start_frame : Int)) 15 ≤ 15) ∧
    (∀ (x x' : xfer) (n : Int) (held : List Int), pool_inv x.queue held →
      (∀ b ∈ queue_contents x.queue XFER_QUEUE_WAIT, (x.buffers b).start_frame ≤ f) →
      xfer_finish x f ss qr = .ok (x', n) →
      ∀ k : Int, x'.latency_histogram k =
        (fun v => (v + 1) % 2 ^ 64)^[((queue_contents x.queue XFER_QUEUE_WAIT).filter
          (fun b => decide
            (min ((f : Int) - ((x.buffers b).start_frame : Int)) 15 = k))).length]
          (x.latency_histogram k)) := by
  constructor
  · intro s s' b hs h
    obtain ⟨e1, _⟩ := finish_one_hist f ss qr s s' b h
    rw [← latency_index_eq f _ hs hf, e1]
    refine ⟨Function.update_same _ _ _, ?_, latency_index_range f _⟩
    intro i hi
    exact Function.update_noteq hi _ _
  · intro x x' n held hinv hs h k
    unfold xfer_finish at h
    split at h
    · simp at h
    · simp at h
    · rename_i q out num hget
      obtain ⟨_, i2, _⟩ := get_inv _ q XFER_QUEUE_WAIT false _ held out num (by decide) hinv hget
      obtain ⟨a1, _, _⟩ := get_all _ q XFER_QUEUE_WAIT false held out num (by decide) hinv hget
      rw [take_length_eq out num i2] at h
      have := fold_hist f ss qr out _ _ h k
      simp only at this
      rw [this, a1]
      congr 2
      apply List.filter_congr
      intro b hb
      rw [latency_index_eq f _ (hs b hb) hf]

theorem C15_latency_bucket_witness :
    13 < 2 ^ 64 ∧
    ((xfer_in_flight gfx_scenario 0 0 2 2 10).buffers 0).start_frame = 10 ∧
    queue_contents (xfer_in_flight gfx_scenario 0 0 2 2 10).queue XFER_QUEUE_WAIT = [0] ∧
    ∃ x', xfer_finish (xfer_in_flight gfx_scenario 0 0 2 2 10) 13 (fun _ => GL_SIGNALED)
        (fun _ => 5000) = .ok (x', 1) ∧
      x'.latency_histogram 3 = 1 ∧
      ∀ k : Int, k ≠ 3 → x'.latency_histogram k = 0 := by
  have hfin : ∃ x', xfer_finish (xfer_in_flight gfx_scenario 0 0 2 2 10) 13
      (fun _ => GL_SIGNALED) (fun _ => 5000) = .ok (x', 1) := ⟨_, rfl⟩
  obtain ⟨x', hfin⟩ := hfin
  have h := (C15_latency_bucket 13 (fun _ => GL_SIGNALED) (fun _ => 5000) (by decide)).2
    (xfer_in_flight gfx_scenario 0 0 2 2 10) x' 1 [] (by decide) (by decide) hfin
  refine ⟨by decide, rfl, by decide, x', hfin, ?_, ?_⟩
  · rw [h 3]; rfl
  · intro k hk
    rw [h k]
    have e : queue_contents (xfer_in_flight gfx_scenario 0 0 2 2 10).queue XFER_QUEUE_WAIT =
        [0] := by decide
    have e2 : ((xfer_in_flight gfx_scenario 0 0 2 2 10).buffers 0).start_frame = 10 := rfl
    rw [e]
    simp only [List.filter_cons, List.filter_nil, e2]
    have : ¬ (min (((13 : Nat) : Int) - ((10 : Nat) : Int)) 15 = k) := by
      intro hh; apply hk; rw [← hh]; decide
    simp only [this, decide_False, Bool.false_eq_true, if_false, List.length_nil,
      Function.iterate_zero, id_eq]
    rfl

/-- C16. The source offset of a commit request. On the scenario with the texture file
`astc_blob` (sixteen header bytes `255`, then the pixel data), the request for the
page `(0,0)-(1,1)` stores the source pointer at offset `0` of the file, and the copy
fills the staging buffer from there: its bytes `0`, `1` and `17` are the file bytes
`0`, `1` and `17` (`255`, `255`, `1`), not the pixel bytes at file offsets `16`, `17`
and `33` (`0`, `1`, `17`). The destination coordinates and the extent are those of
the rectangle. -/
theorem C16_header_is_copied :
    ((xfer_in_flight gfx_textured 0 0 1 1 0).buffers 0).src_ptr = 0 ∧
    ((xfer_in_flight gfx_textured 0 0 1 1 0).buffers 0).pbo_buffer 0 = 255 ∧
    ((xfer_in_flight gfx_textured 0 0 1 1 0).buffers 0).pbo_buffer 1 = 255 ∧
    ((xfer_in_flight gfx_textured 0 0 1 1 0).buffers 0).pbo_buffer 17 = 1 ∧
    astc_blob 0 = 255 ∧ astc_blob 1 = 255 ∧ astc_blob 17 = 1 ∧
    astc_blob 16 = 0 ∧ astc_blob (16 + 1) = 1 ∧ astc_blob (16 + 17) = 17 ∧
    ((xfer_in_flight gfx_textured 0 0 1 1 0).buffers 0).dst_x = 0 * 256 ∧
    ((xfer_in_flight gfx_textured 0 0 1 1 0).buffers 0).dst_y = 0 * 256 ∧
    ((xfer_in_flight gfx_textured 0 0 1 1 0).buffers 0).width = (1 - 0) * 256 ∧
    ((xfer_in_flight gfx_textured 0 0 1 1 0).buffers 0).height = (1 - 0) * 256 := by
  refine ⟨rfl, ?_, ?_, ?_, by decide, by decide, by decide, by decide, by decide, by decide,
    rfl, rfl, rfl, rfl⟩
  · rfl
  · rfl
  · rfl

/-- C17. The page count of the finish phase. In the scenario (pages of 256 x 256
pixels) the transfer of the single page `(0,0)-(1,1)` has width and height `256`, so
`(width / 512) * (height / 512)` is `0` and `xfer_finish` divides by zero. For the
four pages `(0,0)-(2,2)` the count is `1`, and the copy-time sample recorded is
`1000 / 1`, not `1000 / 4`. -/
theorem C17_page_count_constant :
    queue_contents (xfer_in_flight gfx_scenario 0 0 1 1 0).queue XFER_QUEUE_WAIT = [0] ∧
    ((xfer_in_flight gfx_scenario 0 0 1 1 0).buffers 0).width = 256 ∧
    ((xfer_in_flight gfx_scenario 0 0 1 1 0).buffers 0).height = 256 ∧
    xfer_finish (xfer_in_flight gfx_scenario 0 0 1 1 0) 1 (fun _ => GL_SIGNALED)
      (fun _ => 5000) = .error Halt.fault ∧
    queue_contents (xfer_in_flight gfx_scenario 0 0 2 2 0).queue XFER_QUEUE_WAIT = [0] ∧
    ((xfer_in_flight gfx_scenario 0 0 2 2 0).buffers 0).blit_time = 1000 ∧
    ∃ x', xfer_finish (xfer_in_flight gfx_scenario 0 0 2 2 0) 1 (fun _ => GL_SIGNALED)
        (fun _ => 5000) = .ok (x', 1) ∧
      x'.blit_times 0 = 1000 := by
  refine ⟨by decide, rfl, rfl, rfl, by decide, rfl, _, rfl, rfl⟩

/-- C18. Whenever `xfer_start` returns (its size assertion held), with positive block
dimensions, non-negative width, height and block size and the size expression within
`int`, the copy that follows (`xfer_buffer_blit` on the stored descriptor) returns
and writes exactly the offsets below
`N = (height/block_height) * ((width/block_width) * (block_size/8))`: every offset
outside `0 .. N` keeps its content, every offset `a` in `0 .. N` receives the source
byte of row `a / L`, byte `a % L` (`L` the bytes of a row). `N` is at most the size
computed by `xfer_start` (left to right: `width/block_width * height / block_height *
block_size / 8`), which is below the capacity, so every written offset is below the
capacity. No divisibility of width, height or block size is assumed. -/
theorem C18_blit_within_capacity (b b' : xfer_buffer) (dst_tex : Nat)
    (tex_format src_ptr src_pitch src_x src_y dst_x dst_y bw bh bs w h : Int) (f : Nat)
    (mem : Int → Nat)
    (hbw : 0 < bw) (hbh : 0 < bh) (hbs : 0 ≤ bs) (hw : 0 ≤ w) (hh : 0 ≤ h)
    (hover : Int.tdiv (Int.tdiv w bw * h) bh * bs < 2 ^ 31)
    (hstart : xfer_start b dst_tex tex_format src_ptr src_pitch src_x src_y dst_x dst_y
      bw bh bs w h f = .ok b') :
    Int.tdiv h bh * (Int.tdiv w bw * Int.tdiv bs 8) ≤
      Int.tdiv (Int.tdiv (Int.tdiv w bw * h) bh * bs) 8 ∧
    Int.tdiv (Int.tdiv (Int.tdiv w bw * h) bh * bs) 8 < (b.size : Int) ∧
    b'.size = b.size ∧
    ∃ dst', xfer_buffer_blit b' mem = .ok { b' with pbo_buffer := dst' } ∧
      (∀ a : Int, ¬ (0 ≤ a ∧ a < Int.tdiv h bh * (Int.tdiv w bw * Int.tdiv bs 8)) →
        dst' a = b.pbo_buffer a) ∧
      (∀ a : Int, 0 ≤ a → a < Int.tdiv h bh * (Int.tdiv w bw * Int.tdiv bs 8) →
        a < (b.size : Int) ∧
        dst' a = mem (src_ptr +
          ((Int.tdiv src_y bh + a / (Int.tdiv w bw * Int.tdiv bs 8)) * src_pitch +
            Int.tdiv src_x bw * Int.tdiv bs 8 + a % (Int.tdiv w bw * Int.tdiv bs 8)))) := by
  have hle := blit_size_le bw bh bs w h hbw hbh hbs hw hh
  have hsz := xfer_start_size _ _ _ _ _ _ _ _ _ _ _ _ _ _ _ _ hstart
  obtain ⟨hb', _⟩ := xfer_start_ok _ _ _ _ _ _ _ _ _ _ _ _ _ _ _ _ hstart
  have hc : 0 ≤ Int.tdiv w bw := Int.tdiv_nonneg hw (le_of_lt hbw)
  have hr : 0 ≤ Int.tdiv h bh := Int.tdiv_nonneg hh (le_of_lt hbh)
  have hB : 0 ≤ Int.tdiv bs 8 := Int.tdiv_nonneg hbs (by decide)
  have hL : 0 ≤ Int.tdiv w bw * Int.tdiv bs 8 := Int.mul_nonneg hc hB
  have hq : 0 ≤ Int.tdiv (Int.tdiv w bw * h) bh :=
    Int.tdiv_nonneg (Int.mul_nonneg hc hh) (le_of_lt hbh)
  have hS0 : 0 ≤ Int.tdiv (Int.tdiv (Int.tdiv w bw * h) bh * bs) 8 :=
    Int.tdiv_nonneg (Int.mul_nonneg hq hbs) (by decide)
  have hS1 : Int.tdiv (Int.tdiv (Int.tdiv w bw * h) bh * bs) 8 ≤
      Int.tdiv (Int.tdiv w bw * h) bh * bs := by
    rw [Int.tdiv_eq_ediv (Int.mul_nonneg hq hbs) (by decide)]
    have := Int.ediv_mul_le (Int.tdiv (Int.tdiv w bw * h) bh * bs) (by decide : (8 : Int) ≠ 0)
    have := Int.mul_nonneg hq hbs
    omega
  have hcap : Int.tdiv (Int.tdiv (Int.tdiv w bw * h) bh * bs) 8 < (b.size : Int) := by
    unfold to_uint64 at hsz
    rw [Int.emod_eq_of_lt hS0 (by omega)] at hsz
    omega
  refine ⟨hle, hcap, by rw [hb'], ?_⟩
  obtain ⟨dst', h1, h2, h3⟩ := xfer_buffer_blit_spec b' mem
    (by rw [hb']; exact ne_of_gt hbw) (by rw [hb']; exact ne_of_gt hbh)
    (by rw [hb']; exact hL)
  rw [hb'] at h2 h3
  simp only at h2 h3
  refine ⟨dst', h1, h3, ?_⟩
  intro a ha0 ha1
  refine ⟨by omega, ?_⟩
  have hLpos : 0 < Int.tdiv w bw * Int.tdiv bs 8 := by
    apply lt_of_le_of_ne hL
    intro heq
    rw [← heq] at ha1
    omega
  have hdm := Int.ediv_add_emod a (Int.tdiv w bw * Int.tdiv bs 8)
  have := h2 (a / (Int.tdiv w bw * Int.tdiv bs 8)) (a % (Int.tdiv w bw * Int.tdiv bs 8))
    (Int.ediv_nonneg ha0 hL) (Int.ediv_lt_of_lt_mul hLpos ha1)
    (Int.emod_nonneg a (ne_of_gt hLpos)) (Int.emod_lt_of_pos a hLpos)
  rw [← this]
  congr 1
  rw [mul_comm]
  exact hdm.symm

theorem C18_blit_within_capacity_witness :
    xfer_start (xfer_buffer_init xfer_buffer_zero XFER_BUFFER_SIZE) 0 0 0 8192 256 256 256 256
      8 8 128 512 256 0 = .ok blit_sample ∧
    ∃ dst', xfer_buffer_blit blit_sample astc_blob =
        .ok { blit_sample with pbo_buffer := dst' } ∧
      (∀ a : Int, ¬ (0 ≤ a ∧ a < 32768) → dst' a = 0) ∧
      (∀ a : Int, 0 ≤ a → a < 32768 → a < 2097152 ∧
        dst' a = astc_blob (0 + ((32 + a / 1024) * 8192 + 32 * 16 + a % 1024))) :=
  ⟨rfl, (C18_blit_within_capacity (xfer_buffer_init xfer_buffer_zero XFER_BUFFER_SIZE)
    blit_sample 0 0 0 8192 256 256 256 256 8 8 128 512 256 0 astc_blob
    (by decide) (by decide) (by decide) (by decide) (by decide) (by decide) rfl).2.2.2⟩

end SparseDemo
